import Mathlib

/-!
# easylark: credential cache and authenticated request dispatcher

A shallow embedding of `client.go`.  The three methods of `Client`
(`GetTenantAccessToken`, `DoRequest`, `UploadFile`) are translated statement by
statement into pure functions.  Everything the package calls but does not
define is made explicit:

* the pure library functions (`json.Marshal`, `json.Unmarshal`,
  `http.NewRequest`) are fields of `Lib` and `Codec`;
* the outside world of one call (the readings of `time.Now()`, what
  `httpClient.Do` followed by `io.ReadAll` yields, what `mime/multipart`
  produces) is a value of `Env`;
* the two package-level variables are a value of `Vars`.

A call returns, next to the Go results, the client after the call and the list
of the requests it handed to `httpClient.Do`, in order.

For result sinks built from `bool`, `int`, `string`, slices and structs,
`json.Unmarshal` is also given as a function of its own, written after the
documentation of `encoding/json` (section "The JSON codec").
-/

set_option linter.dupNamespace false

namespace Easylark

/-! ## Data model -/

/-- A Go byte slice. -/
abbrev Bytes := List (Fin 256)

/-- An instant of `time.Time`, in nanoseconds on the clock `time.Now()` reads:
`Before` is `<` and `Add` is `+`. A `time.Time` has room for any clock reading
plus one `time.Duration`, so `Add` is exact here. -/
abbrev Time := Int

/-- The library type `Error` of `client.go` (lines 176-179). -/
structure Error where
  Code : Int
  Message : String
deriving DecidableEq, Repr

/-- The method `(*Error).Error` (lines 182-184): Sprintf with `%d` and `%s`. -/
def Error.Error (e : Error) : String :=
  "easylark API error: code=" ++ toString e.Code ++ ", message=" ++ e.Message

/-- The value of a decimal digit character. -/
def digitValue (ch : Char) : Nat := ch.toNat - 48

/-- The number a string of decimal digits denotes, after the digits `acc`. -/
def decimalValue (acc : Nat) (digits : List Char) : Nat :=
  digits.foldl (fun a ch => a * 10 + digitValue ch) acc

/-- Go error values as this package produces and forwards them. -/
inductive GoError where
  /-- The value of `errors.New`, of `fmt.Errorf` without `%w`, or of a library. -/
  | errorString (text : String)
  /-- The value of `fmt.Errorf` with `%w`: the formatted text and the wrapped cause. -/
  | wrapError (text : String) (cause : GoError)
  /-- A pointer to the `Error` of this package. -/
  | api (e : Error)
deriving DecidableEq, Repr

/-- The text of an error, the result of its `Error()` method. -/
def GoError.Error : GoError → String
  | .errorString text => text
  | .wrapError text _ => text
  | .api e => e.Error

/-- The cause returned by `errors.Unwrap`. -/
def GoError.Unwrap : GoError → Option GoError
  | .wrapError _ cause => some cause
  | _ => none

/-- The call `fmt.Errorf(msg + "%w", err)`, `msg` being the text before the verb. -/
def Errorf_w (msg : String) (err : GoError) : GoError :=
  .wrapError (msg ++ err.Error) err

/-- The call `fmt.Errorf(msg + "%s", s)`, `msg` being the text before the verb. -/
def Errorf_s (msg : String) (s : String) : GoError :=
  .errorString (msg ++ s)

/-- An `http.Header` restricted to single values, keys in canonical form. -/
abbrev Header := List (String × String)

/-- The method `Header.Set`: the value replaces whatever the key held. -/
def Header.Set (h : Header) (key value : String) : Header :=
  h.filter (fun kv => kv.1 != key) ++ [(key, value)]

/-- The method `Header.Get`: the value of the key, if it has one. -/
def Header.Get (h : Header) (key : String) : Option String :=
  (h.find? (fun kv => kv.1 == key)).map Prod.snd

/-- What the package hands to `net/http` for one request: the method and URL
strings passed to `http.NewRequest`, the body reader's content (`none` for a
nil reader) and the headers set on the request. -/
structure Request where
  method : String
  url : String
  body : Option Bytes
  header : Header
deriving DecidableEq, Repr

/-- What `httpClient.Do` followed by `io.ReadAll(resp.Body)` yields. -/
inductive HttpOutcome where
  /-- The error of `httpClient.Do` (connection refused, timeout, ...). -/
  | doFailed (err : GoError)
  /-- A response whose body could not be read to the end. -/
  | readFailed (status : Nat) (err : GoError)
  /-- A response with its status code and its whole body. -/
  | response (status : Nat) (body : Bytes)
deriving DecidableEq, Repr

/-- What `mime/multipart` does with the file part written by `UploadFile`. -/
inductive MultipartOutcome where
  | createFormFileFailed (err : GoError)
  | writeFailed (err : GoError)
  | closeFailed (err : GoError)
  /-- The encoded body and the value of `FormDataContentType()`. -/
  | encoded (body : Bytes) (contentType : String)
deriving DecidableEq, Repr

/-- The anonymous result struct of `GetTenantAccessToken` (lines 91-96). -/
structure TokenResult where
  Code : Int
  Msg : String
  TenantAccessToken : String
  Expire : Int
deriving DecidableEq, Repr

/-- The anonymous result struct of `UploadFile` (lines 241-247). -/
structure UploadResult where
  Code : Int
  Msg : String
  FileKey : String
deriving DecidableEq, Repr

/-- The pure library functions the package calls. -/
structure Lib where
  /-- The JSON string literal `encoding/json` writes for a Go string. -/
  jsonString : String → Bytes
  /-- The error of `http.NewRequest(method, url, _)`, `none` when it is nil. -/
  newRequestErr : String → String → Option GoError
  /-- The call `json.Unmarshal(respBody, &result)` on a zero `TokenResult`. -/
  unmarshalToken : Bytes → Except GoError TokenResult
  /-- The call `json.Unmarshal(respBody, &result)` on a zero `UploadResult`. -/
  unmarshalUpload : Bytes → Except GoError UploadResult

/-- The JSON functions at the types of the `body` and `result` arguments of
`DoRequest` (both are `interface{}` in the source). -/
structure Codec (β ρ : Type) where
  /-- The call `json.Marshal(body)`. -/
  marshal : β → Except GoError Bytes
  /-- The call `json.Unmarshal(respBody, result)`: the sink afterwards and the error. -/
  unmarshal : Bytes → ρ → ρ × Option GoError

/-- The package-level variables of `client.go` (lines 14-19). -/
structure Vars where
  BaseURL : String
  TenantAccessTokenURL : String
deriving DecidableEq, Repr

/-- The values the package variables are initialised with. -/
def Vars.initial : Vars :=
  { BaseURL := "https://open.feishu.cn/open-apis"
    TenantAccessTokenURL :=
      "https://open.feishu.cn/open-apis/auth/v3/tenant_access_token/internal" }

/-- The outside world during one call. -/
structure Env where
  /-- The reading of `time.Now()` in the cache test (line 56). -/
  nowCheck : Time
  /-- The outcome of the token exchange request (lines 79-89). -/
  exchange : Request → HttpOutcome
  /-- The reading of `time.Now()` when the credential is installed (line 109). -/
  nowInstall : Time
  /-- The outcome of the request of `DoRequest` or `UploadFile`. -/
  api : Request → HttpOutcome
  /-- The multipart encoding of a file part: field name, file name, content. -/
  multipart : String → String → Bytes → MultipartOutcome

/-- The fields of `Client` that hold data (lines 22-34). -/
structure Client where
  AppID : String
  AppSecret : String
  tenantAccessToken : String
  tokenExpireTime : Time
deriving DecidableEq, Repr

/-- The function `NewClient` (lines 37-51): no token, and the zero `time.Time`
as expiry, written 0. -/
def NewClient (appID appSecret : String) : Client :=
  { AppID := appID, AppSecret := appSecret, tenantAccessToken := "", tokenExpireTime := 0 }

/-! ## Durations -/

/-- The value of a 64-bit signed integer after wrap-around. -/
def wrapInt64 (x : Int) : Int := (x + 2 ^ 63) % 2 ^ 64 - 2 ^ 63

/-- The constant `time.Second`, in nanoseconds. -/
def Second : Int := 1000000000

/-- The expression `time.Duration(expire) * time.Second` (line 109): a product
of 64-bit integers (`time.Duration` is an `int64` of nanoseconds, `Expire` an
`int`, 64 bits wide on 64-bit platforms), which Go wraps around on overflow. -/
def secondsDuration (expire : Int) : Int := wrapInt64 (expire * Second)

/-! ## GetTenantAccessToken -/

/-- The bytes `json.Marshal` writes for the map of line 61, whose keys are
`app_id` and `app_secret`: an object with the keys in sorted order. -/
def identityJSON (lib : Lib) (appID appSecret : String) : Bytes :=
  -- the bytes of \x7b"app_id":
  [123, 34, 97, 112, 112, 95, 105, 100, 34, 58] ++ lib.jsonString appID
    -- the bytes of ,"app_secret":
    ++ [44, 34, 97, 112, 112, 95, 115, 101, 99, 114, 101, 116, 34, 58]
    ++ lib.jsonString appSecret
    -- the byte of \x7d
    ++ [125]

/-- The call `json.Marshal(reqBody)` of line 66: on a map from strings to
strings it never returns an error. -/
def marshalIdentity (lib : Lib) (appID appSecret : String) : Except GoError Bytes :=
  .ok (identityJSON lib appID appSecret)

/-- The request built at lines 72-77. -/
def exchangeRequest (vars : Vars) (body : Bytes) : Request :=
  { method := "POST", url := vars.TenantAccessTokenURL, body := some body,
    header := Header.Set [] "Content-Type" "application/json; charset=utf-8" }

/-- The results of a `GetTenantAccessToken` call and its effects. -/
structure TokenCall where
  token : String
  err : Option GoError
  /-- The client after the call. -/
  client : Client
  /-- The requests handed to `httpClient.Do`, in order. -/
  requests : List Request
deriving DecidableEq, Repr

/-- The method `GetTenantAccessToken` (lines 54-112). -/
def GetTenantAccessToken (lib : Lib) (vars : Vars) (env : Env) (c : Client) : TokenCall :=
  if c.tenantAccessToken ≠ "" ∧ env.nowCheck < c.tokenExpireTime then
    ⟨c.tenantAccessToken, none, c, []⟩
  else
    match marshalIdentity lib c.AppID c.AppSecret with
    | .error err => ⟨"", some (Errorf_w "marshal request body failed: " err), c, []⟩
    | .ok body =>
      match lib.newRequestErr "POST" vars.TenantAccessTokenURL with
      | some err => ⟨"", some (Errorf_w "create request failed: " err), c, []⟩
      | none =>
        let req := exchangeRequest vars body
        match env.exchange req with
        | .doFailed err => ⟨"", some (Errorf_w "send request failed: " err), c, [req]⟩
        | .readFailed _ err =>
          ⟨"", some (Errorf_w "read response body failed: " err), c, [req]⟩
        | .response _ respBody =>
          match lib.unmarshalToken respBody with
          | .error err =>
            ⟨"", some (Errorf_w "unmarshal response body failed: " err), c, [req]⟩
          | .ok result =>
            if result.Code ≠ 0 then
              ⟨"", some (Errorf_s "get tenant_access_token failed: " result.Msg), c, [req]⟩
            else
              let c1 : Client :=
                { c with
                  tenantAccessToken := result.TenantAccessToken
                  tokenExpireTime := env.nowInstall + secondsDuration result.Expire }
              ⟨c1.tenantAccessToken, none, c1, [req]⟩

/-- The request the exchange of client `c` sends. -/
def Client.exchangeRequest (lib : Lib) (vars : Vars) (c : Client) : Request :=
  Easylark.exchangeRequest vars (identityJSON lib c.AppID c.AppSecret)

/-- The cache test of line 56 fails: no token is held or it has expired. -/
def Client.expired (c : Client) (now : Time) : Prop :=
  ¬ (c.tenantAccessToken ≠ "" ∧ now < c.tokenExpireTime)

instance (c : Client) (now : Time) : Decidable (c.expired now) := by
  unfold Client.expired; infer_instance

/-! ## DoRequest -/

/-- The results of a `DoRequest` call and its effects. -/
structure DispatchCall (ρ : Type) where
  err : Option GoError
  /-- The result sink after the call (`none` for a nil `result`). -/
  result : Option ρ
  /-- The client after the call. -/
  client : Client
  /-- The requests handed to `httpClient.Do`, in order. -/
  requests : List Request

/-- Lines 126-133: the body reader, nil when `body` is nil. -/
def marshalBody {β ρ : Type} (codec : Codec β ρ) : Option β → Except GoError (Option Bytes)
  | none => .ok none
  | some b =>
    match codec.marshal b with
    | .error err => .error err
    | .ok bodyBytes => .ok (some bodyBytes)

/-- The request built at lines 136-143. -/
def apiRequest (method url : String) (reqBody : Option Bytes) (token : String) : Request :=
  { method := method, url := url, body := reqBody,
    header := Header.Set (Header.Set [] "Content-Type" "application/json; charset=utf-8")
      "Authorization" ("Bearer " ++ token) }

/-- The method `DoRequest` (lines 115-166). -/
def DoRequest {β ρ : Type} (lib : Lib) (codec : Codec β ρ) (vars : Vars) (env : Env)
    (c : Client) (method path : String) (body : Option β) (result : Option ρ) :
    DispatchCall ρ :=
  let t := GetTenantAccessToken lib vars env c
  match t.err with
  | some err => ⟨some err, result, t.client, t.requests⟩
  | none =>
    let url := vars.BaseURL ++ path
    match marshalBody codec body with
    | .error err =>
      ⟨some (Errorf_w "marshal request body failed: " err), result, t.client, t.requests⟩
    | .ok reqBody =>
      match lib.newRequestErr method url with
      | some err =>
        ⟨some (Errorf_w "create request failed: " err), result, t.client, t.requests⟩
      | none =>
        let req := apiRequest method url reqBody t.token
        match env.api req with
        | .doFailed err =>
          ⟨some (Errorf_w "send request failed: " err), result, t.client, t.requests ++ [req]⟩
        | .readFailed _ err =>
          ⟨some (Errorf_w "read response body failed: " err), result, t.client,
            t.requests ++ [req]⟩
        | .response _ respBody =>
          match result with
          | none => ⟨none, none, t.client, t.requests ++ [req]⟩
          | some sink =>
            match codec.unmarshal respBody sink with
            | (sink1, some err) =>
              ⟨some (Errorf_w "unmarshal response body failed: " err), some sink1, t.client,
                t.requests ++ [req]⟩
            | (sink1, none) => ⟨none, some sink1, t.client, t.requests ++ [req]⟩

/-! ## UploadFile -/

/-- The results of an `UploadFile` call and its effects. -/
structure UploadCall where
  fileKey : String
  err : Option GoError
  /-- The client after the call. -/
  client : Client
  /-- The requests handed to `httpClient.Do`, in order. -/
  requests : List Request
deriving DecidableEq, Repr

/-- The request built at lines 218-225. -/
def uploadRequest (url : String) (requestBody : Bytes) (contentType token : String) :
    Request :=
  { method := "POST", url := url, body := some requestBody,
    header := Header.Set (Header.Set [] "Content-Type" contentType)
      "Authorization" ("Bearer " ++ token) }

/-- The method `UploadFile` (lines 187-259). -/
def UploadFile (lib : Lib) (vars : Vars) (env : Env) (c : Client) (path : String)
    (fileBytes : Bytes) (fileName : String) : UploadCall :=
  let t := GetTenantAccessToken lib vars env c
  match t.err with
  | some err => ⟨"", some err, t.client, t.requests⟩
  | none =>
    let url := vars.BaseURL ++ path
    match env.multipart "file" fileName fileBytes with
    | .createFormFileFailed err =>
      ⟨"", some (Errorf_w "create form file failed: " err), t.client, t.requests⟩
    | .writeFailed err =>
      ⟨"", some (Errorf_w "write file content failed: " err), t.client, t.requests⟩
    | .closeFailed err =>
      ⟨"", some (Errorf_w "close multipart writer failed: " err), t.client, t.requests⟩
    | .encoded requestBody contentType =>
      match lib.newRequestErr "POST" url with
      | some err => ⟨"", some (Errorf_w "create request failed: " err), t.client, t.requests⟩
      | none =>
        let req := uploadRequest url requestBody contentType t.token
        match env.api req with
        | .doFailed err =>
          ⟨"", some (Errorf_w "send request failed: " err), t.client, t.requests ++ [req]⟩
        | .readFailed _ err =>
          ⟨"", some (Errorf_w "read response body failed: " err), t.client,
            t.requests ++ [req]⟩
        | .response _ respBody =>
          match lib.unmarshalUpload respBody with
          | .error err =>
            ⟨"", some (Errorf_w "unmarshal response body failed: " err), t.client,
              t.requests ++ [req]⟩
          | .ok result =>
            if result.Code ≠ 0 then
              ⟨"", some (Errorf_s "upload file failed: " result.Msg), t.client,
                t.requests ++ [req]⟩
            else
              ⟨result.FileKey, none, t.client, t.requests ++ [req]⟩

/-! ## Successive calls -/

/-- Successive `GetTenantAccessToken` calls on one client, one `Env` per call:
each call starts from the client the previous one left. -/
def acquireAll (lib : Lib) (vars : Vars) : Client → List Env → List TokenCall
  | _, [] => []
  | c, env :: envs =>
    let r := GetTenantAccessToken lib vars env c
    r :: acquireAll lib vars r.client envs

/-! ## Goroutines

`Client` has no lock and `GetTenantAccessToken` takes none, so calls made from
several goroutines interleave at their reads and writes of the two credential
fields.  The model below runs the method one statement at a time; a statement is
taken as atomic, which only removes behaviours of the Go program. -/

/-- The (token, expiry) pair a client holds. -/
def Client.credential (c : Client) : String × Time :=
  (c.tenantAccessToken, c.tokenExpireTime)

/-- Where a goroutine that runs `GetTenantAccessToken` stands. -/
inductive Phase where
  /-- Before the cache test of line 56. -/
  | test
  /-- Before `return c.tenantAccessToken, nil` of line 57. -/
  | returnHeld
  /-- Before the assignment of line 108, holding the decoded result. -/
  | assignToken (result : TokenResult)
  /-- Before the assignment of line 109, holding the decoded result. -/
  | assignExpire (result : TokenResult)
  /-- Before `return c.tenantAccessToken, nil` of line 111. -/
  | returnInstalled
  /-- After the return, with the returned values. -/
  | done (token : String) (err : Option GoError)
deriving DecidableEq, Repr

/-- Lines 60-105: the exchange, which reads `AppID` and `AppSecret` and touches
no other field. It ends in a return with an error or before line 108. -/
def exchangePhase (lib : Lib) (vars : Vars) (env : Env) (c : Client) :
    Phase × List Request :=
  match marshalIdentity lib c.AppID c.AppSecret with
  | .error err => (.done "" (some (Errorf_w "marshal request body failed: " err)), [])
  | .ok body =>
    match lib.newRequestErr "POST" vars.TenantAccessTokenURL with
    | some err => (.done "" (some (Errorf_w "create request failed: " err)), [])
    | none =>
      let req := exchangeRequest vars body
      match env.exchange req with
      | .doFailed err => (.done "" (some (Errorf_w "send request failed: " err)), [req])
      | .readFailed _ err =>
        (.done "" (some (Errorf_w "read response body failed: " err)), [req])
      | .response _ respBody =>
        match lib.unmarshalToken respBody with
        | .error err =>
          (.done "" (some (Errorf_w "unmarshal response body failed: " err)), [req])
        | .ok result =>
          if result.Code ≠ 0 then
            (.done "" (some (Errorf_s "get tenant_access_token failed: " result.Msg)), [req])
          else
            (.assignToken result, [req])

/-- A goroutine inside a `GetTenantAccessToken` call: its world, where it
stands, and the requests it has handed to the transport. -/
structure Goroutine where
  env : Env
  phase : Phase
  sent : List Request

/-- A goroutine about to call `GetTenantAccessToken`. -/
def Goroutine.start (env : Env) : Goroutine :=
  { env := env, phase := .test, sent := [] }

/-- One statement of a goroutine on the shared client. -/
def Goroutine.step (lib : Lib) (vars : Vars) (g : Goroutine) (c : Client) :
    Goroutine × Client :=
  match g.phase with
  | .test =>
    if c.tenantAccessToken ≠ "" ∧ g.env.nowCheck < c.tokenExpireTime then
      ({ g with phase := .returnHeld }, c)
    else
      ({ g with phase := (exchangePhase lib vars g.env c).1,
                sent := g.sent ++ (exchangePhase lib vars g.env c).2 }, c)
  | .returnHeld => ({ g with phase := .done c.tenantAccessToken none }, c)
  | .assignToken result =>
    ({ g with phase := .assignExpire result },
      { c with tenantAccessToken := result.TenantAccessToken })
  | .assignExpire result =>
    ({ g with phase := .returnInstalled },
      { c with tokenExpireTime := g.env.nowInstall + secondsDuration result.Expire })
  | .returnInstalled => ({ g with phase := .done c.tenantAccessToken none }, c)
  | .done _ _ => (g, c)

/-- One client shared by goroutines. -/
structure System where
  client : Client
  goroutines : List Goroutine

/-- The goroutine with index `i` executes its next statement. -/
def System.step (lib : Lib) (vars : Vars) (s : System) (i : Nat) : System :=
  match s.goroutines[i]? with
  | none => s
  | some g =>
    { client := (g.step lib vars s.client).2
      goroutines := s.goroutines.set i (g.step lib vars s.client).1 }

/-- The system after a schedule, the list of the goroutines that step in turn. -/
def System.run (lib : Lib) (vars : Vars) (s : System) : List Nat → System
  | [] => s
  | i :: schedule => System.run lib vars (s.step lib vars i) schedule

/-- The schedule in which `n` goroutines, from index `i` on, run one after
another, each for the four statements a call takes at most. -/
def sequentialSchedule : Nat → Nat → List Nat
  | _, 0 => []
  | i, n + 1 => i :: i :: i :: i :: sequentialSchedule (i + 1) n

/-- The goroutine of world `env` after its call has returned `call`. -/
def Goroutine.finished (env : Env) (call : TokenCall) : Goroutine :=
  { env := env, phase := .done call.token call.err, sent := call.requests }

/-- The client after successive calls. -/
def acquireAllClient (lib : Lib) (vars : Vars) : Client → List Env → Client
  | c, [] => c
  | c, env :: envs => acquireAllClient lib vars (GetTenantAccessToken lib vars env c).client envs

/-- The pair a successful exchange in world `env` produces: the decoded token
with the install time plus the decoded lifetime. -/
def exchangedCredential (lib : Lib) (env : Env) (req : Request) : Option (String × Time) :=
  match env.exchange req with
  | .response _ respBody =>
    match lib.unmarshalToken respBody with
    | .ok result =>
      if result.Code = 0 then
        some (result.TenantAccessToken, env.nowInstall + secondsDuration result.Expire)
      else none
    | .error _ => none
  | _ => none

/-! ## Values and envelopes

The bodies the services build and the `interface{}` fields they receive are Go
values; `json.Marshal` and `json.Unmarshal` on them are fields of a `Codec`. -/

/-- A Go value held in an `interface{}`: what the package hands to
`json.Marshal` in a request body and what `json.Unmarshal` leaves in a field of
type `interface{}`. A nil slice and an empty slice are both the empty `slice`;
a pointer to a struct is the `struct` of its fields, a nil pointer is `nil`. -/
inductive Value where
  | nil
  | bool (b : Bool)
  | int (n : Int)
  | float (f : Float)
  | string (s : String)
  | slice (elems : List Value)
  | map (entries : List (String × Value))
  | struct (fields : List (String × Value))

instance : Inhabited Value := ⟨Value.nil⟩

/-- The struct `APIResponse` (lines 169-173 of `client.go`). -/
structure APIResponse where
  Code : Int
  Msg : String
  Data : Value

/-- The zero value of `APIResponse`, what `var result APIResponse` declares. -/
def APIResponse.zero : APIResponse := ⟨0, "", Value.nil⟩

/-- The anonymous result structs of the services, `struct { Code int; Msg
string; Data δ }`. -/
structure Envelope (δ : Type) where
  Code : Int
  Msg : String
  Data : δ

/-- The zero value of a result struct whose data has the zero value `data`. -/
def Envelope.zero {δ : Type} (data : δ) : Envelope δ := ⟨0, "", data⟩

/-- The results of a service method and its effects. -/
structure ServiceCall (α : Type) where
  /-- The first result; `()` for a method that returns only an error. -/
  value : α
  err : Option GoError
  /-- The client after the call. -/
  client : Client
  /-- The requests handed to `httpClient.Do`, in order. -/
  requests : List Request

/-! ## MessageService (message.go) -/

/-- The type `MessageType`, a string. -/
abbrev MessageType := String

/-- The constant `MessageTypeText`. -/
def MessageTypeText : MessageType := "text"

/-- The constant `MessageTypePost`. -/
def MessageTypePost : MessageType := "post"

/-- The constant `MessageTypeImage`. -/
def MessageTypeImage : MessageType := "image"

/-- The constant `MessageTypeInteract`. -/
def MessageTypeInteract : MessageType := "interact"

/-- A non-nil value of the interface `MessageContent` (lines 28-31), given by
what its two methods return; `Type_` stands for the method `Type`. -/
structure MessageContent where
  Type_ : MessageType
  Content : List (String × Value)

/-- The struct `TextContent` (lines 34-36). -/
structure TextContent where
  Text : String

/-- The method `(*TextContent).Type` (lines 39-41). -/
def TextContent.Type_ (_t : TextContent) : MessageType := MessageTypeText

/-- The method `(*TextContent).Content` (lines 44-48). -/
def TextContent.Content (t : TextContent) : List (String × Value) :=
  [("text", .string t.Text)]

/-- A `*TextContent` as a `MessageContent`. -/
def TextContent.toMessageContent (t : TextContent) : MessageContent :=
  ⟨t.Type_, t.Content⟩

/-- The struct `MessageCard` (lines 51-54). -/
structure MessageCard where
  title : String
  elements : List Value

/-- The function `NewMessageCard` (lines 57-61). -/
def NewMessageCard : MessageCard := ⟨"", []⟩

/-- The method `SetTitle` (lines 64-67). -/
def MessageCard.SetTitle (c : MessageCard) (title : String) : MessageCard :=
  { c with title := title }

/-- The method `AddText` (lines 70-76). -/
def MessageCard.AddText (c : MessageCard) (text : String) : MessageCard :=
  { c with elements := c.elements ++ [.map [("tag", .string "plain_text"), ("text", .string text)]] }

/-- The method `(*MessageCard).Type` (lines 79-81). -/
def MessageCard.Type_ (_c : MessageCard) : MessageType := MessageTypeInteract

/-- The method `(*MessageCard).Content` (lines 84-97). -/
def MessageCard.Content (c : MessageCard) : List (String × Value) :=
  [("elements", .slice [.map [
      ("tag", .string "div"),
      ("text", .map [("tag", .string "plain_text"), ("content", .string c.title)]),
      ("fields", .slice c.elements)]])]

/-- A `*MessageCard` as a `MessageContent`. -/
def MessageCard.toMessageContent (c : MessageCard) : MessageContent :=
  ⟨c.Type_, c.Content⟩

/-- The method `SendMessage` (lines 100-120). -/
def MessageService.SendMessage (lib : Lib) (codec : Codec Value APIResponse) (vars : Vars)
    (env : Env) (c : Client) (chatID : String) (content : MessageContent) :
    ServiceCall Unit :=
  let path := "/im/v1/messages?receive_id_type=chat_id"
  let reqBody := Value.map [
    ("receive_id", .string chatID),
    ("msg_type", .string content.Type_),
    ("content", .map content.Content)]
  let d := DoRequest lib codec vars env c "POST" path (some reqBody) (some APIResponse.zero)
  let result := d.result.getD APIResponse.zero
  match d.err with
  | some err => ⟨(), some err, d.client, d.requests⟩
  | none =>
    if result.Code ≠ 0 then
      ⟨(), some (.api ⟨result.Code, result.Msg⟩), d.client, d.requests⟩
    else
      ⟨(), none, d.client, d.requests⟩

/-- The method `SendText` (lines 123-126). -/
def MessageService.SendText (lib : Lib) (codec : Codec Value APIResponse) (vars : Vars)
    (env : Env) (c : Client) (chatID text : String) : ServiceCall Unit :=
  let content : TextContent := { Text := text }
  MessageService.SendMessage lib codec vars env c chatID content.toMessageContent

/-- The method `SendCard` (lines 129-131). -/
def MessageService.SendCard (lib : Lib) (codec : Codec Value APIResponse) (vars : Vars)
    (env : Env) (c : Client) (chatID : String) (card : MessageCard) : ServiceCall Unit :=
  MessageService.SendMessage lib codec vars env c chatID card.toMessageContent

/-- The method `GetMessage` (lines 134-153); a nil map is `none`. -/
def MessageService.GetMessage (lib : Lib)
    (codec : Codec Value (Envelope (Option (List (String × Value))))) (vars : Vars)
    (env : Env) (c : Client) (messageID : String) :
    ServiceCall (Option (List (String × Value))) :=
  let path := "/im/v1/messages/" ++ messageID
  let d := DoRequest lib codec vars env c "GET" path none (some (Envelope.zero none))
  let result := d.result.getD (Envelope.zero none)
  match d.err with
  | some err => ⟨none, some err, d.client, d.requests⟩
  | none =>
    if result.Code ≠ 0 then
      ⟨none, some (.api ⟨result.Code, result.Msg⟩), d.client, d.requests⟩
    else
      ⟨result.Data, none, d.client, d.requests⟩

/-- The struct `CreateGroupRequest` (lines 249-253). -/
structure CreateGroupRequest where
  Name : String
  Description : String
  UserIDs : List String

/-- A `*CreateGroupRequest` as the value handed to `json.Marshal`. -/
def CreateGroupRequest.toValue : Option CreateGroupRequest → Value
  | none => .nil
  | some req => .struct [
      ("Name", .string req.Name),
      ("Description", .string req.Description),
      ("UserIDs", .slice (req.UserIDs.map Value.string))]

/-- The data of the result struct of `CreateGroup` (lines 262-264). -/
structure CreateGroupData where
  ChatID : String

/-- The method `CreateGroup` (lines 256-277). -/
def MessageService.CreateGroup (lib : Lib) (codec : Codec Value (Envelope CreateGroupData))
    (vars : Vars) (env : Env) (c : Client) (req : Option CreateGroupRequest) :
    ServiceCall String :=
  let path := "/im/v1/chats"
  let d := DoRequest lib codec vars env c "POST" path (some (CreateGroupRequest.toValue req))
    (some (Envelope.zero ⟨""⟩))
  let result := d.result.getD (Envelope.zero ⟨""⟩)
  match d.err with
  | some err => ⟨"", some err, d.client, d.requests⟩
  | none =>
    if result.Code ≠ 0 then
      ⟨"", some (.api ⟨result.Code, result.Msg⟩), d.client, d.requests⟩
    else
      ⟨result.Data.ChatID, none, d.client, d.requests⟩

/-- The method `GetGroupInfo` (lines 280-299); a nil map is `none`. -/
def MessageService.GetGroupInfo (lib : Lib)
    (codec : Codec Value (Envelope (Option (List (String × Value))))) (vars : Vars)
    (env : Env) (c : Client) (chatID : String) :
    ServiceCall (Option (List (String × Value))) :=
  let path := "/im/v1/chats/" ++ chatID
  let d := DoRequest lib codec vars env c "GET" path none (some (Envelope.zero none))
  let result := d.result.getD (Envelope.zero none)
  match d.err with
  | some err => ⟨none, some err, d.client, d.requests⟩
  | none =>
    if result.Code ≠ 0 then
      ⟨none, some (.api ⟨result.Code, result.Msg⟩), d.client, d.requests⟩
    else
      ⟨result.Data, none, d.client, d.requests⟩

/-- The method `AddGroupMember` (lines 302-320). -/
def MessageService.AddGroupMember (lib : Lib) (codec : Codec Value APIResponse) (vars : Vars)
    (env : Env) (c : Client) (chatID : String) (userIDs : List String) : ServiceCall Unit :=
  let path := "/im/v1/chats/" ++ chatID ++ "/members"
  let reqBody := Value.map [("id_list", .slice (userIDs.map Value.string))]
  let d := DoRequest lib codec vars env c "POST" path (some reqBody) (some APIResponse.zero)
  let result := d.result.getD APIResponse.zero
  match d.err with
  | some err => ⟨(), some err, d.client, d.requests⟩
  | none =>
    if result.Code ≠ 0 then
      ⟨(), some (.api ⟨result.Code, result.Msg⟩), d.client, d.requests⟩
    else
      ⟨(), none, d.client, d.requests⟩

/-- The loop of lines 328-333, from index `i` on, `queryParams` being the
string built so far. -/
def queryParamsLoop : Nat → List String → String → String
  | _, [], queryParams => queryParams
  | i, userID :: rest, queryParams =>
    queryParamsLoop (i + 1) rest
      ((if i > 0 then queryParams ++ "&" else queryParams) ++ ("id_list=" ++ userID))

/-- The method `RemoveGroupMember` (lines 323-347). -/
def MessageService.RemoveGroupMember (lib : Lib) (codec : Codec Value APIResponse)
    (vars : Vars) (env : Env) (c : Client) (chatID : String) (userIDs : List String) :
    ServiceCall Unit :=
  let path := "/im/v1/chats/" ++ chatID ++ "/members"
  let queryParams := queryParamsLoop 0 userIDs "?"
  let path := path ++ queryParams
  let d := DoRequest lib codec vars env c "DELETE" path none (some APIResponse.zero)
  let result := d.result.getD APIResponse.zero
  match d.err with
  | some err => ⟨(), some err, d.client, d.requests⟩
  | none =>
    if result.Code ≠ 0 then
      ⟨(), some (.api ⟨result.Code, result.Msg⟩), d.client, d.requests⟩
    else
      ⟨(), none, d.client, d.requests⟩

/-! ## SheetService (sheet.go) -/

/-- The struct `Sheet` (lines 18-22 of `sheet.go`); a nil map is `none`. -/
structure Sheet where
  SheetToken : String
  Title : String
  Properties : Option (List (String × Value))

/-- The method `Get` (lines 25-44 of `sheet.go`); a nil `*Sheet` is `none`. -/
def SheetService.Get (lib : Lib) (codec : Codec Value (Envelope (Option Sheet)))
    (vars : Vars) (env : Env) (c : Client) (sheetToken : String) :
    ServiceCall (Option Sheet) :=
  let path := "/sheets/v3/spreadsheets/" ++ sheetToken ++ "/metainfo"
  let d := DoRequest lib codec vars env c "GET" path none (some (Envelope.zero none))
  let result := d.result.getD (Envelope.zero none)
  match d.err with
  | some err => ⟨none, some err, d.client, d.requests⟩
  | none =>
    if result.Code ≠ 0 then
      ⟨none, some (.api ⟨result.Code, result.Msg⟩), d.client, d.requests⟩
    else
      ⟨result.Data, none, d.client, d.requests⟩

/-- The struct `SheetValues` (lines 47-49 of `sheet.go`). -/
structure SheetValues where
  Values : List (List Value)

/-- The method `ReadRange` (lines 52-71 of `sheet.go`). -/
def SheetService.ReadRange (lib : Lib) (codec : Codec Value (Envelope SheetValues))
    (vars : Vars) (env : Env) (c : Client) (sheetToken rangeStr : String) :
    ServiceCall (List (List Value)) :=
  let path := "/sheets/v3/spreadsheets/" ++ sheetToken ++ "/values/" ++ rangeStr
  let d := DoRequest lib codec vars env c "GET" path none (some (Envelope.zero ⟨[]⟩))
  let result := d.result.getD (Envelope.zero ⟨[]⟩)
  match d.err with
  | some err => ⟨[], some err, d.client, d.requests⟩
  | none =>
    if result.Code ≠ 0 then
      ⟨[], some (.api ⟨result.Code, result.Msg⟩), d.client, d.requests⟩
    else
      ⟨result.Data.Values, none, d.client, d.requests⟩

/-- The method `WriteRange` (lines 74-92 of `sheet.go`). -/
def SheetService.WriteRange (lib : Lib) (codec : Codec Value APIResponse) (vars : Vars)
    (env : Env) (c : Client) (sheetToken rangeStr : String)
    (values : List (List Value)) : ServiceCall Unit :=
  let path := "/sheets/v3/spreadsheets/" ++ sheetToken ++ "/values/" ++ rangeStr
  let reqBody := Value.map [("values", .slice (values.map Value.slice))]
  let d := DoRequest lib codec vars env c "PUT" path (some reqBody) (some APIResponse.zero)
  let result := d.result.getD APIResponse.zero
  match d.err with
  | some err => ⟨(), some err, d.client, d.requests⟩
  | none =>
    if result.Code ≠ 0 then
      ⟨(), some (.api ⟨result.Code, result.Msg⟩), d.client, d.requests⟩
    else
      ⟨(), none, d.client, d.requests⟩

/-- The method `AppendRange` (lines 95-113 of `sheet.go`). -/
def SheetService.AppendRange (lib : Lib) (codec : Codec Value APIResponse) (vars : Vars)
    (env : Env) (c : Client) (sheetToken rangeStr : String)
    (values : List (List Value)) : ServiceCall Unit :=
  let path := "/sheets/v3/spreadsheets/" ++ sheetToken ++ "/values/" ++ rangeStr ++ ":append"
  let reqBody := Value.map [("values", .slice (values.map Value.slice))]
  let d := DoRequest lib codec vars env c "POST" path (some reqBody) (some APIResponse.zero)
  let result := d.result.getD APIResponse.zero
  match d.err with
  | some err => ⟨(), some err, d.client, d.requests⟩
  | none =>
    if result.Code ≠ 0 then
      ⟨(), some (.api ⟨result.Code, result.Msg⟩), d.client, d.requests⟩
    else
      ⟨(), none, d.client, d.requests⟩

/-- The method `ClearRange` (lines 116-130 of `sheet.go`). -/
def SheetService.ClearRange (lib : Lib) (codec : Codec Value APIResponse) (vars : Vars)
    (env : Env) (c : Client) (sheetToken rangeStr : String) : ServiceCall Unit :=
  let path := "/sheets/v3/spreadsheets/" ++ sheetToken ++ "/values/" ++ rangeStr ++ ":clear"
  let d := DoRequest lib codec vars env c "POST" path none (some APIResponse.zero)
  let result := d.result.getD APIResponse.zero
  match d.err with
  | some err => ⟨(), some err, d.client, d.requests⟩
  | none =>
    if result.Code ≠ 0 then
      ⟨(), some (.api ⟨result.Code, result.Msg⟩), d.client, d.requests⟩
    else
      ⟨(), none, d.client, d.requests⟩

/-- The method `DeleteSheet` (lines 179-203 of `sheet.go`). -/
def SheetService.DeleteSheet (lib : Lib) (codec : Codec Value APIResponse) (vars : Vars)
    (env : Env) (c : Client) (sheetToken sheetID : String) : ServiceCall Unit :=
  let path := "/sheets/v3/spreadsheets/" ++ sheetToken ++ "/sheets_batch_update"
  let reqBody := Value.map [("requests", .slice [.map [
    ("deleteSheet", .map [("sheetId", .string sheetID)])]])]
  let d := DoRequest lib codec vars env c "POST" path (some reqBody) (some APIResponse.zero)
  let result := d.result.getD APIResponse.zero
  match d.err with
  | some err => ⟨(), some err, d.client, d.requests⟩
  | none =>
    if result.Code ≠ 0 then
      ⟨(), some (.api ⟨result.Code, result.Msg⟩), d.client, d.requests⟩
    else
      ⟨(), none, d.client, d.requests⟩

/-- The struct `SheetInfo` (lines 206-211 of `sheet.go`); a nil map is `none`. -/
structure SheetInfo where
  SheetID : String
  Title : String
  Index : Int
  Properties : Option (List (String × Value))

/-- The data of the result struct of `GetSheets` (lines 220-222 of `sheet.go`). -/
structure GetSheetsData where
  Sheets : List SheetInfo

/-- The method `GetSheets` (lines 214-235 of `sheet.go`). -/
def SheetService.GetSheets (lib : Lib) (codec : Codec Value (Envelope GetSheetsData))
    (vars : Vars) (env : Env) (c : Client) (sheetToken : String) :
    ServiceCall (List SheetInfo) :=
  let path := "/sheets/v3/spreadsheets/" ++ sheetToken ++ "/sheets/query"
  let d := DoRequest lib codec vars env c "GET" path none (some (Envelope.zero ⟨[]⟩))
  let result := d.result.getD (Envelope.zero ⟨[]⟩)
  match d.err with
  | some err => ⟨[], some err, d.client, d.requests⟩
  | none =>
    if result.Code ≠ 0 then
      ⟨[], some (.api ⟨result.Code, result.Msg⟩), d.client, d.requests⟩
    else
      ⟨result.Data.Sheets, none, d.client, d.requests⟩

/-- The method `SetCellStyle` (lines 260-288 of `sheet.go`); `style` is the
`*CellStyle` as a value, `nil` or the `struct` of its fields. -/
def SheetService.SetCellStyle (lib : Lib) (codec : Codec Value APIResponse) (vars : Vars)
    (env : Env) (c : Client) (sheetToken sheetID rangeStr : String)
    (style : Value) : ServiceCall Unit :=
  let path := "/sheets/v3/spreadsheets/" ++ sheetToken ++ "/sheets_batch_update"
  let reqBody := Value.map [("requests", .slice [.map [
    ("updateCells", .map [
      ("range", .map [("sheetId", .string sheetID), ("range", .string rangeStr)]),
      ("style", style)])]])]
  let d := DoRequest lib codec vars env c "POST" path (some reqBody) (some APIResponse.zero)
  let result := d.result.getD APIResponse.zero
  match d.err with
  | some err => ⟨(), some err, d.client, d.requests⟩
  | none =>
    if result.Code ≠ 0 then
      ⟨(), some (.api ⟨result.Code, result.Msg⟩), d.client, d.requests⟩
    else
      ⟨(), none, d.client, d.requests⟩

/-- The method `MergeCells` (lines 291-318 of `sheet.go`). -/
def SheetService.MergeCells (lib : Lib) (codec : Codec Value APIResponse) (vars : Vars)
    (env : Env) (c : Client) (sheetToken sheetID rangeStr : String) : ServiceCall Unit :=
  let path := "/sheets/v3/spreadsheets/" ++ sheetToken ++ "/sheets_batch_update"
  let reqBody := Value.map [("requests", .slice [.map [
    ("mergeCells", .map [
      ("range", .map [("sheetId", .string sheetID), ("range", .string rangeStr)])])]])]
  let d := DoRequest lib codec vars env c "POST" path (some reqBody) (some APIResponse.zero)
  let result := d.result.getD APIResponse.zero
  match d.err with
  | some err => ⟨(), some err, d.client, d.requests⟩
  | none =>
    if result.Code ≠ 0 then
      ⟨(), some (.api ⟨result.Code, result.Msg⟩), d.client, d.requests⟩
    else
      ⟨(), none, d.client, d.requests⟩

/-- The type `DimensionType`, a string. -/
abbrev DimensionType := String

/-- The constant `DimensionTypeRow`. -/
def DimensionTypeRow : DimensionType := "ROW"

/-- The constant `DimensionTypeColumn`. -/
def DimensionTypeColumn : DimensionType := "COLUMN"

/-- The method `SetDimension` (lines 329-362 of `sheet.go`). -/
def SheetService.SetDimension (lib : Lib) (codec : Codec Value APIResponse) (vars : Vars)
    (env : Env) (c : Client) (sheetToken sheetID : String)
    (dimensionType : DimensionType) (startIndex endIndex pixelSize : Int) : ServiceCall Unit :=
  let path := "/sheets/v3/spreadsheets/" ++ sheetToken ++ "/sheets_batch_update"
  let reqBody := Value.map [("requests", .slice [.map [
    ("updateDimensionProperties", .map [
      ("range", .map [
        ("sheetId", .string sheetID),
        ("dimension", .string dimensionType),
        ("startIndex", .int startIndex),
        ("endIndex", .int endIndex)]),
      ("properties", .map [("pixelSize", .int pixelSize)]),
      ("fields", .string "pixelSize")])]])]
  let d := DoRequest lib codec vars env c "POST" path (some reqBody) (some APIResponse.zero)
  let result := d.result.getD APIResponse.zero
  match d.err with
  | some err => ⟨(), some err, d.client, d.requests⟩
  | none =>
    if result.Code ≠ 0 then
      ⟨(), some (.api ⟨result.Code, result.Msg⟩), d.client, d.requests⟩
    else
      ⟨(), none, d.client, d.requests⟩

/-- What the services do with the outcome `d` of their `DoRequest` call, whose
sink has the code `code` and the message `msg`: the call `r` has the effects of
`d` and the sink is there; `r` returns the error of `d` unchanged, with the
zero value; for a non-zero code it returns the `*Error` with this code and
message, with the zero value; for the code 0 it returns a nil error. -/
def TranslatesEnvelope {ρ α : Type} (d : DispatchCall ρ) (code : ρ → Int)
    (msg : ρ → String) (zero : α) (r : ServiceCall α) : Prop :=
  r.client = d.client ∧ r.requests = d.requests ∧ (∃ res, d.result = some res) ∧
  (∀ err, d.err = some err → r.err = some err ∧ r.value = zero) ∧
  (∀ res, d.err = none → d.result = some res → code res ≠ 0 →
    r.err = some (.api ⟨code res, msg res⟩) ∧ r.value = zero) ∧
  (∀ res, d.err = none → d.result = some res → code res = 0 → r.err = none)

/-! ## AddSheet -/

/-- An element of `Replies` in the result struct of `AddSheet` (lines 152-158
of `sheet.go`): the one field at the end of `AddSheet.Properties.SheetID`. -/
structure AddSheetReply where
  SheetID : String

/-- The data of the result struct of `AddSheet` (lines 151-159 of `sheet.go`). -/
structure AddSheetData where
  Replies : List AddSheetReply

/-- The method `AddSheet` (lines 133-176 of `sheet.go`). The index expression
`Replies[0]` panics on an empty slice: the result is `none` for a call that
panics. The condition of line 171 is evaluated left to right, the index
expression only when the length is not 0. -/
def SheetService.AddSheet (lib : Lib) (codec : Codec Value (Envelope AddSheetData))
    (vars : Vars) (env : Env) (c : Client) (sheetToken title : String) :
    Option (ServiceCall String) :=
  let path := "/sheets/v3/spreadsheets/" ++ sheetToken ++ "/sheets_batch_update"
  let reqBody := Value.map [("requests", .slice [.map [
    ("addSheet", .map [("properties", .map [("title", .string title)])])]])]
  let d := DoRequest lib codec vars env c "POST" path (some reqBody)
    (some (Envelope.zero (AddSheetData.mk [])))
  let result := d.result.getD (Envelope.zero (AddSheetData.mk []))
  match d.err with
  | some err => some ⟨"", some err, d.client, d.requests⟩
  | none =>
    if result.Code ≠ 0 then
      some ⟨"", some (.api ⟨result.Code, result.Msg⟩), d.client, d.requests⟩
    else
      let noSheetID : Option Bool :=
        if result.Data.Replies.length = 0 then some true
        else (result.Data.Replies[0]?).map (fun reply => decide (reply.SheetID = ""))
      match noSheetID with
      | none => none
      | some true =>
        some ⟨"", some (.errorString "failed to get sheet ID"), d.client, d.requests⟩
      | some false =>
        match result.Data.Replies[0]? with
        | none => none
        | some reply => some ⟨reply.SheetID, none, d.client, d.requests⟩

/-- What `AddSheet` does with the outcome `d` of its `DoRequest` call, the sink
of which holds `res`: it never panics; a nil error comes with the non-empty
sheet id of the first reply; and with the code 0 and no first reply, or a first
reply without sheet id, the result is the error `failed to get sheet ID`. -/
def AddSheetGuard (d : DispatchCall (Envelope AddSheetData)) (res : Envelope AddSheetData)
    (call : Option (ServiceCall String)) : Prop :=
  (∃ r, call = some r ∧ r.client = d.client ∧ r.requests = d.requests) ∧
  (∀ r, call = some r → r.err = none →
    r.value ≠ "" ∧ ∃ reply rest, res.Data.Replies = reply :: rest ∧ r.value = reply.SheetID) ∧
  (d.err = none → res.Code = 0 →
    (res.Data.Replies = [] ∨
      ∃ reply rest, res.Data.Replies = reply :: rest ∧ reply.SheetID = "") →
    ∃ r, call = some r ∧ r.value = "" ∧
      r.err = some (.errorString "failed to get sheet ID"))

/-! ## Construction -/

/-- The `http.Client` of a client, given by its `Timeout` in nanoseconds. -/
structure HTTPClient where
  Timeout : Int
deriving DecidableEq, Repr

/-- The struct `MessageService` (lines 8-10 of `message.go`): the pointer to the
client, an address. -/
structure MessageService where
  client : Nat
deriving DecidableEq, Repr

/-- The struct `SheetService` (lines 8-10 of `sheet.go`): the pointer to the
client, an address. -/
structure SheetService where
  client : Nat
deriving DecidableEq, Repr

/-- The function `newMessageService` (lines 13-15 of `message.go`). -/
def newMessageService (client : Nat) : MessageService := { client := client }

/-- The function `newSheetService` (lines 13-15 of `sheet.go`). -/
def newSheetService (client : Nat) : SheetService := { client := client }

/-- The struct `Client` with all its fields (lines 22-34): the data of `Client`
and the three pointers, `none` for a nil pointer. -/
structure ClientObject where
  data : Client
  httpClient : Option HTTPClient
  Message : Option MessageService
  Sheet : Option SheetService
deriving DecidableEq, Repr

/-- The function `NewClient` (lines 37-51) with its pointers: `self` is the
address of the struct it allocates and returns. -/
def NewClientAt (self : Nat) (appID appSecret : String) : ClientObject :=
  let c : ClientObject :=
    { data := { AppID := appID, AppSecret := appSecret, tenantAccessToken := "",
                tokenExpireTime := 0 }
      httpClient := some { Timeout := 10 * Second }
      Message := none
      Sheet := none }
  let c := { c with Message := some (newMessageService self) }
  let c := { c with Sheet := some (newSheetService self) }
  c

/-! ## Status codes and stages -/

/-- An outcome with its status code replaced by 0. -/
def HttpOutcome.eraseStatus : HttpOutcome → HttpOutcome
  | .doFailed err => .doFailed err
  | .readFailed _ err => .readFailed 0 err
  | .response _ body => .response 0 body

/-- A world with the status code of every response replaced by 0. -/
def Env.eraseStatus (env : Env) : Env :=
  { env with
    exchange := fun req => (env.exchange req).eraseStatus
    api := fun req => (env.api req).eraseStatus }

/-- The texts before the verb in the `fmt.Errorf` calls of `GetTenantAccessToken`
and `DoRequest`, one for each place where a call can fail. -/
def stageTexts : List String :=
  ["marshal request body failed: ", "create request failed: ", "send request failed: ",
    "read response body failed: ", "unmarshal response body failed: ",
    "get tenant_access_token failed: "]

/-- The query string of `RemoveGroupMember` in the words of the specification:
a question mark, then the ids rendered as `id_list=` followed by the id, joined
by `&` in the given order. -/
def joinedQuery (userIDs : List String) : String :=
  "?" ++ "&".intercalate (userIDs.map (fun userID => "id_list=" ++ userID))

/-! ## The JSON codec (encoding/json)

The function `json.Unmarshal` is not code of this package. It is modelled here
from the documentation of `encoding/json`, for targets built from `bool`,
`int`, `string`, slices and structs: the bytes are read as one JSON value by
the grammar of RFC 8259 (`parseJSON`), and the value is decoded into the
target by the rules of `Unmarshal` (`decodeInto`). Numbers with a fraction or
an exponent are read but fit no target here: `float64`, and with it a target
of type `interface{}`, is outside this development. -/

/-- The replacement character U+FFFD. -/
def replacementChar : Char := Char.ofNat 0xFFFD

/-- The UTF-8 encoding of a character. -/
def utf8EncodeChar (ch : Char) : Bytes :=
  if ch.toNat < 0x80 then [Fin.ofNat ch.toNat]
  else if ch.toNat < 0x800 then
    [Fin.ofNat (0xC0 + ch.toNat / 0x40), Fin.ofNat (0x80 + ch.toNat % 0x40)]
  else if ch.toNat < 0x10000 then
    [Fin.ofNat (0xE0 + ch.toNat / 0x1000), Fin.ofNat (0x80 + ch.toNat / 0x40 % 0x40),
      Fin.ofNat (0x80 + ch.toNat % 0x40)]
  else
    [Fin.ofNat (0xF0 + ch.toNat / 0x40000), Fin.ofNat (0x80 + ch.toNat / 0x1000 % 0x40),
      Fin.ofNat (0x80 + ch.toNat / 0x40 % 0x40), Fin.ofNat (0x80 + ch.toNat % 0x40)]

/-- A continuation byte of UTF-8. -/
def isContinuation (b : Fin 256) : Prop := 0x80 ≤ b.val ∧ b.val < 0xC0

instance (b : Fin 256) : Decidable (isContinuation b) := by
  unfold isContinuation; infer_instance

/-- The function `utf8.DecodeRune`: the first character of the bytes and the
bytes after it; a byte that starts no valid encoding is read as U+FFFD. -/
def utf8DecodeRune : Bytes → Char × Bytes
  | [] => (replacementChar, [])
  | b0 :: rest =>
    if b0.val < 0x80 then (Char.ofNat b0.val, rest)
    else if b0.val < 0xC2 then (replacementChar, rest)
    else if b0.val < 0xE0 then
      match rest with
      | b1 :: rest1 =>
        if isContinuation b1 then
          (Char.ofNat ((b0.val - 0xC0) * 0x40 + (b1.val - 0x80)), rest1)
        else (replacementChar, rest)
      | _ => (replacementChar, rest)
    else if b0.val < 0xF0 then
      match rest with
      | b1 :: b2 :: rest2 =>
        if isContinuation b1 ∧ isContinuation b2 ∧
            0x800 ≤ (b0.val - 0xE0) * 0x1000 + (b1.val - 0x80) * 0x40 + (b2.val - 0x80) ∧
            ¬ (0xD800 ≤ (b0.val - 0xE0) * 0x1000 + (b1.val - 0x80) * 0x40 + (b2.val - 0x80) ∧
              (b0.val - 0xE0) * 0x1000 + (b1.val - 0x80) * 0x40 + (b2.val - 0x80) < 0xE000) then
          (Char.ofNat ((b0.val - 0xE0) * 0x1000 + (b1.val - 0x80) * 0x40 + (b2.val - 0x80)),
            rest2)
        else (replacementChar, rest)
      | _ => (replacementChar, rest)
    else if b0.val < 0xF5 then
      match rest with
      | b1 :: b2 :: b3 :: rest3 =>
        if isContinuation b1 ∧ isContinuation b2 ∧ isContinuation b3 ∧
            0x10000 ≤ (b0.val - 0xF0) * 0x40000 + (b1.val - 0x80) * 0x1000
              + (b2.val - 0x80) * 0x40 + (b3.val - 0x80) ∧
            (b0.val - 0xF0) * 0x40000 + (b1.val - 0x80) * 0x1000
              + (b2.val - 0x80) * 0x40 + (b3.val - 0x80) < 0x110000 then
          (Char.ofNat ((b0.val - 0xF0) * 0x40000 + (b1.val - 0x80) * 0x1000
            + (b2.val - 0x80) * 0x40 + (b3.val - 0x80)), rest3)
        else (replacementChar, rest)
      | _ => (replacementChar, rest)
    else (replacementChar, rest)

/-- The hexadecimal digit of a number below 16, in lower case. -/
def hexDigit (n : Nat) : Fin 256 :=
  if n < 10 then Fin.ofNat (48 + n) else Fin.ofNat (87 + n)

/-- The value of a hexadecimal digit of either case. -/
def hexValue (b : Fin 256) : Option Nat :=
  if 48 ≤ b.val ∧ b.val ≤ 57 then some (b.val - 48)
  else if 97 ≤ b.val ∧ b.val ≤ 102 then some (b.val - 87)
  else if 65 ≤ b.val ∧ b.val ≤ 70 then some (b.val - 55)
  else none

/-- The four hexadecimal digits of a number below 65536. -/
def hex4 (n : Nat) : Bytes :=
  [hexDigit (n / 4096), hexDigit (n / 256 % 16), hexDigit (n / 16 % 16), hexDigit (n % 16)]

/-- The function `getu4` of `encoding/json` after the `\u`: the number four
hexadecimal digits denote and the bytes after them. -/
def getu4 : Bytes → Option (Nat × Bytes)
  | b0 :: b1 :: b2 :: b3 :: rest =>
    match hexValue b0, hexValue b1, hexValue b2, hexValue b3 with
    | some d0, some d1, some d2, some d3 => some (d0 * 4096 + d1 * 256 + d2 * 16 + d3, rest)
    | _, _, _, _ => none
  | _ => none

/-- What `encoding/json` writes for one character of a string, with the HTML
escape of `json.Marshal`: a backslash before the quote and the backslash, the
short escapes of backspace, form feed, line feed, carriage return and tab,
`\u` and four digits for the other control characters, for `<`, `>`, `&`,
U+2028 and U+2029, and the UTF-8 encoding of any other character. -/
def renderChar (ch : Char) : Bytes :=
  if ch.toNat = 34 then [92, 34]
  else if ch.toNat = 92 then [92, 92]
  else if ch.toNat = 8 then [92, 98]
  else if ch.toNat = 12 then [92, 102]
  else if ch.toNat = 10 then [92, 110]
  else if ch.toNat = 13 then [92, 114]
  else if ch.toNat = 9 then [92, 116]
  else if ch.toNat < 32 ∨ ch.toNat = 60 ∨ ch.toNat = 62 ∨ ch.toNat = 38 ∨ ch.toNat = 0x2028 ∨
      ch.toNat = 0x2029 then
    [92, 117] ++ hex4 ch.toNat
  else utf8EncodeChar ch

/-- The JSON string literal `encoding/json` writes for a Go string. -/
def renderString (s : String) : Bytes :=
  [34] ++ s.data.flatMap renderChar ++ [34]

/-- The character an escape sequence denotes, read after its backslash. A
`\u` escape of a surrogate half is U+FFFD unless a high half is followed by the
`\u` escape of a low half, and the two denote one character. -/
def readEscape : Bytes → Option (Char × Bytes)
  | [] => none
  | e :: rest =>
    if e.val = 34 then some (Char.ofNat 34, rest)
    else if e.val = 92 then some (Char.ofNat 92, rest)
    else if e.val = 47 then some (Char.ofNat 47, rest)
    else if e.val = 98 then some (Char.ofNat 8, rest)
    else if e.val = 102 then some (Char.ofNat 12, rest)
    else if e.val = 110 then some (Char.ofNat 10, rest)
    else if e.val = 114 then some (Char.ofNat 13, rest)
    else if e.val = 116 then some (Char.ofNat 9, rest)
    else if e.val = 117 then
      match getu4 rest with
      | none => none
      | some (u, rest1) =>
        if 0xD800 ≤ u ∧ u < 0xDC00 then
          match rest1 with
          | 92 :: 117 :: rest2 =>
            match getu4 rest2 with
            | some (low, rest3) =>
              if 0xDC00 ≤ low ∧ low < 0xE000 then
                some (Char.ofNat (0x10000 + (u - 0xD800) * 0x400 + (low - 0xDC00)), rest3)
              else some (replacementChar, rest1)
            | none => some (replacementChar, rest1)
          | _ => some (replacementChar, rest1)
        else if 0xDC00 ≤ u ∧ u < 0xE000 then some (replacementChar, rest1)
        else some (Char.ofNat u, rest1)
    else none

/-- One character of a string literal, read from the bytes inside the quotes:
an escape sequence, or a character in UTF-8 (`utf8.DecodeRune`); a control
character and the closing quote are no character. -/
def readChar : Bytes → Option (Char × Bytes)
  | [] => none
  | b :: rest =>
    if b.val = 92 then readEscape rest
    else if b.val < 32 ∨ b.val = 34 then none
    else if b.val < 128 then some (Char.ofNat b.val, rest)
    else some (utf8DecodeRune (b :: rest))

/-- The characters of a string literal up to its closing quote, read after
the opening quote, and the bytes after the closing quote. -/
def readString : Nat → Bytes → Option (List Char × Bytes)
  | 0, _ => none
  | fuel + 1, input =>
    match input with
    | [] => none
    | b :: rest =>
      if b.val = 34 then some ([], rest)
      else
        match readChar (b :: rest) with
        | none => none
        | some (ch, rest1) =>
          match readString fuel rest1 with
          | none => none
          | some (chars, rest2) => some (ch :: chars, rest2)

/-- A decimal digit. -/
def isDigit (b : Fin 256) : Prop := 48 ≤ b.val ∧ b.val ≤ 57

instance (b : Fin 256) : Decidable (isDigit b) := by
  unfold isDigit; infer_instance

/-- The decimal digits of a natural number below `fuel`, the most significant
first. -/
def natDigits : Nat → Nat → Bytes
  | 0, _ => []
  | fuel + 1, n =>
    if n < 10 then [Fin.ofNat (48 + n)]
    else natDigits fuel (n / 10) ++ [Fin.ofNat (48 + n % 10)]

/-- What `encoding/json` writes for a Go integer: its decimal digits, after a
minus sign when it is negative. -/
def renderInt : Int → Bytes
  | .ofNat n => natDigits (n + 1) n
  | .negSucc n => 45 :: natDigits (n + 2) (n + 1)

/-- The digits at the start of the bytes, and the bytes after them. -/
def scanDigits : Bytes → Bytes × Bytes
  | [] => ([], [])
  | b :: rest =>
    if isDigit b then ((b :: (scanDigits rest).1), (scanDigits rest).2)
    else ([], b :: rest)

/-- The integer part of a number literal: a zero, or a digit from 1 to 9 and
the digits after it. -/
def scanInteger : Bytes → Option (Bytes × Bytes)
  | [] => none
  | b :: rest =>
    if b.val = 48 then some ([b], rest)
    else if 49 ≤ b.val ∧ b.val ≤ 57 then some (b :: (scanDigits rest).1, (scanDigits rest).2)
    else none

/-- The optional fraction of a number literal: a point and at least one digit. -/
def scanFraction : Bytes → Option (Bytes × Bytes)
  | [] => some ([], [])
  | b :: rest =>
    if b.val = 46 then
      match scanDigits rest with
      | ([], _) => none
      | (d :: ds, rest1) => some (b :: d :: ds, rest1)
    else some ([], b :: rest)

/-- The optional exponent of a number literal: `e` or `E`, an optional sign and
at least one digit. -/
def scanExponent : Bytes → Option (Bytes × Bytes)
  | [] => some ([], [])
  | b :: rest =>
    if b.val = 101 ∨ b.val = 69 then
      match rest with
      | [] => none
      | s :: rest1 =>
        if s.val = 43 ∨ s.val = 45 then
          match scanDigits rest1 with
          | ([], _) => none
          | (d :: ds, rest2) => some (b :: s :: d :: ds, rest2)
        else
          match scanDigits (s :: rest1) with
          | ([], _) => none
          | (d :: ds, rest2) => some (b :: d :: ds, rest2)
    else some ([], b :: rest)

/-- The number literal at the start of the bytes, by the grammar of JSON, and
the bytes after it. -/
def scanNumber (input : Bytes) : Option (Bytes × Bytes) :=
  match (match input with
    | [] => (([] : Bytes), ([] : Bytes))
    | b :: rest => if b.val = 45 then ([b], rest) else ([], b :: rest)) with
  | (sign, rest0) =>
    match scanInteger rest0 with
    | none => none
    | some (whole, rest1) =>
      match scanFraction rest1 with
      | none => none
      | some (fraction, rest2) =>
        match scanExponent rest2 with
        | none => none
        | some (exponent, rest3) => some (sign ++ whole ++ fraction ++ exponent, rest3)

/-- The number decimal digits denote. -/
def digitsValue (digits : Bytes) : Nat :=
  digits.foldl (fun acc b => acc * 10 + (b.val - 48)) 0

/-- The call `strconv.ParseInt(literal, 10, 64)` on a number literal of JSON:
the integer the literal denotes when it is an optional minus sign and digits
and the integer is within 64 bits. -/
def parseInt64 (literal : Bytes) : Option Int :=
  match literal with
  | [] => none
  | b :: rest =>
    if b.val = 45 then
      if rest ≠ [] ∧ rest.all (fun d => isDigit d) ∧ digitsValue rest ≤ 9223372036854775808 then
        some (-(digitsValue rest : Int))
      else none
    else
      if (b :: rest).all (fun d => isDigit d) ∧ digitsValue (b :: rest) < 9223372036854775808 then
        some (digitsValue (b :: rest) : Int)
      else none

/-- The bytes cannot continue a number literal: they are empty or start with
a byte that is no digit, point or exponent mark. -/
def endsNumber : Bytes → Prop
  | [] => True
  | b :: _ => ¬ isDigit b ∧ b.val ≠ 46 ∧ b.val ≠ 101 ∧ b.val ≠ 69

/-- A JSON value (RFC 8259). A number is kept as its literal, as
`encoding/json` keeps it until the type of the target is known. -/
inductive JSON where
  | null
  | bool (b : Bool)
  | number (literal : Bytes)
  | string (s : String)
  | array (items : List JSON)
  | object (members : List (String × JSON))

mutual
/-- The compact text of a JSON value, as `json.Marshal` writes it: no white
space, the members of an object in the order of the list. -/
def JSON.render : JSON → Bytes
  | .null => [110, 117, 108, 108]
  | .bool true => [116, 114, 117, 101]
  | .bool false => [102, 97, 108, 115, 101]
  | .number literal => literal
  | .string s => renderString s
  | .array items => 91 :: renderItems items
  | .object members => 123 :: renderMembers members
/-- The items of an array after the opening bracket, with the closing one. -/
def renderItems : List JSON → Bytes
  | [] => [93]
  | x :: rest => x.render ++ renderItemsTail rest
/-- The items of an array after the first, each after a comma, and the closing
bracket. -/
def renderItemsTail : List JSON → Bytes
  | [] => [93]
  | x :: rest => 44 :: (x.render ++ renderItemsTail rest)
/-- The members of an object after the opening brace, with the closing one. -/
def renderMembers : List (String × JSON) → Bytes
  | [] => [125]
  | (key, x) :: rest => renderString key ++ 58 :: (x.render ++ renderMembersTail rest)
/-- The members of an object after the first, each after a comma, and the
closing brace. -/
def renderMembersTail : List (String × JSON) → Bytes
  | [] => [125]
  | (key, x) :: rest =>
    44 :: (renderString key ++ 58 :: (x.render ++ renderMembersTail rest))
end

/-- White space of JSON: space, tab, line feed, carriage return. -/
def isSpace (b : Fin 256) : Prop := b.val = 32 ∨ b.val = 9 ∨ b.val = 10 ∨ b.val = 13

instance (b : Fin 256) : Decidable (isSpace b) := by
  unfold isSpace; infer_instance

/-- The bytes after the white space they start with. -/
def skipSpace : Bytes → Bytes
  | [] => []
  | b :: rest => if isSpace b then skipSpace rest else b :: rest

/-- The constant `maxNestingDepth` of the scanner of `encoding/json`: arrays and
objects nested deeper are refused. -/
def maxNestingDepth : Nat := 10000

mutual
/-- The JSON value at the start of the bytes, after white space, and the bytes
after it; `depth` counts the arrays and objects the value is inside of. -/
def parseValue : Nat → Nat → Bytes → Option (JSON × Bytes)
  | 0, _, _ => none
  | fuel + 1, depth, input =>
    match skipSpace input with
    | [] => none
    | b :: rest =>
      if b.val = 34 then
        match readString (rest.length + 1) rest with
        | none => none
        | some (chars, rest1) => some (.string (String.mk chars), rest1)
      else if b.val = 91 then
        if maxNestingDepth ≤ depth then none
        else
          match skipSpace rest with
          | [] => none
          | b1 :: rest1 =>
            if b1.val = 93 then some (.array [], rest1)
            else
              match parseValue fuel (depth + 1) (b1 :: rest1) with
              | none => none
              | some (x, rest2) =>
                match parseItemsTail fuel (depth + 1) rest2 with
                | none => none
                | some (xs, rest3) => some (.array (x :: xs), rest3)
      else if b.val = 123 then
        if maxNestingDepth ≤ depth then none
        else
          match skipSpace rest with
          | [] => none
          | b1 :: rest1 =>
            if b1.val = 125 then some (.object [], rest1)
            else
              match parseMember fuel (depth + 1) (b1 :: rest1) with
              | none => none
              | some (m, rest2) =>
                match parseMembersTail fuel (depth + 1) rest2 with
                | none => none
                | some (ms, rest3) => some (.object (m :: ms), rest3)
      else if b.val = 116 then
        match rest with
        | 114 :: 117 :: 101 :: rest1 => some (.bool true, rest1)
        | _ => none
      else if b.val = 102 then
        match rest with
        | 97 :: 108 :: 115 :: 101 :: rest1 => some (.bool false, rest1)
        | _ => none
      else if b.val = 110 then
        match rest with
        | 117 :: 108 :: 108 :: rest1 => some (.null, rest1)
        | _ => none
      else
        match scanNumber (b :: rest) with
        | none => none
        | some (literal, rest1) => some (.number literal, rest1)
termination_by structural fuel => fuel
/-- The items of an array after the first: the closing bracket, or a comma, an
item and the items after it. -/
def parseItemsTail : Nat → Nat → Bytes → Option (List JSON × Bytes)
  | 0, _, _ => none
  | fuel + 1, depth, input =>
    match skipSpace input with
    | [] => none
    | b :: rest =>
      if b.val = 93 then some ([], rest)
      else if b.val = 44 then
        match parseValue fuel depth rest with
        | none => none
        | some (x, rest1) =>
          match parseItemsTail fuel depth rest1 with
          | none => none
          | some (xs, rest2) => some (x :: xs, rest2)
      else none
termination_by structural fuel => fuel
/-- A member of an object: a string literal, a colon and a value. -/
def parseMember : Nat → Nat → Bytes → Option ((String × JSON) × Bytes)
  | 0, _, _ => none
  | fuel + 1, depth, input =>
    match skipSpace input with
    | [] => none
    | b :: rest =>
      if b.val = 34 then
        match readString (rest.length + 1) rest with
        | none => none
        | some (chars, rest1) =>
          match skipSpace rest1 with
          | [] => none
          | b1 :: rest2 =>
            if b1.val = 58 then
              match parseValue fuel depth rest2 with
              | none => none
              | some (x, rest3) => some ((String.mk chars, x), rest3)
            else none
      else none
termination_by structural fuel => fuel
/-- The members of an object after the first: the closing brace, or a comma, a
member and the members after it. -/
def parseMembersTail : Nat → Nat → Bytes → Option (List (String × JSON) × Bytes)
  | 0, _, _ => none
  | fuel + 1, depth, input =>
    match skipSpace input with
    | [] => none
    | b :: rest =>
      if b.val = 125 then some ([], rest)
      else if b.val = 44 then
        match parseMember fuel depth rest with
        | none => none
        | some (m, rest1) =>
          match parseMembersTail fuel depth rest1 with
          | none => none
          | some (ms, rest2) => some (m :: ms, rest2)
      else none
termination_by structural fuel => fuel
end

/-- The function `checkValid` of `encoding/json` with the value read: the JSON
value the whole input is, white space around it allowed, if it is one. -/
def parseJSON (input : Bytes) : Option JSON :=
  match parseValue (input.length + 1) 0 input with
  | none => none
  | some (x, rest) => if skipSpace rest = [] then some x else none

/-- The bytes of a text of ASCII characters. -/
def ascii (s : String) : Bytes := s.data.map (fun ch => Fin.ofNat ch.toNat)

mutual
/-- How deep the arrays and objects of a JSON value are nested: 0 for a value
that is neither, 1 for an array or object of such values. -/
def JSON.depth : JSON → Nat
  | .array items => depthItems items + 1
  | .object members => depthMembers members + 1
  | _ => 0
/-- The greatest depth among the items of an array. -/
def depthItems : List JSON → Nat
  | [] => 0
  | x :: rest => max x.depth (depthItems rest)
/-- The greatest depth among the values of the members of an object. -/
def depthMembers : List (String × JSON) → Nat
  | [] => 0
  | (_, x) :: rest => max x.depth (depthMembers rest)
end

mutual
/-- Every number in the JSON value is an integer as `encoding/json` writes it. -/
def JSON.Plain : JSON → Prop
  | .number literal => ∃ n : Int, literal = renderInt n
  | .array items => PlainItems items
  | .object members => PlainMembers members
  | _ => True
/-- Every number in the items is an integer as `encoding/json` writes it. -/
def PlainItems : List JSON → Prop
  | [] => True
  | x :: rest => x.Plain ∧ PlainItems rest
/-- Every number in the members is an integer as `encoding/json` writes it. -/
def PlainMembers : List (String × JSON) → Prop
  | [] => True
  | (_, x) :: rest => x.Plain ∧ PlainMembers rest
end

/-- A Go type a response can be decoded into: `bool`, `int`, `string`, a slice,
or a struct, whose fields are given by their JSON names (the name in the `json`
tag, or the name of the field when it has no tag) in the order of declaration. -/
inductive GoType where
  | bool
  | int
  | string
  | slice (elem : GoType)
  | struct (fields : List (String × GoType))

/-- A Go value of one of these types; a slice carries the type of its
elements, a nil slice is the empty slice. -/
inductive GoValue where
  | bool (b : Bool)
  | int (n : Int)
  | string (s : String)
  | slice (elem : GoType) (items : List GoValue)
  | struct (fields : List (String × GoValue))

mutual
/-- The zero value of a type. -/
def GoType.zero : GoType → GoValue
  | .bool => .bool false
  | .int => .int 0
  | .string => .string ""
  | .slice elem => .slice elem []
  | .struct fields => .struct (zeroFields fields)
/-- The zero values of the fields of a struct type. -/
def zeroFields : List (String × GoType) → List (String × GoValue)
  | [] => []
  | (name, t) :: rest => (name, t.zero) :: zeroFields rest
end

mutual
/-- The type of a value. -/
def GoValue.typeOf : GoValue → GoType
  | .bool _ => .bool
  | .int _ => .int
  | .string _ => .string
  | .slice elem _ => .slice elem
  | .struct fields => .struct (typeOfFields fields)
/-- The types of the fields of a struct. -/
def typeOfFields : List (String × GoValue) → List (String × GoType)
  | [] => []
  | (name, v) :: rest => (name, v.typeOf) :: typeOfFields rest
end

/-- What this development takes from `encoding/json` as given: the error values
it builds and the folding of letter case in the names of fields. -/
structure JSONLib where
  /-- The `*json.SyntaxError` for an input that is not one JSON value. -/
  invalid : Bytes → GoError
  /-- The `*json.UnmarshalTypeError` for a JSON value that does not fit the Go
  type of its target, with the names of the fields that lead to the target. -/
  mismatch : List String → JSON → GoType → GoError
  /-- The function `foldName`: two names match without regard to case when they
  fold to the same text. -/
  foldName : String → String

/-- The field a key of a JSON object is decoded into: the field whose name is
the key or, when there is none, the first field whose name matches the key
without regard to case. -/
def lookupField (lib : JSONLib) (key : String) (fields : List (String × GoValue)) :
    Option (String × GoValue) :=
  match fields.find? (fun f => f.1 = key) with
  | some f => some f
  | none => fields.find? (fun f => lib.foldName f.1 = lib.foldName key)

/-- The fields with the value of the field `name` replaced. -/
def setField (name : String) (v : GoValue) : List (String × GoValue) → List (String × GoValue)
  | [] => []
  | (k, old) :: rest =>
    if k = name then (k, v) :: rest else (k, old) :: setField name v rest

/-- The first of two errors, as `saveError` keeps it. -/
def firstError : Option GoError → Option GoError → Option GoError
  | some e, _ => some e
  | none, e => e

mutual
/-- The decoding of a JSON value into a Go value, by the rules of
`json.Unmarshal`: a `null` empties a slice and leaves any other target as it
is; a boolean, a string, an integer literal within 64 bits set a target of
their type; an array sets a slice to its items, each decoded into a zero
element; an object sets the fields of a struct its keys name and skips the
other keys; a value that does not fit its target leaves the target as it is,
and the first such mismatch is the error returned, after the rest has been
decoded. -/
def decodeInto (lib : JSONLib) : List String → JSON → GoValue → GoValue × Option GoError
  | _, .null, .slice elem _ => (.slice elem [], none)
  | _, .null, sink => (sink, none)
  | _, .bool b, .bool _ => (.bool b, none)
  | path, .number literal, .int old =>
    match parseInt64 literal with
    | some n => (.int n, none)
    | none => (.int old, some (lib.mismatch path (.number literal) .int))
  | _, .string s, .string _ => (.string s, none)
  | path, .array items, .slice elem _ =>
    (.slice elem (decodeItems lib path items elem).1, (decodeItems lib path items elem).2)
  | path, .object members, .struct fields =>
    (.struct (decodeMembers lib path members fields).1,
      (decodeMembers lib path members fields).2)
  | path, x, sink => (sink, some (lib.mismatch path x sink.typeOf))
termination_by structural _ x => x
/-- The items of an array decoded into a slice: in the words of the
documentation, `Unmarshal` resets the slice length to zero and then appends
each element to the slice; each item is decoded into a zero value of the
element type. -/
def decodeItems (lib : JSONLib) : List String → List JSON → GoType →
    List GoValue × Option GoError
  | _, [], _ => ([], none)
  | path, x :: rest, elem =>
    ((decodeInto lib path x elem.zero).1 :: (decodeItems lib path rest elem).1,
      firstError (decodeInto lib path x elem.zero).2 (decodeItems lib path rest elem).2)
termination_by structural _ xs => xs
/-- The members of an object, decoded one after the other into the fields. -/
def decodeMembers (lib : JSONLib) : List String → List (String × JSON) →
    List (String × GoValue) → List (String × GoValue) × Option GoError
  | _, [], fields => (fields, none)
  | path, (key, x) :: rest, fields =>
    match lookupField lib key fields with
    | none => decodeMembers lib path rest fields
    | some (name, old) =>
      ((decodeMembers lib path rest
          (setField name (decodeInto lib (path ++ [name]) x old).1 fields)).1,
        firstError (decodeInto lib (path ++ [name]) x old).2
          (decodeMembers lib path rest
            (setField name (decodeInto lib (path ++ [name]) x old).1 fields)).2)
termination_by structural _ ms => ms
end

/-- The function `json.Unmarshal(data, &sink)`: an input that is not one JSON
value leaves the sink as it is and gives a syntax error; any other is decoded
into the sink. -/
def Unmarshal (lib : JSONLib) (data : Bytes) (sink : GoValue) : GoValue × Option GoError :=
  match parseJSON data with
  | none => (sink, some (lib.invalid data))
  | some x => decodeInto lib [] x sink

mutual
/-- The JSON value is the JSON form of the Go value: a boolean, a string, an
integer within 64 bits written in decimal, an array of the forms of the items
of a slice, or an object with one member for every field of a struct, in any
order, each the form of its field. -/
def Denotes : JSON → GoValue → Prop
  | .bool a, .bool b => a = b
  | .number literal, .int n =>
    literal = renderInt n ∧ -9223372036854775808 ≤ n ∧ n < 9223372036854775808
  | .string s, .string t => s = t
  | .array items, .slice elem values => DenotesItems items elem values
  | .object members, .struct fields =>
    (members.map Prod.fst).Nodup ∧ (fields.map Prod.fst).Nodup ∧
    (∀ f ∈ fields, f.1 ∈ members.map Prod.fst) ∧ DenotesMembers members fields
  | _, _ => False
termination_by structural x _ => x
/-- The items are the JSON forms of the values, which have the type `elem`. -/
def DenotesItems : List JSON → GoType → List GoValue → Prop
  | [], _, [] => True
  | x :: xs, elem, v :: vs => Denotes x v ∧ v.typeOf = elem ∧ DenotesItems xs elem vs
  | _, _, _ => False
termination_by structural xs _ _ => xs
/-- Every member is the JSON form of the field its key names. -/
def DenotesMembers : List (String × JSON) → List (String × GoValue) → Prop
  | [], _ => True
  | (key, x) :: rest, fields =>
    (∃ v, (key, v) ∈ fields ∧ Denotes x v) ∧ DenotesMembers rest fields
termination_by structural ms _ => ms
end

/-- How the fields of a sink stand to the fields to be decoded while the
members `keys` are still to come: the same names and types, and the value
already in place unless its member is still to come. -/
def FieldsPending (keys : List String) :
    List (String × GoValue) → List (String × GoValue) → Prop
  | [], [] => True
  | c :: cs, f :: fs =>
    (c.1 = f.1 ∧ c.2.typeOf = f.2.typeOf ∧ (c.1 ∈ keys ∨ c.2 = f.2)) ∧ FieldsPending keys cs fs
  | _, _ => False

/-- The codec of a `DoRequest` call whose result sink is a Go value of these
types: `json.Unmarshal` as modelled here, and a given `json.Marshal` for the
request body. -/
def jsonCodec {β : Type} (marshal : β → Except GoError Bytes) (jlib : JSONLib) :
    Codec β GoValue :=
  { marshal := marshal, unmarshal := Unmarshal jlib }

/-! ## Concrete scenarios -/

/-- A library whose token decoder yields `result` and whose upload decoder
yields `upload`; `http.NewRequest` rejects exactly the URLs that start with a
colon (`missing protocol scheme`). -/
def scenarioLib (result : TokenResult) (upload : UploadResult) : Lib :=
  { jsonString := fun s => [34] ++ s.toList.map (fun ch => Fin.ofNat ch.toNat) ++ [34]
    newRequestErr := fun _ url =>
      if url.front = ':' then some (.errorString "missing protocol scheme") else none
    unmarshalToken := fun _ => .ok result
    unmarshalUpload := fun _ => .ok upload }

/-- A world in which every request is answered with status 200 and the given
body, and a file part is encoded without error. -/
def scenarioEnv (nowCheck nowInstall : Time) (respBody : Bytes) : Env :=
  { nowCheck := nowCheck
    exchange := fun _ => .response 200 respBody
    nowInstall := nowInstall
    api := fun _ => .response 200 respBody
    multipart := fun _ _ content => .encoded content "multipart/form-data; boundary=b" }

/-- The client of the tests, holding the given credential. -/
def scenarioClient (token : String) (expire : Time) : Client :=
  { AppID := "test-app-id", AppSecret := "test-app-secret",
    tenantAccessToken := token, tokenExpireTime := expire }

/-- A library that decodes the body `[1]` to `token-A` for 100 s and any other
body to `token-B` for 200 s. -/
def raceLib : Lib :=
  { jsonString := fun s => [34] ++ s.toList.map (fun ch => Fin.ofNat ch.toNat) ++ [34]
    newRequestErr := fun _ _ => none
    unmarshalToken := fun respBody =>
      if respBody = [1] then .ok ⟨0, "ok", "token-A", 100⟩
      else .ok ⟨0, "ok", "token-B", 200⟩
    unmarshalUpload := fun _ => .ok ⟨0, "", ""⟩ }

/-- Two goroutines call `GetTenantAccessToken` on a client that holds no token:
the first is answered `[1]` and installs at 10 ns, the second is answered `[2]`
and installs at 20 ns. -/
def raceSystem : System :=
  { client := scenarioClient "" 0
    goroutines := [Goroutine.start (scenarioEnv 1 10 [1]), Goroutine.start (scenarioEnv 2 20 [2])] }

/-- A codec for string bodies and string sinks that copies bytes as they are. -/
def scenarioCodec : Codec Bytes Bytes :=
  { marshal := fun b => .ok b
    unmarshal := fun respBody _ => (respBody, none) }

/-- The library of `scenarioLib`, except that `http.NewRequest` rejects the
URLs that contain an ASCII control character, as `net/url` does. -/
def controlRejectingLib (result : TokenResult) (upload : UploadResult) : Lib :=
  { scenarioLib result upload with
    newRequestErr := fun _ url =>
      if url.toList.any (fun ch => ch.toNat < 32 || ch.toNat == 127) then
        some (.errorString "net/url: invalid control character in URL")
      else none }

/-- A codec for byte bodies and byte sinks that copies bytes as they are and
fails to decode the empty body, as `json.Unmarshal` does. -/
def emptyRejectingCodec : Codec Bytes Bytes :=
  { marshal := fun b => .ok b
    unmarshal := fun respBody sink =>
      if respBody = [] then (sink, some (.errorString "unexpected end of JSON input"))
      else (respBody, none) }

/-- A codec for the services whose encoder writes an empty object and whose
decoder yields `decoded`. -/
def scenarioServiceCodec {ρ : Type} (decoded : ρ) : Codec Value ρ :=
  { marshal := fun _ => .ok [123, 125]
    unmarshal := fun _ _ => (decoded, none) }

/-- The operation name `net/http` puts in the error of `httpClient.Do`, for a
method of printable ASCII: the method with all but its first letter in lower
case (`Post` for `POST`), and `Get` for the empty method. -/
def urlErrorOp (method : String) : String :=
  match method.data with
  | [] => "Get"
  | ch :: rest => String.mk (ch :: rest.map Char.toLower)

/-- The `*url.Error` that `httpClient.Do` returns for a request it could not
carry out, for a URL that the verb `%q` prints as it is between quotes: the
text is the operation, the quoted URL and the text of the cause, and `Unwrap`
yields the cause. -/
def urlError (req : Request) (cause : GoError) : GoError :=
  .wrapError (urlErrorOp req.method ++ " \"" ++ req.url ++ "\": " ++ cause.Error) cause

/-- A transport that finds every connection refused. -/
def refusingTransport (req : Request) : HttpOutcome :=
  .doFailed (urlError req (.errorString "dial tcp 203.0.113.1:443: connect: connection refused"))

/-- A world in which every connection is refused, for the token exchange and
for the API request alike. -/
def refusingEnv : Env :=
  { scenarioEnv 5 6 [] with exchange := refusingTransport, api := refusingTransport }

/-- The library of `scenarioLib`, except that the token decoder fails on the
empty body, as `json.Unmarshal` does. -/
def emptyRejectingLib (result : TokenResult) (upload : UploadResult) : Lib :=
  { scenarioLib result upload with
    unmarshalToken := fun respBody =>
      if respBody = [] then .error (.errorString "unexpected end of JSON input")
      else .ok result }

/-- The words of `encoding/json` for a JSON value in the text of a type error. -/
def jsonKind : JSON → String
  | .null => "null"
  | .bool _ => "bool"
  | .number literal => "number " ++ String.mk (literal.map (fun b => Char.ofNat b.val))
  | .string _ => "string"
  | .array _ => "array"
  | .object _ => "object"

/-- The name of a Go type in the text of a type error; a struct type is written
without its fields. -/
def GoType.name : GoType → String
  | .bool => "bool"
  | .int => "int"
  | .string => "string"
  | .slice elem => "[]" ++ elem.name
  | .struct _ => "struct"

/-- The errors of `encoding/json` in the scenarios: a type error names the JSON
value, the field and the Go type, as for a field of an anonymous struct; the
one input of the scenarios that is refused as a whole is refused for its
nesting; names are folded to lower case letter by letter. -/
def scenarioJSONLib : JSONLib :=
  { invalid := fun _ => .errorString "exceeded max depth"
    mismatch := fun path x t =>
      .errorString ("json: cannot unmarshal " ++ jsonKind x ++ " into Go struct field ."
        ++ ".".intercalate path ++ " of type " ++ t.name)
    foldName := fun s => String.mk (s.data.map Char.toLower) }

/-- The result struct of `TestDoRequest`, `struct { Code int; Msg string; Data
struct { Key string } }` with the tags `code`, `msg`, `data` and `key`. -/
def testSinkType : GoType :=
  .struct [("code", .int), ("msg", .string), ("data", .struct [("key", .string)])]

/-- An empty array inside `k` arrays of one item each. -/
def nestedArray : Nat → JSON
  | 0 => .array []
  | k + 1 => .array [nestedArray k]

/-- The type of a slice of slices, `k` levels above a slice of `int`. -/
def nestedSliceType : Nat → GoType
  | 0 => .slice .int
  | k + 1 => .slice (nestedSliceType k)

/-- The Go value of `nestedArray k`: an empty slice inside `k` slices of one
item each. -/
def nestedSlice : Nat → GoValue
  | 0 => .slice .int []
  | k + 1 => .slice (nestedSliceType k) [nestedSlice k]

/-- A data object whose one member `a` holds `nestedArray k`: with the object
itself and the envelope around it, nested `k + 3` deep. -/
def deepData (k : Nat) : JSON := .object [("a", nestedArray k)]

/-- The Go type of `deepData k`: a struct with the field `a`, a slice of slices. -/
def deepDataType (k : Nat) : GoType := .struct [("a", nestedSliceType k)]

/-- The Go value of `deepData k`. -/
def deepDataValue (k : Nat) : GoValue := .struct [("a", nestedSlice k)]

/-- The envelope with the code 0, the message `ok` and the data `deepData k`. -/
def deepEnvelope (k : Nat) : JSON :=
  .object [("code", .number (renderInt 0)), ("msg", .string "ok"), ("data", deepData k)]

/-! ## Auxiliary facts -/

/-- Within the 64-bit range a value is its own wrap-around. -/
theorem wrapInt64_of_range (x : Int) (hlo : -(2 ^ 63) ≤ x) (hhi : x < 2 ^ 63) :
    wrapInt64 x = x := by
  unfold wrapInt64
  omega

/-- A number of seconds of magnitude at most 9223372036 is a Duration without
wrap-around. -/
theorem secondsDuration_of_range (e : Int) (hlo : -9223372036 ≤ e) (hhi : e ≤ 9223372036) :
    secondsDuration e = e * Second := by
  unfold secondsDuration Second
  apply wrapInt64_of_range <;> omega

/-- A call hands the transport nothing or the one exchange request. -/
theorem GetTenantAccessToken_requests (lib : Lib) (vars : Vars) (env : Env) (c : Client) :
    (GetTenantAccessToken lib vars env c).requests = [] ∨
    (GetTenantAccessToken lib vars env c).requests = [c.exchangeRequest lib vars] := by
  unfold GetTenantAccessToken Client.exchangeRequest marshalIdentity
  split
  · simp
  · simp only
    repeat' split
    all_goals simp

/-- A call whose cache test fails sends the exchange request once
`http.NewRequest` accepts it. -/
theorem GetTenantAccessToken_requests_of_expired (lib : Lib) (vars : Vars) (env : Env)
    (c : Client) (hmiss : c.expired env.nowCheck)
    (hreq : lib.newRequestErr "POST" vars.TenantAccessTokenURL = none) :
    (GetTenantAccessToken lib vars env c).requests = [c.exchangeRequest lib vars] := by
  unfold Client.expired at hmiss
  unfold GetTenantAccessToken Client.exchangeRequest marshalIdentity
  rw [if_neg hmiss]
  simp only [hreq]
  repeat' split
  all_goals rfl

/-- The result of a call whose cache test fails and whose exchange is answered
by a body that decodes. -/
theorem GetTenantAccessToken_exchange (lib : Lib) (vars : Vars) (env : Env) (c : Client)
    (status : Nat) (respBody : Bytes) (result : TokenResult)
    (hmiss : c.expired env.nowCheck)
    (hreq : lib.newRequestErr "POST" vars.TenantAccessTokenURL = none)
    (hresp : env.exchange (c.exchangeRequest lib vars) = .response status respBody)
    (hdec : lib.unmarshalToken respBody = .ok result) :
    GetTenantAccessToken lib vars env c =
      if result.Code ≠ 0 then
        ⟨"", some (Errorf_s "get tenant_access_token failed: " result.Msg), c,
          [c.exchangeRequest lib vars]⟩
      else
        ⟨result.TenantAccessToken, none,
          { c with
            tenantAccessToken := result.TenantAccessToken
            tokenExpireTime := env.nowInstall + secondsDuration result.Expire },
          [c.exchangeRequest lib vars]⟩ := by
  unfold Client.expired at hmiss
  unfold Client.exchangeRequest at hresp
  simp only [GetTenantAccessToken, if_neg hmiss, marshalIdentity, hreq, hresp, hdec,
    Client.exchangeRequest]

/-- While the held token is non-empty and every cache test reads a time before
the expiry, successive calls all return the held token and send nothing. -/
theorem acquireAll_of_valid (lib : Lib) (vars : Vars) (c : Client) (envs : List Env)
    (htoken : c.tenantAccessToken ≠ "")
    (hnow : ∀ e ∈ envs, e.nowCheck < c.tokenExpireTime) :
    ∀ call ∈ acquireAll lib vars c envs,
      call.token = c.tenantAccessToken ∧ call.err = none ∧ call.requests = [] ∧
      call.client = c := by
  induction envs with
  | nil => intro call hcall; simp [acquireAll] at hcall
  | cons env envs ih =>
    have hhead : GetTenantAccessToken lib vars env c = ⟨c.tenantAccessToken, none, c, []⟩ := by
      simp [GetTenantAccessToken, htoken, hnow env (List.mem_cons_self _ _)]
    intro call hcall
    simp only [acquireAll, hhead, List.mem_cons] at hcall
    rcases hcall with h | h
    · subst h
      exact ⟨rfl, rfl, rfl, rfl⟩
    · exact ih (fun e he => hnow e (List.mem_cons_of_mem _ he)) call h

/-- One result per call. -/
theorem acquireAll_length (lib : Lib) (vars : Vars) (c : Client) (envs : List Env) :
    (acquireAll lib vars c envs).length = envs.length := by
  induction envs generalizing c with
  | nil => rfl
  | cons env envs ih => simp [acquireAll, ih]

/-- The exchange ends in a return or before the assignment of line 108. -/
theorem exchangePhase_phase (lib : Lib) (vars : Vars) (env : Env) (c : Client) :
    (∃ token err, (exchangePhase lib vars env c).1 = .done token err) ∨
    (∃ result, (exchangePhase lib vars env c).1 = .assignToken result) := by
  unfold exchangePhase marshalIdentity
  simp only
  cases lib.newRequestErr "POST" vars.TenantAccessTokenURL with
  | some err => exact Or.inl ⟨_, _, rfl⟩
  | none =>
    simp only
    cases env.exchange (exchangeRequest vars (identityJSON lib c.AppID c.AppSecret)) with
    | doFailed err => exact Or.inl ⟨_, _, rfl⟩
    | readFailed status err => exact Or.inl ⟨_, _, rfl⟩
    | response status respBody =>
      simp only
      cases lib.unmarshalToken respBody with
      | error err => exact Or.inl ⟨_, _, rfl⟩
      | ok result =>
        simp only
        by_cases hcode : result.Code ≠ 0
        · rw [if_pos hcode]
          exact Or.inl ⟨_, _, rfl⟩
        · rw [if_neg hcode]
          exact Or.inr ⟨_, rfl⟩

/-- The method in terms of its exchange: a cache hit, or the exchange followed
by the two assignments when it ends before line 108. -/
theorem GetTenantAccessToken_eq_exchangePhase (lib : Lib) (vars : Vars) (env : Env)
    (c : Client) :
    GetTenantAccessToken lib vars env c =
      if c.tenantAccessToken ≠ "" ∧ env.nowCheck < c.tokenExpireTime then
        ⟨c.tenantAccessToken, none, c, []⟩
      else
        match (exchangePhase lib vars env c).1 with
        | .assignToken result =>
          ⟨result.TenantAccessToken, none,
            { c with
              tenantAccessToken := result.TenantAccessToken
              tokenExpireTime := env.nowInstall + secondsDuration result.Expire },
            (exchangePhase lib vars env c).2⟩
        | .done token err => ⟨token, err, c, (exchangePhase lib vars env c).2⟩
        | _ => ⟨"", none, c, (exchangePhase lib vars env c).2⟩ := by
  unfold GetTenantAccessToken exchangePhase marshalIdentity
  by_cases hhit : c.tenantAccessToken ≠ "" ∧ env.nowCheck < c.tokenExpireTime
  · rw [if_pos hhit, if_pos hhit]
  · rw [if_neg hhit, if_neg hhit]
    simp only
    cases lib.newRequestErr "POST" vars.TenantAccessTokenURL with
    | some err => rfl
    | none =>
      simp only
      cases env.exchange (exchangeRequest vars (identityJSON lib c.AppID c.AppSecret)) with
      | doFailed err => rfl
      | readFailed status err => rfl
      | response status respBody =>
        simp only
        cases lib.unmarshalToken respBody with
        | error err => rfl
        | ok result =>
          simp only
          by_cases hcode : result.Code ≠ 0
          · simp only [if_pos hcode]
          · simp only [if_neg hcode]

/-- A goroutine that runs alone goes through the method in at most four
statements and ends with the results and the client of `GetTenantAccessToken`. -/
theorem System.run_alone (lib : Lib) (vars : Vars) (env : Env) (c : Client) :
    System.run lib vars ⟨c, [Goroutine.start env]⟩ [0, 0, 0, 0]
      = ⟨(GetTenantAccessToken lib vars env c).client,
          [⟨env, .done (GetTenantAccessToken lib vars env c).token
              (GetTenantAccessToken lib vars env c).err,
            (GetTenantAccessToken lib vars env c).requests⟩]⟩ := by
  rw [GetTenantAccessToken_eq_exchangePhase]
  by_cases hhit : c.tenantAccessToken ≠ "" ∧ env.nowCheck < c.tokenExpireTime
  · simp [System.run, System.step, Goroutine.step, Goroutine.start, hhit]
  · have hfirst : System.step lib vars ⟨c, [Goroutine.start env]⟩ 0
        = ⟨c, [⟨env, (exchangePhase lib vars env c).1, (exchangePhase lib vars env c).2⟩]⟩ := by
      simp only [System.step, Goroutine.step, Goroutine.start, if_neg hhit,
        List.getElem?_cons_zero, List.set_cons_zero, List.nil_append]
    simp only [System.run, hfirst, if_neg hhit]
    rcases exchangePhase_phase lib vars env c with ⟨token, err, h⟩ | ⟨result, h⟩
    · simp only [h, System.step, Goroutine.step, List.getElem?_cons_zero, List.set_cons_zero]
    · simp only [h, System.step, Goroutine.step, List.getElem?_cons_zero, List.set_cons_zero]

/-- A statement of the goroutine at index `before.length`. -/
theorem System.step_append (lib : Lib) (vars : Vars) (c : Client)
    (before : List Goroutine) (g : Goroutine) (after : List Goroutine) :
    System.step lib vars ⟨c, before ++ g :: after⟩ before.length
      = ⟨(g.step lib vars c).2, before ++ (g.step lib vars c).1 :: after⟩ := by
  have hget : (before ++ g :: after)[before.length]? = some g := by
    rw [List.getElem?_append_right (le_refl _)]
    simp
  have hset : ∀ g1 : Goroutine,
      (before ++ g :: after).set before.length g1 = before ++ g1 :: after := by
    intro g1
    simp
  unfold System.step
  simp only [hget, hset]

/-- A call that runs its four statements with no other goroutine stepping in
between behaves as `GetTenantAccessToken`, whatever the other goroutines are. -/
theorem System.run_uninterrupted (lib : Lib) (vars : Vars) (env : Env) (c : Client)
    (before after : List Goroutine) (schedule : List Nat) :
    System.run lib vars ⟨c, before ++ Goroutine.start env :: after⟩
        (before.length :: before.length :: before.length :: before.length :: schedule)
      = System.run lib vars
          ⟨(GetTenantAccessToken lib vars env c).client,
            before ++ Goroutine.finished env (GetTenantAccessToken lib vars env c) :: after⟩
          schedule := by
  rw [GetTenantAccessToken_eq_exchangePhase]
  by_cases hhit : c.tenantAccessToken ≠ "" ∧ env.nowCheck < c.tokenExpireTime
  · simp only [List.cons_append, List.nil_append, System.run, System.step_append,
      Goroutine.step, Goroutine.start, Goroutine.finished, if_pos hhit]
  · have hfirst : System.step lib vars ⟨c, before ++ Goroutine.start env :: after⟩
          before.length
        = ⟨c, before ++ ⟨env, (exchangePhase lib vars env c).1,
            (exchangePhase lib vars env c).2⟩ :: after⟩ := by
      simp only [System.step_append, Goroutine.step, Goroutine.start, if_neg hhit,
        List.nil_append]
    simp only [List.cons_append, List.nil_append, System.run, hfirst, if_neg hhit]
    rcases exchangePhase_phase lib vars env c with ⟨token, err, h⟩ | ⟨result, h⟩
    · simp only [h, System.step_append, Goroutine.step, Goroutine.finished]
    · simp only [h, System.step_append, Goroutine.step, Goroutine.finished]

/-- Goroutines that run one after another leave the client that successive
calls of `GetTenantAccessToken` leave, each with the results of its call. -/
theorem System.run_sequential (lib : Lib) (vars : Vars) (envs : List Env) (c : Client)
    (before : List Goroutine) :
    System.run lib vars ⟨c, before ++ envs.map Goroutine.start⟩
        (sequentialSchedule before.length envs.length)
      = ⟨acquireAllClient lib vars c envs,
          before ++ List.zipWith Goroutine.finished envs (acquireAll lib vars c envs)⟩ := by
  induction envs generalizing c before with
  | nil => simp [sequentialSchedule, System.run, acquireAllClient, acquireAll]
  | cons env envs ih =>
    have hnext := ih (GetTenantAccessToken lib vars env c).client
      (before ++ [Goroutine.finished env (GetTenantAccessToken lib vars env c)])
    simp only [List.length_append, List.length_singleton, List.append_assoc,
      List.singleton_append] at hnext
    simp only [List.map_cons, List.length_cons, sequentialSchedule, acquireAllClient,
      acquireAll, List.zipWith_cons_cons]
    rw [System.run_uninterrupted, hnext]

/-- A call keeps `AppID` and `AppSecret`, returns the token the client then
holds when it returns no error, and leaves the client with the credential it
had or with the one its exchange produced. -/
theorem GetTenantAccessToken_credential (lib : Lib) (vars : Vars) (env : Env) (c : Client) :
    (GetTenantAccessToken lib vars env c).client.exchangeRequest lib vars
      = c.exchangeRequest lib vars ∧
    ((GetTenantAccessToken lib vars env c).err = none →
      (GetTenantAccessToken lib vars env c).token
        = (GetTenantAccessToken lib vars env c).client.tenantAccessToken) ∧
    ((GetTenantAccessToken lib vars env c).client.credential = c.credential ∨
      exchangedCredential lib env (c.exchangeRequest lib vars)
        = some (GetTenantAccessToken lib vars env c).client.credential) := by
  unfold GetTenantAccessToken exchangedCredential Client.exchangeRequest marshalIdentity
    Client.credential
  split
  · simp
  · simp only
    repeat' split
    all_goals simp_all

/-! ## Properties of GetTenantAccessToken -/

/-- C1. Cache hit: when the held token is non-empty and the time read by the
cache test is strictly before the expiry, the call returns the held token with a
nil error, hands no request to the transport, and leaves the client (token and
expiry included) as it was. -/
theorem GetTenantAccessToken_cache_hit (lib : Lib) (vars : Vars) (env : Env) (c : Client)
    (htoken : c.tenantAccessToken ≠ "") (hnow : env.nowCheck < c.tokenExpireTime) :
    (GetTenantAccessToken lib vars env c).token = c.tenantAccessToken ∧
    (GetTenantAccessToken lib vars env c).err = none ∧
    (GetTenantAccessToken lib vars env c).requests = [] ∧
    (GetTenantAccessToken lib vars env c).client = c := by
  simp [GetTenantAccessToken, htoken, hnow]

/-- Witness of C1: the client of `TestDoRequest`, holding `test-token` until
7200 s, asked at 1 s. -/
theorem GetTenantAccessToken_cache_hit_witness :
    (GetTenantAccessToken (scenarioLib ⟨0, "ok", "other", 7200⟩ ⟨0, "", ""⟩) Vars.initial
        (scenarioEnv (1 * Second) (1 * Second) [])
        (scenarioClient "test-token" (7200 * Second))).token = "test-token" ∧
    (GetTenantAccessToken (scenarioLib ⟨0, "ok", "other", 7200⟩ ⟨0, "", ""⟩) Vars.initial
        (scenarioEnv (1 * Second) (1 * Second) [])
        (scenarioClient "test-token" (7200 * Second))).err = none ∧
    (GetTenantAccessToken (scenarioLib ⟨0, "ok", "other", 7200⟩ ⟨0, "", ""⟩) Vars.initial
        (scenarioEnv (1 * Second) (1 * Second) [])
        (scenarioClient "test-token" (7200 * Second))).requests = [] ∧
    (GetTenantAccessToken (scenarioLib ⟨0, "ok", "other", 7200⟩ ⟨0, "", ""⟩) Vars.initial
        (scenarioEnv (1 * Second) (1 * Second) [])
        (scenarioClient "test-token" (7200 * Second))).client
      = scenarioClient "test-token" (7200 * Second) :=
  GetTenantAccessToken_cache_hit _ _ _ _ (by decide) (by decide)

/-- C2, as stated, fails twice. An exchange at time 0 that returns the empty
token with a lifetime of 7200 s is not cached: a call 1 ns later sends a new
exchange request. An exchange at time 0 that returns `test-token` with a
lifetime of 9223372037 s installs an expiry in the past (the Duration wraps):
a call 1 ns later, before `T + L`, sends a new exchange request as well. -/
theorem empty_or_wrapped_credential_not_cached :
    ((1 : Int) < 0 + 7200 * Second ∧
      (GetTenantAccessToken (scenarioLib ⟨0, "ok", "", 7200⟩ ⟨0, "", ""⟩)
        Vars.initial (scenarioEnv 0 0 []) (scenarioClient "" 0)).err = none ∧
      (GetTenantAccessToken (scenarioLib ⟨0, "ok", "", 7200⟩ ⟨0, "", ""⟩)
        Vars.initial (scenarioEnv 1 1 [])
        (GetTenantAccessToken (scenarioLib ⟨0, "ok", "", 7200⟩ ⟨0, "", ""⟩)
          Vars.initial (scenarioEnv 0 0 []) (scenarioClient "" 0)).client).requests.length
        = 1) ∧
    ((1 : Int) < 0 + 9223372037 * Second ∧
      (GetTenantAccessToken (scenarioLib ⟨0, "ok", "test-token", 9223372037⟩ ⟨0, "", ""⟩)
        Vars.initial (scenarioEnv 0 0 []) (scenarioClient "" 0)).err = none ∧
      (GetTenantAccessToken (scenarioLib ⟨0, "ok", "test-token", 9223372037⟩ ⟨0, "", ""⟩)
        Vars.initial (scenarioEnv 1 1 [])
        (GetTenantAccessToken
          (scenarioLib ⟨0, "ok", "test-token", 9223372037⟩ ⟨0, "", ""⟩)
          Vars.initial (scenarioEnv 0 0 []) (scenarioClient "" 0)).client).requests.length
        = 1) := by
  decide

/-- C2, amended. Cache correctness within the lifetime: after a successful
exchange installed at time `T` that returned a non-empty token `k` with a
reported lifetime of `L` seconds, `|L| ≤ 9223372036`, every later call whose
cache test reads a time before `T + L` returns the identical token `k` with a
nil error and hands no request to the transport, however many such calls follow
one another. -/
theorem acquire_within_lifetime (lib : Lib) (vars : Vars) (env : Env) (c : Client)
    (status : Nat) (respBody : Bytes) (result : TokenResult) (later : List Env)
    (hmiss : c.expired env.nowCheck)
    (hreq : lib.newRequestErr "POST" vars.TenantAccessTokenURL = none)
    (hresp : env.exchange (c.exchangeRequest lib vars) = .response status respBody)
    (hdec : lib.unmarshalToken respBody = .ok result)
    (hcode : result.Code = 0)
    (hk : result.TenantAccessToken ≠ "")
    (hlo : -9223372036 ≤ result.Expire) (hhi : result.Expire ≤ 9223372036)
    (hwithin : ∀ e ∈ later, e.nowCheck < env.nowInstall + result.Expire * Second) :
    (acquireAll lib vars (GetTenantAccessToken lib vars env c).client later).length
      = later.length ∧
    ∀ call ∈ acquireAll lib vars (GetTenantAccessToken lib vars env c).client later,
      call.token = result.TenantAccessToken ∧ call.err = none ∧ call.requests = [] := by
  have h := GetTenantAccessToken_exchange lib vars env c status respBody result
    hmiss hreq hresp hdec
  rw [if_neg (by simp [hcode])] at h
  refine ⟨acquireAll_length _ _ _ _, ?_⟩
  intro call hcall
  have hall := acquireAll_of_valid lib vars (GetTenantAccessToken lib vars env c).client later
    (by rw [h]; exact hk)
    (by
      rw [h, secondsDuration_of_range _ hlo hhi]
      exact hwithin)
    call hcall
  rw [h] at hall
  exact ⟨hall.1, hall.2.1, hall.2.2.1⟩

/-- Witness of C2: `test-token` for 7200 s installed at 6 ns, then three calls,
the last one nanosecond before the expiry. -/
theorem acquire_within_lifetime_witness :
    (acquireAll (scenarioLib ⟨0, "ok", "test-token", 7200⟩ ⟨0, "", ""⟩) Vars.initial
      (GetTenantAccessToken (scenarioLib ⟨0, "ok", "test-token", 7200⟩ ⟨0, "", ""⟩)
        Vars.initial (scenarioEnv 5 6 []) (scenarioClient "" 0)).client
      [scenarioEnv 7 8 [], scenarioEnv 9 9 [],
        scenarioEnv (5 + 7200 * Second) (5 + 7200 * Second) []]).length = 3 ∧
    ∀ call ∈ acquireAll (scenarioLib ⟨0, "ok", "test-token", 7200⟩ ⟨0, "", ""⟩) Vars.initial
      (GetTenantAccessToken (scenarioLib ⟨0, "ok", "test-token", 7200⟩ ⟨0, "", ""⟩)
        Vars.initial (scenarioEnv 5 6 []) (scenarioClient "" 0)).client
      [scenarioEnv 7 8 [], scenarioEnv 9 9 [],
        scenarioEnv (5 + 7200 * Second) (5 + 7200 * Second) []],
      call.token = "test-token" ∧ call.err = none ∧ call.requests = [] :=
  acquire_within_lifetime
    (scenarioLib ⟨0, "ok", "test-token", 7200⟩ ⟨0, "", ""⟩) Vars.initial
    (scenarioEnv 5 6 []) (scenarioClient "" 0) 200 []
    ⟨0, "ok", "test-token", 7200⟩
    [scenarioEnv 7 8 [], scenarioEnv 9 9 [],
      scenarioEnv (5 + 7200 * Second) (5 + 7200 * Second) []]
    (by decide) (by decide) rfl rfl rfl (by decide) (by decide) (by decide)
    (by
      intro e he
      simp only [List.mem_cons, List.mem_singleton, List.not_mem_nil, or_false] at he
      rcases he with h | h | h <;> subst h <;> decide)

/-- C3. Auth failure: when the cache test fails, the exchange request is
built and answered, and the answer decodes to an envelope with a non-zero code
and message `m`, the call returns the empty token and an error whose text is
`get tenant_access_token failed: ` followed by `m` (so `m` is in it verbatim),
and the client afterwards is the client before: nothing is cached. -/
theorem GetTenantAccessToken_auth_failure (lib : Lib) (vars : Vars) (env : Env) (c : Client)
    (status : Nat) (respBody : Bytes) (result : TokenResult)
    (hmiss : c.expired env.nowCheck)
    (hreq : lib.newRequestErr "POST" vars.TenantAccessTokenURL = none)
    (hresp : env.exchange (c.exchangeRequest lib vars) = .response status respBody)
    (hdec : lib.unmarshalToken respBody = .ok result)
    (hcode : result.Code ≠ 0) :
    ∃ e : GoError,
      GetTenantAccessToken lib vars env c = ⟨"", some e, c, [c.exchangeRequest lib vars]⟩ ∧
      e.Error = "get tenant_access_token failed: " ++ result.Msg ∧
      result.Msg.data <:+ e.Error.data ∧
      (GetTenantAccessToken lib vars env c).client.tenantAccessToken = c.tenantAccessToken ∧
      (GetTenantAccessToken lib vars env c).client.tokenExpireTime = c.tokenExpireTime := by
  have h := GetTenantAccessToken_exchange lib vars env c status respBody result
    hmiss hreq hresp hdec
  rw [if_pos hcode] at h
  refine ⟨Errorf_s "get tenant_access_token failed: " result.Msg, h, rfl, ?_, ?_, ?_⟩
  · show result.Msg.data <:+ ("get tenant_access_token failed: " ++ result.Msg).data
    rw [String.data_append]
    exact List.suffix_append _ _
  · rw [h]
  · rw [h]

/-- Witness of C3: the answer of `TestGetTenantAccessTokenError`, code 10002
with the message `invalid app_secret`, to a client that holds no token. -/
theorem GetTenantAccessToken_auth_failure_witness :
    ∃ e : GoError,
      GetTenantAccessToken (scenarioLib ⟨10002, "invalid app_secret", "", 0⟩ ⟨0, "", ""⟩)
          Vars.initial (scenarioEnv 5 6 []) (scenarioClient "" 0)
        = ⟨"", some e, scenarioClient "" 0,
            [(scenarioClient "" 0).exchangeRequest
              (scenarioLib ⟨10002, "invalid app_secret", "", 0⟩ ⟨0, "", ""⟩) Vars.initial]⟩ ∧
      e.Error = "get tenant_access_token failed: " ++ "invalid app_secret" ∧
      "invalid app_secret".data <:+ e.Error.data ∧
      (GetTenantAccessToken (scenarioLib ⟨10002, "invalid app_secret", "", 0⟩ ⟨0, "", ""⟩)
          Vars.initial (scenarioEnv 5 6 []) (scenarioClient "" 0)).client.tenantAccessToken
        = "" ∧
      (GetTenantAccessToken (scenarioLib ⟨10002, "invalid app_secret", "", 0⟩ ⟨0, "", ""⟩)
          Vars.initial (scenarioEnv 5 6 []) (scenarioClient "" 0)).client.tokenExpireTime
        = 0 :=
  GetTenantAccessToken_auth_failure
    (scenarioLib ⟨10002, "invalid app_secret", "", 0⟩ ⟨0, "", ""⟩) Vars.initial
    (scenarioEnv 5 6 []) (scenarioClient "" 0) 200 []
    ⟨10002, "invalid app_secret", "", 0⟩ (by decide) (by decide) rfl rfl (by decide)

/-- C4, as stated, fails: an exchange answered with code 0, the token
`test-token` and a lifetime of 9223372037 s installs, at time 0, the expiry
-9223372036709551616 ns and not 9223372037 s, because the product with
`time.Second` leaves the 64-bit range of `time.Duration`. -/
theorem GetTenantAccessToken_expiry_wraps :
    (scenarioClient "" 0).expired 0 ∧
    (GetTenantAccessToken (scenarioLib ⟨0, "ok", "test-token", 9223372037⟩ ⟨0, "", ""⟩)
        Vars.initial (scenarioEnv 0 0 []) (scenarioClient "" 0)).token = "test-token" ∧
    (GetTenantAccessToken (scenarioLib ⟨0, "ok", "test-token", 9223372037⟩ ⟨0, "", ""⟩)
        Vars.initial (scenarioEnv 0 0 []) (scenarioClient "" 0)).err = none ∧
    (GetTenantAccessToken (scenarioLib ⟨0, "ok", "test-token", 9223372037⟩ ⟨0, "", ""⟩)
        Vars.initial (scenarioEnv 0 0 []) (scenarioClient "" 0)).client.tokenExpireTime
      = -9223372036709551616 ∧
    (GetTenantAccessToken (scenarioLib ⟨0, "ok", "test-token", 9223372037⟩ ⟨0, "", ""⟩)
        Vars.initial (scenarioEnv 0 0 []) (scenarioClient "" 0)).client.tokenExpireTime
      ≠ 0 + 9223372037 * Second := by
  decide

/-- C4, amended. Successful acquisition: when the cache test fails, the
exchange request is built and answered, and the answer decodes to an envelope
with code 0, token `k` and a lifetime of `e` seconds with `|e| ≤ 9223372036`
(so that `e` seconds is a 64-bit Duration), the call returns `(k, nil)` and the
client afterwards holds the token `k` and the expiry `now + e` seconds, `now`
being the time read when the credential is installed. -/
theorem GetTenantAccessToken_success (lib : Lib) (vars : Vars) (env : Env) (c : Client)
    (status : Nat) (respBody : Bytes) (result : TokenResult)
    (hmiss : c.expired env.nowCheck)
    (hreq : lib.newRequestErr "POST" vars.TenantAccessTokenURL = none)
    (hresp : env.exchange (c.exchangeRequest lib vars) = .response status respBody)
    (hdec : lib.unmarshalToken respBody = .ok result)
    (hcode : result.Code = 0)
    (hlo : -9223372036 ≤ result.Expire) (hhi : result.Expire ≤ 9223372036) :
    (GetTenantAccessToken lib vars env c).token = result.TenantAccessToken ∧
    (GetTenantAccessToken lib vars env c).err = none ∧
    (GetTenantAccessToken lib vars env c).client.tenantAccessToken
      = result.TenantAccessToken ∧
    (GetTenantAccessToken lib vars env c).client.tokenExpireTime
      = env.nowInstall + result.Expire * Second := by
  have h := GetTenantAccessToken_exchange lib vars env c status respBody result
    hmiss hreq hresp hdec
  rw [if_neg (by simp [hcode])] at h
  rw [h, secondsDuration_of_range _ hlo hhi]
  exact ⟨rfl, rfl, rfl, rfl⟩

/-- Witness of C4: the answer of `TestGetTenantAccessToken`, the token
`test-token` for 7200 s, installed at 6 ns on a client that holds no token. -/
theorem GetTenantAccessToken_success_witness :
    (GetTenantAccessToken (scenarioLib ⟨0, "ok", "test-token", 7200⟩ ⟨0, "", ""⟩)
        Vars.initial (scenarioEnv 5 6 []) (scenarioClient "" 0)).token = "test-token" ∧
    (GetTenantAccessToken (scenarioLib ⟨0, "ok", "test-token", 7200⟩ ⟨0, "", ""⟩)
        Vars.initial (scenarioEnv 5 6 []) (scenarioClient "" 0)).err = none ∧
    (GetTenantAccessToken (scenarioLib ⟨0, "ok", "test-token", 7200⟩ ⟨0, "", ""⟩)
        Vars.initial (scenarioEnv 5 6 []) (scenarioClient "" 0)).client.tenantAccessToken
      = "test-token" ∧
    (GetTenantAccessToken (scenarioLib ⟨0, "ok", "test-token", 7200⟩ ⟨0, "", ""⟩)
        Vars.initial (scenarioEnv 5 6 []) (scenarioClient "" 0)).client.tokenExpireTime
      = 6 + 7200 * Second :=
  GetTenantAccessToken_success
    (scenarioLib ⟨0, "ok", "test-token", 7200⟩ ⟨0, "", ""⟩) Vars.initial
    (scenarioEnv 5 6 []) (scenarioClient "" 0) 200 []
    ⟨0, "ok", "test-token", 7200⟩ (by decide) (by decide) rfl rfl rfl
    (by decide) (by decide)

/-- C5, as stated, fails: the package variable `TenantAccessTokenURL` has been
set to a URL with a line feed in it. A client that holds no token calls
`GetTenantAccessToken`: the cache test fails, `http.NewRequest` rejects the URL
(lines 72-75), and the call returns `create request failed: ...` with the
client unchanged and no request at all handed to the transport. -/
theorem GetTenantAccessToken_rejected_url_no_exchange :
    (scenarioClient "" 0).tenantAccessToken = "" ∧
    (GetTenantAccessToken (controlRejectingLib ⟨0, "ok", "fresh", 7200⟩ ⟨0, "", ""⟩)
      { Vars.initial with TenantAccessTokenURL := "https://open.feishu.cn/open-apis\n/auth" }
      (scenarioEnv 5 6 []) (scenarioClient "" 0)).requests = [] ∧
    (GetTenantAccessToken (controlRejectingLib ⟨0, "ok", "fresh", 7200⟩ ⟨0, "", ""⟩)
      { Vars.initial with TenantAccessTokenURL := "https://open.feishu.cn/open-apis\n/auth" }
      (scenarioEnv 5 6 []) (scenarioClient "" 0)).requests.length = 0 ∧
    (GetTenantAccessToken (controlRejectingLib ⟨0, "ok", "fresh", 7200⟩ ⟨0, "", ""⟩)
      { Vars.initial with TenantAccessTokenURL := "https://open.feishu.cn/open-apis\n/auth" }
      (scenarioEnv 5 6 []) (scenarioClient "" 0)).err
      = some (.wrapError "create request failed: net/url: invalid control character in URL"
          (.errorString "net/url: invalid control character in URL")) ∧
    (GetTenantAccessToken (controlRejectingLib ⟨0, "ok", "fresh", 7200⟩ ⟨0, "", ""⟩)
      { Vars.initial with TenantAccessTokenURL := "https://open.feishu.cn/open-apis\n/auth" }
      (scenarioEnv 5 6 []) (scenarioClient "" 0)).client = scenarioClient "" 0 := by
  decide

/-- C5, amended. Refresh on expiry: when the cache test fails (the token is
empty or the time read is at or after the expiry) and `http.NewRequest` accepts
`POST` and `TenantAccessTokenURL`, the call hands the transport exactly one
request, the token exchange, never zero and never more than one, whatever the
transport and the decoder then do. -/
theorem GetTenantAccessToken_one_exchange (lib : Lib) (vars : Vars) (env : Env) (c : Client)
    (hmiss : c.tenantAccessToken = "" ∨ c.tokenExpireTime ≤ env.nowCheck)
    (hreq : lib.newRequestErr "POST" vars.TenantAccessTokenURL = none) :
    (GetTenantAccessToken lib vars env c).requests = [c.exchangeRequest lib vars] ∧
    (GetTenantAccessToken lib vars env c).requests.length = 1 := by
  have hexp : c.expired env.nowCheck := by
    rintro ⟨h1, h2⟩
    rcases hmiss with h | h
    · exact h1 h
    · exact Int.not_lt.mpr h h2
  have hreqs := GetTenantAccessToken_requests_of_expired lib vars env c hexp hreq
  exact ⟨hreqs, by rw [hreqs]; rfl⟩

/-- Witness of C5: a token that expired at 7200 s, asked for at exactly 7200 s. -/
theorem GetTenantAccessToken_one_exchange_witness :
    (GetTenantAccessToken (scenarioLib ⟨0, "ok", "fresh", 7200⟩ ⟨0, "", ""⟩) Vars.initial
        (scenarioEnv (7200 * Second) (7200 * Second) [])
        (scenarioClient "test-token" (7200 * Second))).requests
      = [(scenarioClient "test-token" (7200 * Second)).exchangeRequest
          (scenarioLib ⟨0, "ok", "fresh", 7200⟩ ⟨0, "", ""⟩) Vars.initial] ∧
    (GetTenantAccessToken (scenarioLib ⟨0, "ok", "fresh", 7200⟩ ⟨0, "", ""⟩) Vars.initial
        (scenarioEnv (7200 * Second) (7200 * Second) [])
        (scenarioClient "test-token" (7200 * Second))).requests.length = 1 :=
  GetTenantAccessToken_one_exchange _ _ _ _ (Or.inr (by decide)) (by decide)

/-- C6, as stated, fails: an exchange answered with code 0, the token
`test-token` and the lifetime -9223372037 s returns the token with a nil error,
but the product with `time.Second` wraps to a positive Duration, so the next
call, at the install time itself, returns the cached token and sends nothing. -/
theorem GetTenantAccessToken_negative_lifetime_wraps :
    (scenarioClient "" 0).expired 0 ∧
    (GetTenantAccessToken (scenarioLib ⟨0, "ok", "test-token", -9223372037⟩ ⟨0, "", ""⟩)
        Vars.initial (scenarioEnv 0 0 []) (scenarioClient "" 0)).token = "test-token" ∧
    (GetTenantAccessToken (scenarioLib ⟨0, "ok", "test-token", -9223372037⟩ ⟨0, "", ""⟩)
        Vars.initial (scenarioEnv 0 0 []) (scenarioClient "" 0)).err = none ∧
    (GetTenantAccessToken (scenarioLib ⟨0, "ok", "test-token", -9223372037⟩ ⟨0, "", ""⟩)
        Vars.initial (scenarioEnv 0 0 []) (scenarioClient "" 0)).client.tokenExpireTime
      = 9223372036709551616 ∧
    (GetTenantAccessToken (scenarioLib ⟨0, "ok", "test-token", -9223372037⟩ ⟨0, "", ""⟩)
        Vars.initial (scenarioEnv 0 0 [])
        (GetTenantAccessToken (scenarioLib ⟨0, "ok", "test-token", -9223372037⟩ ⟨0, "", ""⟩)
          Vars.initial (scenarioEnv 0 0 []) (scenarioClient "" 0)).client).requests = [] ∧
    (GetTenantAccessToken (scenarioLib ⟨0, "ok", "test-token", -9223372037⟩ ⟨0, "", ""⟩)
        Vars.initial (scenarioEnv 0 0 [])
        (GetTenantAccessToken (scenarioLib ⟨0, "ok", "test-token", -9223372037⟩ ⟨0, "", ""⟩)
          Vars.initial (scenarioEnv 0 0 []) (scenarioClient "" 0)).client).token
      = "test-token" := by
  decide

/-- C6, amended. Zero or negative lifetime: a successful exchange whose
reported lifetime is `e` with `-9223372036 ≤ e ≤ 0` returns the token with a nil
error and installs a credential that is already expired: the next call, at any
time not earlier than the install time, fails the cache test and sends a new
exchange request instead of returning the cached token. -/
theorem GetTenantAccessToken_nonpositive_lifetime (lib : Lib) (vars : Vars)
    (env next : Env) (c : Client) (status : Nat) (respBody : Bytes) (result : TokenResult)
    (hmiss : c.expired env.nowCheck)
    (hreq : lib.newRequestErr "POST" vars.TenantAccessTokenURL = none)
    (hresp : env.exchange (c.exchangeRequest lib vars) = .response status respBody)
    (hdec : lib.unmarshalToken respBody = .ok result)
    (hcode : result.Code = 0)
    (hlo : -9223372036 ≤ result.Expire) (he : result.Expire ≤ 0)
    (hlater : env.nowInstall ≤ next.nowCheck) :
    (GetTenantAccessToken lib vars env c).token = result.TenantAccessToken ∧
    (GetTenantAccessToken lib vars env c).err = none ∧
    (GetTenantAccessToken lib vars env c).client.expired next.nowCheck ∧
    (GetTenantAccessToken lib vars next (GetTenantAccessToken lib vars env c).client).requests
      = [c.exchangeRequest lib vars] := by
  have h := GetTenantAccessToken_exchange lib vars env c status respBody result
    hmiss hreq hresp hdec
  rw [if_neg (by simp [hcode])] at h
  have hdur : secondsDuration result.Expire = result.Expire * Second :=
    secondsDuration_of_range _ hlo (by omega)
  have hexp : (GetTenantAccessToken lib vars env c).client.tokenExpireTime
      ≤ next.nowCheck := by
    rw [h, hdur]
    show env.nowInstall + result.Expire * Second ≤ next.nowCheck
    have hs : result.Expire * Second ≤ 0 := by
      unfold Second
      omega
    exact le_trans (by linarith) hlater
  refine ⟨by rw [h], by rw [h], ?_, ?_⟩
  · intro hvalid
    exact Int.not_lt.mpr hexp hvalid.2
  · rw [GetTenantAccessToken_requests_of_expired lib vars next _
      (fun hvalid => Int.not_lt.mpr hexp hvalid.2) hreq, h]
    rfl

/-- Witness of C6: a lifetime of 0 s installed at 6 ns, the next call at 6 ns. -/
theorem GetTenantAccessToken_nonpositive_lifetime_witness :
    (GetTenantAccessToken (scenarioLib ⟨0, "ok", "test-token", 0⟩ ⟨0, "", ""⟩)
        Vars.initial (scenarioEnv 5 6 []) (scenarioClient "" 0)).token = "test-token" ∧
    (GetTenantAccessToken (scenarioLib ⟨0, "ok", "test-token", 0⟩ ⟨0, "", ""⟩)
        Vars.initial (scenarioEnv 5 6 []) (scenarioClient "" 0)).err = none ∧
    (GetTenantAccessToken (scenarioLib ⟨0, "ok", "test-token", 0⟩ ⟨0, "", ""⟩)
        Vars.initial (scenarioEnv 5 6 []) (scenarioClient "" 0)).client.expired 6 ∧
    (GetTenantAccessToken (scenarioLib ⟨0, "ok", "test-token", 0⟩ ⟨0, "", ""⟩)
        Vars.initial (scenarioEnv 6 7 [])
        (GetTenantAccessToken (scenarioLib ⟨0, "ok", "test-token", 0⟩ ⟨0, "", ""⟩)
          Vars.initial (scenarioEnv 5 6 []) (scenarioClient "" 0)).client).requests
      = [(scenarioClient "" 0).exchangeRequest
          (scenarioLib ⟨0, "ok", "test-token", 0⟩ ⟨0, "", ""⟩) Vars.initial] :=
  GetTenantAccessToken_nonpositive_lifetime
    (scenarioLib ⟨0, "ok", "test-token", 0⟩ ⟨0, "", ""⟩) Vars.initial
    (scenarioEnv 5 6 []) (scenarioEnv 6 7 []) (scenarioClient "" 0) 200 []
    ⟨0, "ok", "test-token", 0⟩ (by decide) (by decide) rfl rfl rfl
    (by decide) (by decide) (by decide)

/-- C7, as stated, fails: two goroutines call `GetTenantAccessToken` on a
client that holds no token. The exchange of the first produces `token-A` with
the expiry 10 ns + 100 s, that of the second `token-B` with the expiry
20 ns + 200 s. Under the schedule in which both fail the cache test, the first
assigns its token, the second assigns its token and its expiry, and the first
then assigns its expiry, both calls return `token-B` and the client is left with
`token-B` paired with the expiry of `token-A`. -/
theorem GetTenantAccessToken_race_tears_credential :
    exchangedCredential raceLib (scenarioEnv 1 10 [1])
        ((scenarioClient "" 0).exchangeRequest raceLib Vars.initial)
      = some ("token-A", 10 + 100 * Second) ∧
    exchangedCredential raceLib (scenarioEnv 2 20 [2])
        ((scenarioClient "" 0).exchangeRequest raceLib Vars.initial)
      = some ("token-B", 20 + 200 * Second) ∧
    (System.run raceLib Vars.initial raceSystem [0, 1, 0, 1, 1, 0, 0, 1]).client.credential
      = ("token-B", 10 + 100 * Second) ∧
    (System.run raceLib Vars.initial raceSystem [0, 1, 0, 1, 1, 0, 0, 1]).goroutines.map
        (fun g => g.phase)
      = [.done "token-B" none, .done "token-B" none] := by
  decide

/-- C7, amended. Sequential acquisition safety: when N goroutines run
`GetTenantAccessToken` on one client one after another, no call overlapping
another, they behave as N successive calls, and the client after every call
holds the credential it started with or the (token, expiry) pair produced by
the exchange of a single one of the calls; every call that returns no error
returns the token of the credential the client then holds. -/
theorem sequential_acquisition_credential (lib : Lib) (vars : Vars) (c : Client) (envs : List Env) :
    System.run lib vars ⟨c, envs.map Goroutine.start⟩ (sequentialSchedule 0 envs.length)
      = ⟨acquireAllClient lib vars c envs,
          List.zipWith Goroutine.finished envs (acquireAll lib vars c envs)⟩ ∧
    ∀ call ∈ acquireAll lib vars c envs,
      (call.client.credential = c.credential ∨
        ∃ env ∈ envs, exchangedCredential lib env (c.exchangeRequest lib vars)
          = some call.client.credential) ∧
      (call.err = none → call.token = call.client.tenantAccessToken) := by
  refine ⟨by simpa using System.run_sequential lib vars envs c [], ?_⟩
  induction envs generalizing c with
  | nil => intro call hcall; simp [acquireAll] at hcall
  | cons env envs ih =>
    intro call hcall
    obtain ⟨hsame, htoken, hpair⟩ := GetTenantAccessToken_credential lib vars env c
    simp only [acquireAll, List.mem_cons] at hcall
    rcases hcall with h | h
    · subst h
      refine ⟨?_, htoken⟩
      rcases hpair with hp | hp
      · exact Or.inl hp
      · exact Or.inr ⟨env, List.mem_cons_self _ _, hp⟩
    · obtain ⟨hcred, hret⟩ := ih (GetTenantAccessToken lib vars env c).client call h
      refine ⟨?_, hret⟩
      rcases hcred with hc | ⟨e, he, hc⟩
      · rcases hpair with hp | hp
        · exact Or.inl (hc.trans hp)
        · exact Or.inr ⟨env, List.mem_cons_self _ _, by rw [hc]; exact hp⟩
      · exact Or.inr ⟨e, List.mem_cons_of_mem _ he, by rw [← hsame]; exact hc⟩

/-- Witness of C7: the two goroutines of the race, run one after another. -/
theorem sequential_acquisition_credential_witness :
    System.run raceLib Vars.initial raceSystem (sequentialSchedule 0 2)
      = ⟨acquireAllClient raceLib Vars.initial (scenarioClient "" 0)
            [scenarioEnv 1 10 [1], scenarioEnv 2 20 [2]],
          List.zipWith Goroutine.finished [scenarioEnv 1 10 [1], scenarioEnv 2 20 [2]]
            (acquireAll raceLib Vars.initial (scenarioClient "" 0)
              [scenarioEnv 1 10 [1], scenarioEnv 2 20 [2]])⟩ :=
  (sequential_acquisition_credential raceLib Vars.initial (scenarioClient "" 0)
    [scenarioEnv 1 10 [1], scenarioEnv 2 20 [2]]).1

/-! ## Properties of DoRequest and UploadFile -/

/-- C8. Auth failure propagates through the dispatcher: when the credential
acquisition of a `DoRequest` call returns the error `err`, `DoRequest` returns
exactly `err`, hands the transport nothing beyond what the acquisition sent
(at most the token exchange itself, never the API request), and leaves the
result sink as it was. -/
theorem DoRequest_auth_error {β ρ : Type} (lib : Lib) (codec : Codec β ρ) (vars : Vars)
    (env : Env) (c : Client) (method path : String) (body : Option β) (result : Option ρ)
    (err : GoError)
    (hacq : (GetTenantAccessToken lib vars env c).err = some err) :
    (DoRequest lib codec vars env c method path body result).err = some err ∧
    (DoRequest lib codec vars env c method path body result).requests
      = (GetTenantAccessToken lib vars env c).requests ∧
    (∀ r ∈ (DoRequest lib codec vars env c method path body result).requests,
      r = c.exchangeRequest lib vars) ∧
    (DoRequest lib codec vars env c method path body result).result = result := by
  have hd : DoRequest lib codec vars env c method path body result
      = ⟨some err, result, (GetTenantAccessToken lib vars env c).client,
          (GetTenantAccessToken lib vars env c).requests⟩ := by
    simp only [DoRequest, hacq]
  rw [hd]
  refine ⟨rfl, rfl, ?_, rfl⟩
  intro r hr
  rcases GetTenantAccessToken_requests lib vars env c with h | h
  · rw [h] at hr
    simp at hr
  · rw [h] at hr
    simpa using hr

/-- Witness of C8: the exchange is answered with code 10002, so the call
`DoRequest("GET", "/test/api", nil, sink)` fails with the acquisition's error. -/
theorem DoRequest_auth_error_witness :
    (DoRequest (scenarioLib ⟨10002, "invalid app_secret", "", 0⟩ ⟨0, "", ""⟩) scenarioCodec
        Vars.initial (scenarioEnv 5 6 [1]) (scenarioClient "" 0) "GET" "/test/api" none
        (some [7])).err
      = some (.errorString ("get tenant_access_token failed: " ++ "invalid app_secret")) ∧
    (DoRequest (scenarioLib ⟨10002, "invalid app_secret", "", 0⟩ ⟨0, "", ""⟩) scenarioCodec
        Vars.initial (scenarioEnv 5 6 [1]) (scenarioClient "" 0) "GET" "/test/api" none
        (some [7])).requests
      = (GetTenantAccessToken (scenarioLib ⟨10002, "invalid app_secret", "", 0⟩ ⟨0, "", ""⟩)
          Vars.initial (scenarioEnv 5 6 [1]) (scenarioClient "" 0)).requests ∧
    (∀ r ∈ (DoRequest (scenarioLib ⟨10002, "invalid app_secret", "", 0⟩ ⟨0, "", ""⟩)
        scenarioCodec Vars.initial (scenarioEnv 5 6 [1]) (scenarioClient "" 0) "GET"
        "/test/api" none (some [7])).requests,
      r = (scenarioClient "" 0).exchangeRequest
        (scenarioLib ⟨10002, "invalid app_secret", "", 0⟩ ⟨0, "", ""⟩) Vars.initial) ∧
    (DoRequest (scenarioLib ⟨10002, "invalid app_secret", "", 0⟩ ⟨0, "", ""⟩) scenarioCodec
        Vars.initial (scenarioEnv 5 6 [1]) (scenarioClient "" 0) "GET" "/test/api" none
        (some [7])).result = some [7] :=
  DoRequest_auth_error (scenarioLib ⟨10002, "invalid app_secret", "", 0⟩ ⟨0, "", ""⟩)
    scenarioCodec Vars.initial (scenarioEnv 5 6 [1]) (scenarioClient "" 0) "GET" "/test/api"
    none (some [7])
    (.errorString ("get tenant_access_token failed: " ++ "invalid app_secret")) (by decide)

/-- The requests of a `DoRequest` call: those of its credential acquisition,
followed by the API request when the acquisition succeeded, the body was
serialised and `http.NewRequest` accepted the method and the URL. -/
theorem DoRequest_requests {β ρ : Type} (lib : Lib) (codec : Codec β ρ) (vars : Vars)
    (env : Env) (c : Client) (method path : String) (body : Option β) (result : Option ρ) :
    (DoRequest lib codec vars env c method path body result).requests
      = (GetTenantAccessToken lib vars env c).requests ++
        (match (GetTenantAccessToken lib vars env c).err, marshalBody codec body,
            lib.newRequestErr method (vars.BaseURL ++ path) with
          | none, .ok reqBody, none =>
            [apiRequest method (vars.BaseURL ++ path) reqBody
              (GetTenantAccessToken lib vars env c).token]
          | _, _, _ => []) := by
  unfold DoRequest
  simp only
  repeat' split
  all_goals simp_all

/-- The requests of an `UploadFile` call: those of its credential acquisition,
followed by the upload request when the acquisition succeeded, the file part
was encoded and `http.NewRequest` accepted the URL. -/
theorem UploadFile_requests (lib : Lib) (vars : Vars) (env : Env) (c : Client)
    (path : String) (fileBytes : Bytes) (fileName : String) :
    (UploadFile lib vars env c path fileBytes fileName).requests
      = (GetTenantAccessToken lib vars env c).requests ++
        (match (GetTenantAccessToken lib vars env c).err,
            env.multipart "file" fileName fileBytes,
            lib.newRequestErr "POST" (vars.BaseURL ++ path) with
          | none, .encoded requestBody contentType, none =>
            [uploadRequest (vars.BaseURL ++ path) requestBody contentType
              (GetTenantAccessToken lib vars env c).token]
          | _, _, _ => []) := by
  unfold UploadFile
  simp only
  repeat' split
  all_goals simp_all

/-- C9. Header contract: when the credential acquisition at the start of a
`DoRequest` call returns the token `k` and the call gets as far as sending (the
body is serialised and `http.NewRequest` accepts the method and the URL), the
one request it sends after the acquisition carries the Content-Type
`application/json; charset=utf-8` and the Authorization `Bearer ` followed by
`k`, and no other header. -/
theorem DoRequest_header_contract {β ρ : Type} (lib : Lib) (codec : Codec β ρ) (vars : Vars)
    (env : Env) (c : Client) (method path : String) (body : Option β) (result : Option ρ)
    (reqBody : Option Bytes)
    (hacq : (GetTenantAccessToken lib vars env c).err = none)
    (hbody : marshalBody codec body = .ok reqBody)
    (hnew : lib.newRequestErr method (vars.BaseURL ++ path) = none) :
    ∃ req : Request,
      (DoRequest lib codec vars env c method path body result).requests
        = (GetTenantAccessToken lib vars env c).requests ++ [req] ∧
      Header.Get req.header "Content-Type" = some "application/json; charset=utf-8" ∧
      Header.Get req.header "Authorization"
        = some ("Bearer " ++ (GetTenantAccessToken lib vars env c).token) ∧
      req.header = [("Content-Type", "application/json; charset=utf-8"),
        ("Authorization", "Bearer " ++ (GetTenantAccessToken lib vars env c).token)] := by
  refine ⟨apiRequest method (vars.BaseURL ++ path) reqBody
    (GetTenantAccessToken lib vars env c).token, ?_, ?_, ?_, ?_⟩
  · rw [DoRequest_requests, hacq, hbody, hnew]
  · simp [apiRequest, Header.Set, Header.Get]
  · simp [apiRequest, Header.Set, Header.Get]
  · simp [apiRequest, Header.Set]

/-- Witness of C9: the call of `TestDoRequest`, a GET of `/test/api` by a
client that holds `test-token`. -/
theorem DoRequest_header_contract_witness :
    ∃ req : Request,
      (DoRequest (scenarioLib ⟨0, "ok", "other", 7200⟩ ⟨0, "", ""⟩) scenarioCodec
          Vars.initial (scenarioEnv 5 6 [1]) (scenarioClient "test-token" 7200) "GET"
          "/test/api" none (some [7])).requests
        = (GetTenantAccessToken (scenarioLib ⟨0, "ok", "other", 7200⟩ ⟨0, "", ""⟩)
            Vars.initial (scenarioEnv 5 6 [1]) (scenarioClient "test-token" 7200)).requests
          ++ [req] ∧
      Header.Get req.header "Content-Type" = some "application/json; charset=utf-8" ∧
      Header.Get req.header "Authorization"
        = some ("Bearer " ++
          (GetTenantAccessToken (scenarioLib ⟨0, "ok", "other", 7200⟩ ⟨0, "", ""⟩)
            Vars.initial (scenarioEnv 5 6 [1]) (scenarioClient "test-token" 7200)).token) ∧
      req.header = [("Content-Type", "application/json; charset=utf-8"),
        ("Authorization", "Bearer " ++
          (GetTenantAccessToken (scenarioLib ⟨0, "ok", "other", 7200⟩ ⟨0, "", ""⟩)
            Vars.initial (scenarioEnv 5 6 [1]) (scenarioClient "test-token" 7200)).token)] :=
  DoRequest_header_contract (scenarioLib ⟨0, "ok", "other", 7200⟩ ⟨0, "", ""⟩) scenarioCodec
    Vars.initial (scenarioEnv 5 6 [1]) (scenarioClient "test-token" 7200) "GET" "/test/api"
    none (some [7]) none (by decide) rfl (by decide)

/-- C10. URL construction: for every path string `p`, every request a
`DoRequest` call or an `UploadFile` call sends after its credential acquisition
has as URL exactly the concatenation of `BaseURL` and `p`; and once the
acquisition has succeeded, the body or file part is encoded and
`http.NewRequest` accepts the URL, each call sends exactly one such request. -/
theorem request_url_is_BaseURL_append_path {β ρ : Type} (lib : Lib) (codec : Codec β ρ)
    (vars : Vars) (env : Env) (c : Client) (method path : String) (body : Option β)
    (result : Option ρ) (fileBytes : Bytes) (fileName : String) :
    (∀ r ∈ (DoRequest lib codec vars env c method path body result).requests.drop
        (GetTenantAccessToken lib vars env c).requests.length,
      r.url = vars.BaseURL ++ path) ∧
    (∀ r ∈ (UploadFile lib vars env c path fileBytes fileName).requests.drop
        (GetTenantAccessToken lib vars env c).requests.length,
      r.url = vars.BaseURL ++ path) ∧
    ((GetTenantAccessToken lib vars env c).err = none →
      (∃ reqBody, marshalBody codec body = .ok reqBody) →
      lib.newRequestErr method (vars.BaseURL ++ path) = none →
      ∃ r, (DoRequest lib codec vars env c method path body result).requests
          = (GetTenantAccessToken lib vars env c).requests ++ [r] ∧
        r.url = vars.BaseURL ++ path) ∧
    ((GetTenantAccessToken lib vars env c).err = none →
      (∃ requestBody contentType,
        env.multipart "file" fileName fileBytes = .encoded requestBody contentType) →
      lib.newRequestErr "POST" (vars.BaseURL ++ path) = none →
      ∃ r, (UploadFile lib vars env c path fileBytes fileName).requests
          = (GetTenantAccessToken lib vars env c).requests ++ [r] ∧
        r.url = vars.BaseURL ++ path) := by
  refine ⟨?_, ?_, ?_, ?_⟩
  · intro r hr
    rw [DoRequest_requests, List.drop_left] at hr
    split at hr
    · simp only [List.mem_singleton] at hr
      rw [hr]
      rfl
    · simp at hr
  · intro r hr
    rw [UploadFile_requests, List.drop_left] at hr
    split at hr
    · simp only [List.mem_singleton] at hr
      rw [hr]
      rfl
    · simp at hr
  · rintro hacq ⟨reqBody, hbody⟩ hnew
    exact ⟨_, by rw [DoRequest_requests, hacq, hbody, hnew], rfl⟩
  · rintro hacq ⟨requestBody, contentType, hmp⟩ hnew
    exact ⟨_, by rw [UploadFile_requests, hacq, hmp, hnew], rfl⟩

/-- Witness of C10: a path with a space, a query and a fragment, sent as it is
by a client that holds `test-token`. -/
theorem request_url_is_BaseURL_append_path_witness :
    ∃ r, (DoRequest (scenarioLib ⟨0, "ok", "other", 7200⟩ ⟨0, "", ""⟩) scenarioCodec
          Vars.initial (scenarioEnv 5 6 [1]) (scenarioClient "test-token" 7200) "GET"
          "/a b?x=1&y=%#z" none (some [7])).requests
        = (GetTenantAccessToken (scenarioLib ⟨0, "ok", "other", 7200⟩ ⟨0, "", ""⟩)
            Vars.initial (scenarioEnv 5 6 [1]) (scenarioClient "test-token" 7200)).requests
          ++ [r] ∧
      r.url = Vars.initial.BaseURL ++ "/a b?x=1&y=%#z" :=
  (request_url_is_BaseURL_append_path (scenarioLib ⟨0, "ok", "other", 7200⟩ ⟨0, "", ""⟩)
    scenarioCodec Vars.initial (scenarioEnv 5 6 [1]) (scenarioClient "test-token" 7200) "GET"
    "/a b?x=1&y=%#z" none (some [7]) [] "x.png").2.2.1 (by decide) ⟨none, rfl⟩ (by decide)

/-- The outcome of a `DoRequest` call that gets as far as sending: the
acquisition succeeded, the body was serialised and `http.NewRequest` accepted
the method and the URL. -/
theorem DoRequest_dispatched {β ρ : Type} (lib : Lib) (codec : Codec β ρ) (vars : Vars)
    (env : Env) (c : Client) (method path : String) (body : Option β) (result : Option ρ)
    (reqBody : Option Bytes)
    (hacq : (GetTenantAccessToken lib vars env c).err = none)
    (hbody : marshalBody codec body = .ok reqBody)
    (hnew : lib.newRequestErr method (vars.BaseURL ++ path) = none) :
    DoRequest lib codec vars env c method path body result =
      match env.api (apiRequest method (vars.BaseURL ++ path) reqBody
          (GetTenantAccessToken lib vars env c).token) with
      | .doFailed err =>
        ⟨some (Errorf_w "send request failed: " err), result,
          (GetTenantAccessToken lib vars env c).client,
          (GetTenantAccessToken lib vars env c).requests ++
            [apiRequest method (vars.BaseURL ++ path) reqBody
              (GetTenantAccessToken lib vars env c).token]⟩
      | .readFailed _ err =>
        ⟨some (Errorf_w "read response body failed: " err), result,
          (GetTenantAccessToken lib vars env c).client,
          (GetTenantAccessToken lib vars env c).requests ++
            [apiRequest method (vars.BaseURL ++ path) reqBody
              (GetTenantAccessToken lib vars env c).token]⟩
      | .response _ respBody =>
        match result with
        | none =>
          ⟨none, none, (GetTenantAccessToken lib vars env c).client,
            (GetTenantAccessToken lib vars env c).requests ++
              [apiRequest method (vars.BaseURL ++ path) reqBody
                (GetTenantAccessToken lib vars env c).token]⟩
        | some sink =>
          match codec.unmarshal respBody sink with
          | (sink1, some err) =>
            ⟨some (Errorf_w "unmarshal response body failed: " err), some sink1,
              (GetTenantAccessToken lib vars env c).client,
              (GetTenantAccessToken lib vars env c).requests ++
                [apiRequest method (vars.BaseURL ++ path) reqBody
                  (GetTenantAccessToken lib vars env c).token]⟩
          | (sink1, none) =>
            ⟨none, some sink1, (GetTenantAccessToken lib vars env c).client,
              (GetTenantAccessToken lib vars env c).requests ++
                [apiRequest method (vars.BaseURL ++ path) reqBody
                  (GetTenantAccessToken lib vars env c).token]⟩ := by
  simp only [DoRequest, hacq, hbody, hnew]

/-- The body reader of lines 126-133 holds nothing for a nil body and the
serialisation for any other. -/
theorem marshalBody_ok {β ρ : Type} (codec : Codec β ρ) (body : Option β)
    (reqBody : Option Bytes) (h : marshalBody codec body = .ok reqBody) :
    (body = none → reqBody = none) ∧
    (∀ b, body = some b → ∃ bodyBytes, codec.marshal b = .ok bodyBytes ∧
      reqBody = some bodyBytes) := by
  cases body with
  | none =>
    simp only [marshalBody, Except.ok.injEq] at h
    refine ⟨fun _ => h.symm, ?_⟩
    intro b hb
    cases hb
  | some b0 =>
    refine ⟨fun hb => Option.noConfusion hb, ?_⟩
    intro b hb
    cases hb
    unfold marshalBody at h
    cases hm : codec.marshal b0 with
    | error err => simp [hm] at h
    | ok bodyBytes =>
      simp only [hm, Except.ok.injEq] at h
      exact ⟨bodyBytes, rfl, h.symm⟩

/-- C11. Request body: every request a `DoRequest` call sends after its
credential acquisition has no body when the `body` argument is nil, and has as
body exactly the bytes `json.Marshal` returned for the `body` argument
otherwise; and once the acquisition has succeeded, the body is serialised and
`http.NewRequest` accepts the method and the URL, one such request is sent. -/
theorem DoRequest_request_body {β ρ : Type} (lib : Lib) (codec : Codec β ρ) (vars : Vars)
    (env : Env) (c : Client) (method path : String) (body : Option β) (result : Option ρ) :
    (∀ r ∈ (DoRequest lib codec vars env c method path body result).requests.drop
        (GetTenantAccessToken lib vars env c).requests.length,
      (body = none → r.body = none) ∧
      (∀ b, body = some b →
        ∃ bodyBytes, codec.marshal b = .ok bodyBytes ∧ r.body = some bodyBytes)) ∧
    ((GetTenantAccessToken lib vars env c).err = none →
      (∃ reqBody, marshalBody codec body = .ok reqBody) →
      lib.newRequestErr method (vars.BaseURL ++ path) = none →
      ∃ r, (DoRequest lib codec vars env c method path body result).requests
          = (GetTenantAccessToken lib vars env c).requests ++ [r] ∧
        (body = none → r.body = none) ∧
        (∀ b, body = some b →
          ∃ bodyBytes, codec.marshal b = .ok bodyBytes ∧ r.body = some bodyBytes)) := by
  refine ⟨?_, ?_⟩
  · intro r hr
    rw [DoRequest_requests, List.drop_left] at hr
    split at hr
    · rename_i reqBody _ hbody _
      simp only [List.mem_singleton] at hr
      obtain ⟨hnone, hsome⟩ := marshalBody_ok codec body reqBody hbody
      subst hr
      exact ⟨hnone, hsome⟩
    · simp at hr
  · rintro hacq ⟨reqBody, hbody⟩ hnew
    obtain ⟨hnone, hsome⟩ := marshalBody_ok codec body reqBody hbody
    exact ⟨_, by rw [DoRequest_requests, hacq, hbody, hnew], hnone, hsome⟩

/-- Witness of C11: a POST with the body `[1, 2, 3]` by a client that holds
`test-token`. -/
theorem DoRequest_request_body_witness :
    ∃ r, (DoRequest (scenarioLib ⟨0, "ok", "other", 7200⟩ ⟨0, "", ""⟩) scenarioCodec
          Vars.initial (scenarioEnv 5 6 [1]) (scenarioClient "test-token" 7200) "POST"
          "/test/api" (some [1, 2, 3]) (some [7])).requests
        = (GetTenantAccessToken (scenarioLib ⟨0, "ok", "other", 7200⟩ ⟨0, "", ""⟩)
            Vars.initial (scenarioEnv 5 6 [1]) (scenarioClient "test-token" 7200)).requests
          ++ [r] ∧
      ((some [1, 2, 3] : Option Bytes) = none → r.body = none) ∧
      (∀ b, (some [1, 2, 3] : Option Bytes) = some b →
        ∃ bodyBytes, scenarioCodec.marshal b = .ok bodyBytes ∧ r.body = some bodyBytes) :=
  (DoRequest_request_body (scenarioLib ⟨0, "ok", "other", 7200⟩ ⟨0, "", ""⟩)
    scenarioCodec Vars.initial (scenarioEnv 5 6 [1]) (scenarioClient "test-token" 7200) "POST"
    "/test/api" (some [1, 2, 3]) (some [7])).2 (by decide) ⟨some [1, 2, 3], rfl⟩ (by decide)

/-- C12, as stated, fails: a client that holds `test-token` calls
`DoRequest("GET", "/test\napi", nil, sink)`. The acquisition succeeds and the
nil body needs no serialisation, but `http.NewRequest` rejects the URL for its
control character, so the call returns `create request failed: ...` and hands
no request at all to the transport. -/
theorem DoRequest_rejected_url_sends_nothing :
    (GetTenantAccessToken (controlRejectingLib ⟨0, "ok", "other", 7200⟩ ⟨0, "", ""⟩)
      Vars.initial (scenarioEnv 5 6 [1]) (scenarioClient "test-token" 7200)).err = none ∧
    marshalBody scenarioCodec none = .ok none ∧
    (DoRequest (controlRejectingLib ⟨0, "ok", "other", 7200⟩ ⟨0, "", ""⟩) scenarioCodec
      Vars.initial (scenarioEnv 5 6 [1]) (scenarioClient "test-token" 7200) "GET"
      "/test\napi" none (some [7])).requests = [] ∧
    (DoRequest (controlRejectingLib ⟨0, "ok", "other", 7200⟩ ⟨0, "", ""⟩) scenarioCodec
      Vars.initial (scenarioEnv 5 6 [1]) (scenarioClient "test-token" 7200) "GET"
      "/test\napi" none (some [7])).err
      = some (.wrapError "create request failed: net/url: invalid control character in URL"
          (.errorString "net/url: invalid control character in URL")) := by
  refine ⟨by decide, rfl, by decide, by decide⟩

/-- C12, amended. No retry: for every `DoRequest` call whose credential
acquisition succeeds, whose body serialises and whose method and URL
`http.NewRequest` accepts, exactly one request is handed to the transport after
the acquisition, to `BaseURL` followed by `path`, whether its transport succeeds
or fails; a transport failure is returned to the caller, wrapped in
`send request failed: `, after that single attempt. -/
theorem DoRequest_single_attempt {β ρ : Type} (lib : Lib) (codec : Codec β ρ) (vars : Vars)
    (env : Env) (c : Client) (method path : String) (body : Option β) (result : Option ρ)
    (reqBody : Option Bytes)
    (hacq : (GetTenantAccessToken lib vars env c).err = none)
    (hbody : marshalBody codec body = .ok reqBody)
    (hnew : lib.newRequestErr method (vars.BaseURL ++ path) = none) :
    (DoRequest lib codec vars env c method path body result).requests
      = (GetTenantAccessToken lib vars env c).requests ++
        [apiRequest method (vars.BaseURL ++ path) reqBody
          (GetTenantAccessToken lib vars env c).token] ∧
    ((DoRequest lib codec vars env c method path body result).requests.drop
      (GetTenantAccessToken lib vars env c).requests.length).length = 1 ∧
    (apiRequest method (vars.BaseURL ++ path) reqBody
      (GetTenantAccessToken lib vars env c).token).url = vars.BaseURL ++ path ∧
    (∀ err, env.api (apiRequest method (vars.BaseURL ++ path) reqBody
        (GetTenantAccessToken lib vars env c).token) = .doFailed err →
      (DoRequest lib codec vars env c method path body result).err
        = some (Errorf_w "send request failed: " err) ∧
      (Errorf_w "send request failed: " err).Unwrap = some err) := by
  have hreqs : (DoRequest lib codec vars env c method path body result).requests
      = (GetTenantAccessToken lib vars env c).requests ++
        [apiRequest method (vars.BaseURL ++ path) reqBody
          (GetTenantAccessToken lib vars env c).token] := by
    rw [DoRequest_requests, hacq, hbody, hnew]
  refine ⟨hreqs, ?_, rfl, ?_⟩
  · rw [hreqs, List.drop_left]
    rfl
  · intro err hfail
    rw [DoRequest_dispatched lib codec vars env c method path body result reqBody
      hacq hbody hnew, hfail]
    exact ⟨rfl, rfl⟩

/-- Witness of C12: the GET of `TestDoRequest` by a client that holds
`test-token`. -/
theorem DoRequest_single_attempt_witness :
    (DoRequest (scenarioLib ⟨0, "ok", "other", 7200⟩ ⟨0, "", ""⟩) scenarioCodec
        Vars.initial (scenarioEnv 5 6 [1]) (scenarioClient "test-token" 7200) "GET"
        "/test/api" none (some [7])).requests
      = (GetTenantAccessToken (scenarioLib ⟨0, "ok", "other", 7200⟩ ⟨0, "", ""⟩)
          Vars.initial (scenarioEnv 5 6 [1]) (scenarioClient "test-token" 7200)).requests ++
        [apiRequest "GET" (Vars.initial.BaseURL ++ "/test/api") none
          (GetTenantAccessToken (scenarioLib ⟨0, "ok", "other", 7200⟩ ⟨0, "", ""⟩)
            Vars.initial (scenarioEnv 5 6 [1]) (scenarioClient "test-token" 7200)).token] ∧
    ((DoRequest (scenarioLib ⟨0, "ok", "other", 7200⟩ ⟨0, "", ""⟩) scenarioCodec
        Vars.initial (scenarioEnv 5 6 [1]) (scenarioClient "test-token" 7200) "GET"
        "/test/api" none (some [7])).requests.drop
      (GetTenantAccessToken (scenarioLib ⟨0, "ok", "other", 7200⟩ ⟨0, "", ""⟩)
        Vars.initial (scenarioEnv 5 6 [1]) (scenarioClient "test-token" 7200)).requests.length
      ).length = 1 ∧
    (apiRequest "GET" (Vars.initial.BaseURL ++ "/test/api") none
      (GetTenantAccessToken (scenarioLib ⟨0, "ok", "other", 7200⟩ ⟨0, "", ""⟩)
        Vars.initial (scenarioEnv 5 6 [1]) (scenarioClient "test-token" 7200)).token).url
      = Vars.initial.BaseURL ++ "/test/api" ∧
    (∀ err, (scenarioEnv 5 6 [1]).api
        (apiRequest "GET" (Vars.initial.BaseURL ++ "/test/api") none
          (GetTenantAccessToken (scenarioLib ⟨0, "ok", "other", 7200⟩ ⟨0, "", ""⟩)
            Vars.initial (scenarioEnv 5 6 [1]) (scenarioClient "test-token" 7200)).token)
        = .doFailed err →
      (DoRequest (scenarioLib ⟨0, "ok", "other", 7200⟩ ⟨0, "", ""⟩) scenarioCodec
        Vars.initial (scenarioEnv 5 6 [1]) (scenarioClient "test-token" 7200) "GET"
        "/test/api" none (some [7])).err = some (Errorf_w "send request failed: " err) ∧
      (Errorf_w "send request failed: " err).Unwrap = some err) :=
  DoRequest_single_attempt (scenarioLib ⟨0, "ok", "other", 7200⟩ ⟨0, "", ""⟩) scenarioCodec
    Vars.initial (scenarioEnv 5 6 [1]) (scenarioClient "test-token" 7200) "GET" "/test/api"
    none (some [7]) none (by decide) rfl (by decide)

/-- C13. Decode failure is fatal: when a `DoRequest` call with a non-nil result
sink receives a response body that `json.Unmarshal` fails to decode into the
sink, with the error `cause`, the call returns a non-nil error, the text
`unmarshal response body failed: ` followed by that of `cause`, which wraps
`cause`; it does not return nil. -/
theorem DoRequest_decode_failure {β ρ : Type} (lib : Lib) (codec : Codec β ρ) (vars : Vars)
    (env : Env) (c : Client) (method path : String) (body : Option β) (sink sink1 : ρ)
    (reqBody : Option Bytes) (status : Nat) (respBody : Bytes) (cause : GoError)
    (hacq : (GetTenantAccessToken lib vars env c).err = none)
    (hbody : marshalBody codec body = .ok reqBody)
    (hnew : lib.newRequestErr method (vars.BaseURL ++ path) = none)
    (hresp : env.api (apiRequest method (vars.BaseURL ++ path) reqBody
      (GetTenantAccessToken lib vars env c).token) = .response status respBody)
    (hdec : codec.unmarshal respBody sink = (sink1, some cause)) :
    ∃ e : GoError,
      (DoRequest lib codec vars env c method path body (some sink)).err = some e ∧
      (DoRequest lib codec vars env c method path body (some sink)).err ≠ none ∧
      e.Unwrap = some cause ∧
      e.Error = "unmarshal response body failed: " ++ cause.Error := by
  refine ⟨Errorf_w "unmarshal response body failed: " cause, ?_, ?_, rfl, rfl⟩
  · rw [DoRequest_dispatched lib codec vars env c method path body (some sink) reqBody
      hacq hbody hnew, hresp]
    simp only [hdec]
  · rw [DoRequest_dispatched lib codec vars env c method path body (some sink) reqBody
      hacq hbody hnew, hresp]
    simp only [hdec, ne_eq, reduceCtorEq, not_false_eq_true]

/-- Witness of C13: the endpoint answers the GET of `TestDoRequest` with an
empty body, which does not decode. -/
theorem DoRequest_decode_failure_witness :
    ∃ e : GoError,
      (DoRequest (scenarioLib ⟨0, "ok", "other", 7200⟩ ⟨0, "", ""⟩) emptyRejectingCodec
        Vars.initial (scenarioEnv 5 6 []) (scenarioClient "test-token" 7200) "GET"
        "/test/api" none (some [7])).err = some e ∧
      (DoRequest (scenarioLib ⟨0, "ok", "other", 7200⟩ ⟨0, "", ""⟩) emptyRejectingCodec
        Vars.initial (scenarioEnv 5 6 []) (scenarioClient "test-token" 7200) "GET"
        "/test/api" none (some [7])).err ≠ none ∧
      e.Unwrap = some (.errorString "unexpected end of JSON input") ∧
      e.Error = "unmarshal response body failed: "
        ++ (GoError.errorString "unexpected end of JSON input").Error :=
  DoRequest_decode_failure (scenarioLib ⟨0, "ok", "other", 7200⟩ ⟨0, "", ""⟩) emptyRejectingCodec
    Vars.initial (scenarioEnv 5 6 []) (scenarioClient "test-token" 7200) "GET" "/test/api"
    none [7] [7] none 200 [] (.errorString "unexpected end of JSON input")
    (by decide) rfl (by decide) rfl rfl

/-- C14. The dispatcher does not interpret the envelope: when the response
body decodes into the sink without error, leaving it as `sink1`, `DoRequest`
returns nil and the sink holds `sink1`, whatever `sink1` is; in particular when
the sink is an `APIResponse` and the decoded code is not 0, the call still
returns nil, with that code and the message in the sink. -/
theorem DoRequest_ignores_envelope_code {β ρ : Type} (lib : Lib) (codec : Codec β ρ)
    (vars : Vars) (env : Env) (c : Client) (method path : String) (body : Option β)
    (sink sink1 : ρ) (reqBody : Option Bytes) (status : Nat) (respBody : Bytes)
    (hacq : (GetTenantAccessToken lib vars env c).err = none)
    (hbody : marshalBody codec body = .ok reqBody)
    (hnew : lib.newRequestErr method (vars.BaseURL ++ path) = none)
    (hresp : env.api (apiRequest method (vars.BaseURL ++ path) reqBody
      (GetTenantAccessToken lib vars env c).token) = .response status respBody)
    (hdec : codec.unmarshal respBody sink = (sink1, none)) :
    (DoRequest lib codec vars env c method path body (some sink)).err = none ∧
    (DoRequest lib codec vars env c method path body (some sink)).result = some sink1 := by
  rw [DoRequest_dispatched lib codec vars env c method path body (some sink) reqBody
    hacq hbody hnew, hresp]
  simp only [hdec, and_self]

/-- Witness of C14: the endpoint answers with an envelope that decodes to the
code 10002 and the message `invalid app_secret`; `DoRequest` returns nil and
the `APIResponse` sink holds both. -/
theorem DoRequest_ignores_envelope_code_witness :
    (DoRequest (scenarioLib ⟨0, "ok", "other", 7200⟩ ⟨0, "", ""⟩)
        (scenarioServiceCodec (⟨10002, "invalid app_secret", Value.nil⟩ : APIResponse))
        Vars.initial (scenarioEnv 5 6 [1]) (scenarioClient "test-token" 7200) "GET"
        "/test/api" none (some APIResponse.zero)).err = none ∧
    (DoRequest (scenarioLib ⟨0, "ok", "other", 7200⟩ ⟨0, "", ""⟩)
        (scenarioServiceCodec (⟨10002, "invalid app_secret", Value.nil⟩ : APIResponse))
        Vars.initial (scenarioEnv 5 6 [1]) (scenarioClient "test-token" 7200) "GET"
        "/test/api" none (some APIResponse.zero)).result
      = some ⟨10002, "invalid app_secret", Value.nil⟩ :=
  DoRequest_ignores_envelope_code (scenarioLib ⟨0, "ok", "other", 7200⟩ ⟨0, "", ""⟩)
    (scenarioServiceCodec (⟨10002, "invalid app_secret", Value.nil⟩ : APIResponse))
    Vars.initial (scenarioEnv 5 6 [1]) (scenarioClient "test-token" 7200) "GET" "/test/api"
    none APIResponse.zero ⟨10002, "invalid app_secret", Value.nil⟩ none 200 [1]
    (by decide) rfl (by decide) rfl rfl

/-- The outcome of an `UploadFile` call whose request is answered by a body
that decodes. -/
theorem UploadFile_answered (lib : Lib) (vars : Vars) (env : Env) (c : Client)
    (path : String) (fileBytes : Bytes) (fileName : String) (requestBody : Bytes)
    (contentType : String) (status : Nat) (respBody : Bytes) (result : UploadResult)
    (hacq : (GetTenantAccessToken lib vars env c).err = none)
    (hmp : env.multipart "file" fileName fileBytes = .encoded requestBody contentType)
    (hnew : lib.newRequestErr "POST" (vars.BaseURL ++ path) = none)
    (hresp : env.api (uploadRequest (vars.BaseURL ++ path) requestBody contentType
      (GetTenantAccessToken lib vars env c).token) = .response status respBody)
    (hdec : lib.unmarshalUpload respBody = .ok result) :
    UploadFile lib vars env c path fileBytes fileName =
      if result.Code ≠ 0 then
        ⟨"", some (Errorf_s "upload file failed: " result.Msg),
          (GetTenantAccessToken lib vars env c).client,
          (GetTenantAccessToken lib vars env c).requests ++
            [uploadRequest (vars.BaseURL ++ path) requestBody contentType
              (GetTenantAccessToken lib vars env c).token]⟩
      else
        ⟨result.FileKey, none, (GetTenantAccessToken lib vars env c).client,
          (GetTenantAccessToken lib vars env c).requests ++
            [uploadRequest (vars.BaseURL ++ path) requestBody contentType
              (GetTenantAccessToken lib vars env c).token]⟩ := by
  simp only [UploadFile, hacq, hmp, hnew, hresp, hdec]

/-- C16. Upload success: for every byte buffer, file name and path, when the
credential acquisition succeeds, the upload request is built and answered, and
the answer decodes to an envelope with code 0 and `data.file_key = k`,
`UploadFile` returns `(k, nil)`. -/
theorem UploadFile_success (lib : Lib) (vars : Vars) (env : Env) (c : Client)
    (path : String) (fileBytes : Bytes) (fileName : String) (requestBody : Bytes)
    (contentType : String) (status : Nat) (respBody : Bytes) (result : UploadResult)
    (hacq : (GetTenantAccessToken lib vars env c).err = none)
    (hmp : env.multipart "file" fileName fileBytes = .encoded requestBody contentType)
    (hnew : lib.newRequestErr "POST" (vars.BaseURL ++ path) = none)
    (hresp : env.api (uploadRequest (vars.BaseURL ++ path) requestBody contentType
      (GetTenantAccessToken lib vars env c).token) = .response status respBody)
    (hdec : lib.unmarshalUpload respBody = .ok result)
    (hcode : result.Code = 0) :
    (UploadFile lib vars env c path fileBytes fileName).fileKey = result.FileKey ∧
    (UploadFile lib vars env c path fileBytes fileName).err = none := by
  rw [UploadFile_answered lib vars env c path fileBytes fileName requestBody contentType
    status respBody result hacq hmp hnew hresp hdec, if_neg (by simp [hcode])]
  exact ⟨rfl, rfl⟩

/-- Witness of C16: the bytes `[1, 2, 3]` uploaded as `x.png` to an endpoint
that answers with code 0 and the file key `fk_1`. -/
theorem UploadFile_success_witness :
    (UploadFile (scenarioLib ⟨0, "ok", "other", 7200⟩ ⟨0, "", "fk_1"⟩) Vars.initial
      (scenarioEnv 5 6 [1]) (scenarioClient "test-token" 7200) "/im/v1/images" [1, 2, 3]
      "x.png").fileKey = "fk_1" ∧
    (UploadFile (scenarioLib ⟨0, "ok", "other", 7200⟩ ⟨0, "", "fk_1"⟩) Vars.initial
      (scenarioEnv 5 6 [1]) (scenarioClient "test-token" 7200) "/im/v1/images" [1, 2, 3]
      "x.png").err = none :=
  UploadFile_success (scenarioLib ⟨0, "ok", "other", 7200⟩ ⟨0, "", "fk_1"⟩) Vars.initial
    (scenarioEnv 5 6 [1]) (scenarioClient "test-token" 7200) "/im/v1/images" [1, 2, 3]
    "x.png" [1, 2, 3] "multipart/form-data; boundary=b" 200 [1] ⟨0, "", "fk_1"⟩
    (by decide) rfl (by decide) rfl rfl rfl

/-- An `UploadFile` call answered with a non-zero code returns the empty key
and the value of `fmt.Errorf("upload file failed: %s", msg)`: the message is in
the text, the code is nowhere in the error, and the error is not an `*Error`. -/
theorem UploadFile_nonzero_code (lib : Lib) (vars : Vars) (env : Env) (c : Client)
    (path : String) (fileBytes : Bytes) (fileName : String) (requestBody : Bytes)
    (contentType : String) (status : Nat) (respBody : Bytes) (result : UploadResult)
    (hacq : (GetTenantAccessToken lib vars env c).err = none)
    (hmp : env.multipart "file" fileName fileBytes = .encoded requestBody contentType)
    (hnew : lib.newRequestErr "POST" (vars.BaseURL ++ path) = none)
    (hresp : env.api (uploadRequest (vars.BaseURL ++ path) requestBody contentType
      (GetTenantAccessToken lib vars env c).token) = .response status respBody)
    (hdec : lib.unmarshalUpload respBody = .ok result)
    (hcode : result.Code ≠ 0) :
    (UploadFile lib vars env c path fileBytes fileName).fileKey = "" ∧
    (UploadFile lib vars env c path fileBytes fileName).err
      = some (.errorString ("upload file failed: " ++ result.Msg)) ∧
    (UploadFile lib vars env c path fileBytes fileName).err
      ≠ some (.api ⟨result.Code, result.Msg⟩) := by
  rw [UploadFile_answered lib vars env c path fileBytes fileName requestBody contentType
    status respBody result hacq hmp hnew hresp hdec, if_pos hcode]
  refine ⟨rfl, rfl, ?_⟩
  simp [Errorf_s]

/-- C17, the code at the failing input: the upload of `[1, 2, 3]` as `x.png`
is answered with the code 230001 and the message `invalid image`. `UploadFile`
returns the empty key and an error with the text `upload file failed: invalid
image`; the error is not the `*Error` with the code 230001 and this message
that the services return for the same envelope, and its text is the same
whatever the non-zero code is. -/
theorem UploadFile_failure_is_not_api_error :
    (UploadFile (scenarioLib ⟨0, "ok", "other", 7200⟩ ⟨230001, "invalid image", ""⟩) Vars.initial
      (scenarioEnv 5 6 [1]) (scenarioClient "test-token" 7200) "/im/v1/images" [1, 2, 3]
      "x.png").fileKey = "" ∧
    (UploadFile (scenarioLib ⟨0, "ok", "other", 7200⟩ ⟨230001, "invalid image", ""⟩) Vars.initial
      (scenarioEnv 5 6 [1]) (scenarioClient "test-token" 7200) "/im/v1/images" [1, 2, 3]
      "x.png").err = some (.errorString "upload file failed: invalid image") ∧
    (UploadFile (scenarioLib ⟨0, "ok", "other", 7200⟩ ⟨230001, "invalid image", ""⟩) Vars.initial
      (scenarioEnv 5 6 [1]) (scenarioClient "test-token" 7200) "/im/v1/images" [1, 2, 3]
      "x.png").err ≠ some (.api ⟨230001, "invalid image"⟩) ∧
    (UploadFile (scenarioLib ⟨0, "ok", "other", 7200⟩ ⟨230002, "invalid image", ""⟩)
      Vars.initial (scenarioEnv 5 6 [1]) (scenarioClient "test-token" 7200) "/im/v1/images"
      [1, 2, 3] "x.png").err
      = (UploadFile (scenarioLib ⟨0, "ok", "other", 7200⟩ ⟨230001, "invalid image", ""⟩) Vars.initial
        (scenarioEnv 5 6 [1]) (scenarioClient "test-token" 7200) "/im/v1/images" [1, 2, 3]
        "x.png").err := by
  decide

/-- The character of a digit below ten has the value of the digit and is neither
a comma nor a minus sign. -/
theorem digitChar_spec (d : Nat) (h : d < 10) :
    digitValue (Nat.digitChar d) = d ∧ Nat.digitChar d ≠ ',' ∧ Nat.digitChar d ≠ '-' := by
  interval_cases d <;> decide

/-- The decimal digits `Nat.toDigitsCore` puts before `ds` denote `n`. -/
theorem toDigitsCore_spec (fuel : Nat) : ∀ (n : Nat) (ds : List Char), n < fuel →
    ∃ pre, Nat.toDigitsCore 10 fuel n ds = pre ++ ds ∧
      (∀ acc, decimalValue acc pre = acc * 10 ^ pre.length + n) ∧
      (∀ ch ∈ pre, ch ≠ ',' ∧ ch ≠ '-') ∧ pre ≠ [] := by
  induction fuel with
  | zero => intro n ds h; omega
  | succ fuel ih =>
    intro n ds h
    have hd := digitChar_spec (n % 10) (Nat.mod_lt _ (by decide))
    unfold Nat.toDigitsCore
    simp only
    by_cases hq : n / 10 = 0
    · rw [if_pos hq]
      refine ⟨[Nat.digitChar (n % 10)], rfl, ?_, ?_, by simp⟩
      · intro acc
        simp only [decimalValue, List.foldl_cons, List.foldl_nil, hd.1, List.length_singleton,
          pow_one]
        omega
      · intro ch hch
        simp only [List.mem_singleton] at hch
        subst hch
        exact hd.2
    · rw [if_neg hq]
      obtain ⟨pre, hpre, hval, hch, _⟩ := ih (n / 10) (Nat.digitChar (n % 10) :: ds) (by omega)
      refine ⟨pre ++ [Nat.digitChar (n % 10)], by rw [hpre]; simp, ?_, ?_, by simp⟩
      · intro acc
        have := hval acc
        simp only [decimalValue, List.foldl_append, List.foldl_cons, List.foldl_nil,
          List.length_append, List.length_singleton, pow_succ, hd.1] at this ⊢
        rw [this]
        have := Nat.div_add_mod n 10
        ring_nf
        omega
      · intro ch hmem
        simp only [List.mem_append, List.mem_singleton] at hmem
        rcases hmem with h1 | h1
        · exact hch ch h1
        · subst h1
          exact hd.2

/-- The decimal text of a natural number denotes it and has no comma and no
minus sign. -/
theorem natRepr_spec (n : Nat) :
    decimalValue 0 (toString n).data = n ∧ (∀ ch ∈ (toString n).data, ch ≠ ',' ∧ ch ≠ '-') ∧
    (toString n).data ≠ [] := by
  obtain ⟨pre, hpre, hval, hch, hne⟩ := toDigitsCore_spec (n + 1) n [] (by omega)
  have hdata : (toString n).data = pre := by
    show (Nat.repr n).data = pre
    simp only [Nat.repr, Nat.toDigits, hpre, List.append_nil, List.asString]
  rw [hdata]
  exact ⟨by simpa using hval 0, hch, hne⟩

/-- The decimal text of an integer, as `%d` prints it, has no comma and
determines the integer. -/
theorem intToString_spec (c : Int) :
    (∀ ch ∈ (toString c).data, ch ≠ ',') ∧
    (∀ c2 : Int, toString c = toString c2 → c = c2) := by
  have hnat : ∀ m : Nat, toString (Int.ofNat m) = toString m := fun _ => rfl
  have hneg : ∀ m : Nat, (toString (Int.negSucc m)).data = '-' :: (toString (m + 1)).data :=
    fun _ => rfl
  have hmixed : ∀ m k : Nat, toString (Int.ofNat m) ≠ toString (Int.negSucc k) := by
    intro m k h
    have hdata := congrArg String.data h
    rw [hnat, hneg] at hdata
    have hmem : '-' ∈ (toString m).data := by rw [hdata]; exact List.mem_cons_self _ _
    exact ((natRepr_spec m).2.1 _ hmem).2 rfl
  refine ⟨?_, ?_⟩
  · intro ch hch
    cases c with
    | ofNat m =>
      rw [hnat] at hch
      exact ((natRepr_spec m).2.1 ch hch).1
    | negSucc m =>
      rw [hneg, List.mem_cons] at hch
      rcases hch with h | h
      · subst h
        decide
      · exact ((natRepr_spec (m + 1)).2.1 ch h).1
  · intro c2 h
    cases c with
    | ofNat m =>
      cases c2 with
      | ofNat k =>
        rw [hnat, hnat] at h
        have := congrArg (fun s => decimalValue 0 s.data) h
        simp only [(natRepr_spec m).1, (natRepr_spec k).1] at this
        rw [this]
      | negSucc k => exact absurd h (hmixed m k)
    | negSucc m =>
      cases c2 with
      | ofNat k => exact absurd h.symm (hmixed k m)
      | negSucc k =>
        have hdata := congrArg String.data h
        rw [hneg, hneg, List.cons.injEq] at hdata
        have := congrArg (decimalValue 0) hdata.2
        rw [(natRepr_spec (m + 1)).1, (natRepr_spec (k + 1)).1] at this
        have hmk : m = k := by omega
        rw [hmk]

/-- Two texts cut at their first comma are equal part by part. -/
theorem append_comma_inj : ∀ (l1 l2 r1 r2 : List Char), ',' ∉ l1 → ',' ∉ l2 →
    l1 ++ ',' :: r1 = l2 ++ ',' :: r2 → l1 = l2 ∧ r1 = r2 := by
  intro l1
  induction l1 with
  | nil =>
    intro l2 r1 r2 _ h2 h
    cases l2 with
    | nil => simpa using h
    | cons a l2 =>
      simp only [List.nil_append, List.cons_append, List.cons.injEq] at h
      exact absurd (h.1 ▸ List.mem_cons_self _ _) h2
  | cons a l1 ih =>
    intro l2 r1 r2 h1 h2 h
    cases l2 with
    | nil =>
      simp only [List.nil_append, List.cons_append, List.cons.injEq] at h
      exact absurd (h.1 ▸ List.mem_cons_self _ _) h1
    | cons b l2 =>
      simp only [List.cons_append, List.cons.injEq] at h
      obtain ⟨hl, hr⟩ := ih l2 r1 r2 (fun hm => h1 (List.mem_cons_of_mem _ hm))
        (fun hm => h2 (List.mem_cons_of_mem _ hm)) h.2
      exact ⟨by rw [h.1, hl], hr⟩

/-- C19. Error text: for every integer code `c` and string message `m`, the
method `Error` of `&Error{Code: c, Message: m}` returns
`easylark API error: code=` followed by the decimal of `c`, `, message=` and
`m`; the decimal of the code and the message are in the text verbatim, and the
text determines both: two errors with the same text have the same code and the
same message. -/
theorem Error_Error_text (c : Int) (m : String) :
    (Error.mk c m).Error = "easylark API error: code=" ++ toString c ++ ", message=" ++ m ∧
    (GoError.api (Error.mk c m)).Error
      = "easylark API error: code=" ++ toString c ++ ", message=" ++ m ∧
    m.data <:+ (Error.mk c m).Error.data ∧
    (toString c).data <:+: (Error.mk c m).Error.data ∧
    (∀ (c2 : Int) (m2 : String),
      (Error.mk c m).Error = (Error.mk c2 m2).Error → c = c2 ∧ m = m2) := by
  refine ⟨rfl, rfl, ?_, ?_, ?_⟩
  · show m.data <:+ ("easylark API error: code=" ++ toString c ++ ", message=" ++ m).data
    rw [String.data_append]
    exact List.suffix_append _ _
  · show (toString c).data
      <:+: ("easylark API error: code=" ++ toString c ++ ", message=" ++ m).data
    simp only [String.data_append]
    exact ⟨_, _, (List.append_assoc _ _ _).symm⟩
  · intro c2 m2 h
    have hdata := congrArg String.data h
    simp only [Error.Error, String.data_append, List.append_assoc] at hdata
    have hrest := List.append_cancel_left hdata
    have hsplit := append_comma_inj _ _ _ _
      (fun hm => (intToString_spec c).1 _ hm rfl)
      (fun hm => (intToString_spec c2).1 _ hm rfl) hrest
    exact ⟨(intToString_spec c).2 c2 (String.ext hsplit.1),
      String.ext (List.append_cancel_left hsplit.2)⟩

/-- Witness of C19: the error of `TestError`, code 10002 and the message
`invalid app_secret`, has the text the test expects. -/
theorem Error_Error_text_witness :
    (Error.mk 10002 "invalid app_secret").Error
      = "easylark API error: code=10002, message=invalid app_secret" :=
  (Error_Error_text 10002 "invalid app_secret").1.trans (by decide)

/-- A `DoRequest` call with a non-nil sink leaves a sink. -/
theorem DoRequest_result_some {β ρ : Type} (lib : Lib) (codec : Codec β ρ) (vars : Vars)
    (env : Env) (c : Client) (method path : String) (body : Option β) (sink : ρ) :
    ∃ res, (DoRequest lib codec vars env c method path body (some sink)).result = some res := by
  unfold DoRequest
  simp only
  repeat' split
  all_goals exact ⟨_, rfl⟩

/-- The check every service method makes after its `DoRequest` call translates
the envelope: `data` is what the method returns from the sink for the code 0. -/
theorem translatesEnvelope_of_check {ρ α : Type} (d : DispatchCall ρ) (sink : ρ)
    (code : ρ → Int) (msg : ρ → String) (zero : α) (data : ρ → α)
    (hres : ∃ res, d.result = some res) :
    TranslatesEnvelope d code msg zero
      (match d.err with
        | some err => ⟨zero, some err, d.client, d.requests⟩
        | none =>
          if code (d.result.getD sink) ≠ 0 then
            ⟨zero, some (.api ⟨code (d.result.getD sink), msg (d.result.getD sink)⟩),
              d.client, d.requests⟩
          else
            ⟨data (d.result.getD sink), none, d.client, d.requests⟩) := by
  obtain ⟨res0, hres0⟩ := hres
  unfold TranslatesEnvelope
  cases herr : d.err with
  | some err =>
    refine ⟨rfl, rfl, ⟨res0, hres0⟩, ?_, ?_, ?_⟩
    · intro e he
      cases he
      exact ⟨rfl, rfl⟩
    · intro res h
      cases h
    · intro res h
      cases h
  | none =>
    simp only [hres0, Option.getD_some]
    by_cases hcode : code res0 ≠ 0
    · rw [if_pos hcode]
      refine ⟨rfl, rfl, ⟨res0, rfl⟩, ?_, ?_, ?_⟩
      · intro e he
        cases he
      · intro res _ h _
        cases h
        exact ⟨rfl, rfl⟩
      · intro res _ h hzero
        cases h
        exact absurd hzero hcode
    · rw [if_neg hcode]
      refine ⟨rfl, rfl, ⟨res0, rfl⟩, ?_, ?_, ?_⟩
      · intro e he
        cases he
      · intro res _ h hne
        cases h
        exact absurd hne hcode
      · intro res _ h _
        rfl

/-- C18. Envelope-to-APIError translation in the service layer: each of the
sixteen operations makes one `DoRequest` call, with the method, path, body and
zero sink shown, and translates its outcome: when `DoRequest` fails it returns
that error unchanged with a zero-valued result; when `DoRequest` succeeds and
the decoded envelope has a code `c ≠ 0` and the message `m` it returns the
`*Error` with `Code = c` and `Message = m` and a zero-valued result; when the
code is 0 it returns a nil error. -/
theorem service_envelope_translation (lib : Lib) (vars : Vars) (env : Env) (c : Client)
    (codecA : Codec Value APIResponse)
    (codecM : Codec Value (Envelope (Option (List (String × Value)))))
    (codecG : Codec Value (Envelope CreateGroupData))
    (codecS : Codec Value (Envelope (Option Sheet)))
    (codecV : Codec Value (Envelope SheetValues))
    (codecL : Codec Value (Envelope GetSheetsData))
    (chatID messageID sheetToken rangeStr sheetID : String) (content : MessageContent)
    (req : Option CreateGroupRequest) (userIDs : List String) (values : List (List Value))
    (style : Value) (dimensionType : DimensionType) (startIndex endIndex pixelSize : Int) :
    TranslatesEnvelope
      (DoRequest lib codecA vars env c "POST" "/im/v1/messages?receive_id_type=chat_id"
        (some (Value.map [("receive_id", .string chatID), ("msg_type", .string content.Type_),
          ("content", .map content.Content)])) (some APIResponse.zero))
      (fun res => res.Code) (fun res => res.Msg) ()
      (MessageService.SendMessage lib codecA vars env c chatID content) ∧
    TranslatesEnvelope
      (DoRequest lib codecM vars env c "GET" ("/im/v1/messages/" ++ messageID)
        none (some (Envelope.zero none)))
      (fun res => res.Code) (fun res => res.Msg) none
      (MessageService.GetMessage lib codecM vars env c messageID) ∧
    TranslatesEnvelope
      (DoRequest lib codecG vars env c "POST" "/im/v1/chats"
        (some (CreateGroupRequest.toValue req)) (some (Envelope.zero ⟨""⟩)))
      (fun res => res.Code) (fun res => res.Msg) ""
      (MessageService.CreateGroup lib codecG vars env c req) ∧
    TranslatesEnvelope
      (DoRequest lib codecM vars env c "GET" ("/im/v1/chats/" ++ chatID)
        none (some (Envelope.zero none)))
      (fun res => res.Code) (fun res => res.Msg) none
      (MessageService.GetGroupInfo lib codecM vars env c chatID) ∧
    TranslatesEnvelope
      (DoRequest lib codecA vars env c "POST" ("/im/v1/chats/" ++ chatID ++ "/members")
        (some (Value.map [("id_list", .slice (userIDs.map Value.string))])) (some APIResponse.zero))
      (fun res => res.Code) (fun res => res.Msg) ()
      (MessageService.AddGroupMember lib codecA vars env c chatID userIDs) ∧
    TranslatesEnvelope
      (DoRequest lib codecA vars env c "DELETE" ("/im/v1/chats/" ++ chatID ++ "/members" ++ queryParamsLoop 0 userIDs "?")
        none (some APIResponse.zero))
      (fun res => res.Code) (fun res => res.Msg) ()
      (MessageService.RemoveGroupMember lib codecA vars env c chatID userIDs) ∧
    TranslatesEnvelope
      (DoRequest lib codecS vars env c "GET" ("/sheets/v3/spreadsheets/" ++ sheetToken ++ "/metainfo")
        none (some (Envelope.zero none)))
      (fun res => res.Code) (fun res => res.Msg) none
      (SheetService.Get lib codecS vars env c sheetToken) ∧
    TranslatesEnvelope
      (DoRequest lib codecV vars env c "GET" ("/sheets/v3/spreadsheets/" ++ sheetToken ++ "/values/" ++ rangeStr)
        none (some (Envelope.zero ⟨[]⟩)))
      (fun res => res.Code) (fun res => res.Msg) []
      (SheetService.ReadRange lib codecV vars env c sheetToken rangeStr) ∧
    TranslatesEnvelope
      (DoRequest lib codecA vars env c "PUT" ("/sheets/v3/spreadsheets/" ++ sheetToken ++ "/values/" ++ rangeStr)
        (some (Value.map [("values", .slice (values.map Value.slice))])) (some APIResponse.zero))
      (fun res => res.Code) (fun res => res.Msg) ()
      (SheetService.WriteRange lib codecA vars env c sheetToken rangeStr values) ∧
    TranslatesEnvelope
      (DoRequest lib codecA vars env c "POST" ("/sheets/v3/spreadsheets/" ++ sheetToken ++ "/values/" ++ rangeStr ++ ":append")
        (some (Value.map [("values", .slice (values.map Value.slice))])) (some APIResponse.zero))
      (fun res => res.Code) (fun res => res.Msg) ()
      (SheetService.AppendRange lib codecA vars env c sheetToken rangeStr values) ∧
    TranslatesEnvelope
      (DoRequest lib codecA vars env c "POST" ("/sheets/v3/spreadsheets/" ++ sheetToken ++ "/values/" ++ rangeStr ++ ":clear")
        none (some APIResponse.zero))
      (fun res => res.Code) (fun res => res.Msg) ()
      (SheetService.ClearRange lib codecA vars env c sheetToken rangeStr) ∧
    TranslatesEnvelope
      (DoRequest lib codecA vars env c "POST" ("/sheets/v3/spreadsheets/" ++ sheetToken ++ "/sheets_batch_update")
        (some (Value.map [("requests", .slice [.map [
          ("deleteSheet", .map [("sheetId", .string sheetID)])]])])) (some APIResponse.zero))
      (fun res => res.Code) (fun res => res.Msg) ()
      (SheetService.DeleteSheet lib codecA vars env c sheetToken sheetID) ∧
    TranslatesEnvelope
      (DoRequest lib codecL vars env c "GET" ("/sheets/v3/spreadsheets/" ++ sheetToken ++ "/sheets/query")
        none (some (Envelope.zero ⟨[]⟩)))
      (fun res => res.Code) (fun res => res.Msg) []
      (SheetService.GetSheets lib codecL vars env c sheetToken) ∧
    TranslatesEnvelope
      (DoRequest lib codecA vars env c "POST" ("/sheets/v3/spreadsheets/" ++ sheetToken ++ "/sheets_batch_update")
        (some (Value.map [("requests", .slice [.map [
          ("updateCells", .map [
            ("range", .map [("sheetId", .string sheetID), ("range", .string rangeStr)]),
            ("style", style)])]])])) (some APIResponse.zero))
      (fun res => res.Code) (fun res => res.Msg) ()
      (SheetService.SetCellStyle lib codecA vars env c sheetToken sheetID rangeStr style) ∧
    TranslatesEnvelope
      (DoRequest lib codecA vars env c "POST" ("/sheets/v3/spreadsheets/" ++ sheetToken ++ "/sheets_batch_update")
        (some (Value.map [("requests", .slice [.map [
          ("mergeCells", .map [
            ("range", .map [("sheetId", .string sheetID), ("range", .string rangeStr)])])]])])) (some APIResponse.zero))
      (fun res => res.Code) (fun res => res.Msg) ()
      (SheetService.MergeCells lib codecA vars env c sheetToken sheetID rangeStr) ∧
    TranslatesEnvelope
      (DoRequest lib codecA vars env c "POST" ("/sheets/v3/spreadsheets/" ++ sheetToken ++ "/sheets_batch_update")
        (some (Value.map [("requests", .slice [.map [
          ("updateDimensionProperties", .map [
            ("range", .map [
              ("sheetId", .string sheetID),
              ("dimension", .string dimensionType),
              ("startIndex", .int startIndex),
              ("endIndex", .int endIndex)]),
            ("properties", .map [("pixelSize", .int pixelSize)]),
            ("fields", .string "pixelSize")])]])])) (some APIResponse.zero))
      (fun res => res.Code) (fun res => res.Msg) ()
      (SheetService.SetDimension lib codecA vars env c sheetToken sheetID dimensionType startIndex
        endIndex pixelSize) := by
  refine ⟨?_, ?_, ?_, ?_, ?_, ?_, ?_, ?_, ?_, ?_, ?_, ?_, ?_, ?_, ?_, ?_⟩
  · exact translatesEnvelope_of_check _ APIResponse.zero _ _ () (fun _ => ())
      (DoRequest_result_some _ _ _ _ _ _ _ _ _)
  · exact translatesEnvelope_of_check _ (Envelope.zero none) _ _ none (fun res => res.Data)
      (DoRequest_result_some _ _ _ _ _ _ _ _ _)
  · exact translatesEnvelope_of_check _ (Envelope.zero (CreateGroupData.mk "")) _ _ ""
      (fun res : Envelope CreateGroupData => res.Data.ChatID)
      (DoRequest_result_some _ _ _ _ _ _ _ _ _)
  · exact translatesEnvelope_of_check _ (Envelope.zero none) _ _ none (fun res => res.Data)
      (DoRequest_result_some _ _ _ _ _ _ _ _ _)
  · exact translatesEnvelope_of_check _ APIResponse.zero _ _ () (fun _ => ())
      (DoRequest_result_some _ _ _ _ _ _ _ _ _)
  · exact translatesEnvelope_of_check _ APIResponse.zero _ _ () (fun _ => ())
      (DoRequest_result_some _ _ _ _ _ _ _ _ _)
  · exact translatesEnvelope_of_check _ (Envelope.zero none) _ _ none (fun res => res.Data)
      (DoRequest_result_some _ _ _ _ _ _ _ _ _)
  · exact translatesEnvelope_of_check _ (Envelope.zero (SheetValues.mk [])) _ _ []
      (fun res : Envelope SheetValues => res.Data.Values)
      (DoRequest_result_some _ _ _ _ _ _ _ _ _)
  · exact translatesEnvelope_of_check _ APIResponse.zero _ _ () (fun _ => ())
      (DoRequest_result_some _ _ _ _ _ _ _ _ _)
  · exact translatesEnvelope_of_check _ APIResponse.zero _ _ () (fun _ => ())
      (DoRequest_result_some _ _ _ _ _ _ _ _ _)
  · exact translatesEnvelope_of_check _ APIResponse.zero _ _ () (fun _ => ())
      (DoRequest_result_some _ _ _ _ _ _ _ _ _)
  · exact translatesEnvelope_of_check _ APIResponse.zero _ _ () (fun _ => ())
      (DoRequest_result_some _ _ _ _ _ _ _ _ _)
  · exact translatesEnvelope_of_check _ (Envelope.zero (GetSheetsData.mk [])) _ _ []
      (fun res : Envelope GetSheetsData => res.Data.Sheets)
      (DoRequest_result_some _ _ _ _ _ _ _ _ _)
  · exact translatesEnvelope_of_check _ APIResponse.zero _ _ () (fun _ => ())
      (DoRequest_result_some _ _ _ _ _ _ _ _ _)
  · exact translatesEnvelope_of_check _ APIResponse.zero _ _ () (fun _ => ())
      (DoRequest_result_some _ _ _ _ _ _ _ _ _)
  · exact translatesEnvelope_of_check _ APIResponse.zero _ _ () (fun _ => ())
      (DoRequest_result_some _ _ _ _ _ _ _ _ _)

/-- Witness of C18: the call of the test of `WriteRange`, two rows written to
`Sheet1!A1:B2` of `sheet123`, with an endpoint that answers with the code
1310213 and the message `permission denied`: the method returns the `*Error`
with this code and message. -/
theorem service_envelope_translation_witness :
    (SheetService.WriteRange (scenarioLib ⟨0, "ok", "other", 7200⟩ ⟨0, "", ""⟩)
      (scenarioServiceCodec (⟨1310213, "permission denied", Value.nil⟩ : APIResponse))
      Vars.initial (scenarioEnv 5 6 [1]) (scenarioClient "test-token" 7200) "sheet123"
      "Sheet1!A1:B2" [[.string "A1", .string "B1"], [.string "A2", .string "B2"]]).err
      = some (.api ⟨1310213, "permission denied"⟩) :=
  ((service_envelope_translation (scenarioLib ⟨0, "ok", "other", 7200⟩ ⟨0, "", ""⟩) Vars.initial (scenarioEnv 5 6 [1])
    (scenarioClient "test-token" 7200)
    (scenarioServiceCodec (⟨1310213, "permission denied", Value.nil⟩ : APIResponse))
    (scenarioServiceCodec (Envelope.zero none))
    (scenarioServiceCodec (Envelope.zero (CreateGroupData.mk "")))
    (scenarioServiceCodec (Envelope.zero none))
    (scenarioServiceCodec (Envelope.zero (SheetValues.mk [])))
    (scenarioServiceCodec (Envelope.zero (GetSheetsData.mk [])))
    "chat123" "om_1" "sheet123" "Sheet1!A1:B2" "s1" (TextContent.mk "hi").toMessageContent
    none [] [[.string "A1", .string "B1"], [.string "A2", .string "B2"]] Value.nil
    DimensionTypeRow 0 1 20).2.2.2.2.2.2.2.2.1.2.2.2.2.1
    ⟨1310213, "permission denied", Value.nil⟩ (by decide) rfl (by decide)).1

/-- C20. Message request body: for every chat id and every `MessageContent`,
the requests of `SendMessage` are those of the `DoRequest` call with the method
POST, the path `/im/v1/messages?receive_id_type=chat_id` and the body whose
`receive_id` is the chat id, whose `msg_type` is `content.Type()` and whose
`content` is `content.Content()`; for `SendText` the `msg_type` is `text` and
the content is the map of `text` to the text; for `SendCard` the `msg_type` is
`interact`. Once the call gets as far as sending, the request sent after the
acquisition is the POST to `BaseURL` followed by that path with the
serialisation of that body. -/
theorem SendMessage_request (lib : Lib) (codec : Codec Value APIResponse) (vars : Vars)
    (env : Env) (c : Client) (chatID text : String) (content : MessageContent)
    (card : MessageCard) :
    (MessageService.SendMessage lib codec vars env c chatID content).requests
      = (DoRequest lib codec vars env c "POST" "/im/v1/messages?receive_id_type=chat_id"
          (some (Value.map [("receive_id", .string chatID),
            ("msg_type", .string content.Type_), ("content", .map content.Content)]))
          (some APIResponse.zero)).requests ∧
    (MessageService.SendText lib codec vars env c chatID text).requests
      = (DoRequest lib codec vars env c "POST" "/im/v1/messages?receive_id_type=chat_id"
          (some (Value.map [("receive_id", .string chatID),
            ("msg_type", .string "text"), ("content", .map [("text", .string text)])]))
          (some APIResponse.zero)).requests ∧
    (MessageService.SendCard lib codec vars env c chatID card).requests
      = (DoRequest lib codec vars env c "POST" "/im/v1/messages?receive_id_type=chat_id"
          (some (Value.map [("receive_id", .string chatID),
            ("msg_type", .string "interact"), ("content", .map card.Content)]))
          (some APIResponse.zero)).requests ∧
    ((GetTenantAccessToken lib vars env c).err = none →
      ∀ bodyBytes,
        codec.marshal (Value.map [("receive_id", .string chatID),
          ("msg_type", .string content.Type_), ("content", .map content.Content)])
          = .ok bodyBytes →
        lib.newRequestErr "POST"
          (vars.BaseURL ++ "/im/v1/messages?receive_id_type=chat_id") = none →
        (MessageService.SendMessage lib codec vars env c chatID content).requests
          = (GetTenantAccessToken lib vars env c).requests ++
            [apiRequest "POST" (vars.BaseURL ++ "/im/v1/messages?receive_id_type=chat_id")
              (some bodyBytes) (GetTenantAccessToken lib vars env c).token]) := by
  have hsend : ∀ content : MessageContent,
      (MessageService.SendMessage lib codec vars env c chatID content).requests
        = (DoRequest lib codec vars env c "POST" "/im/v1/messages?receive_id_type=chat_id"
            (some (Value.map [("receive_id", .string chatID),
              ("msg_type", .string content.Type_), ("content", .map content.Content)]))
            (some APIResponse.zero)).requests := by
    intro content
    unfold MessageService.SendMessage
    simp only
    split
    · rfl
    · split <;> rfl
  refine ⟨hsend content, hsend _, hsend _, ?_⟩
  intro hacq bodyBytes hbody hnew
  rw [hsend content, DoRequest_requests, hacq]
  simp only [marshalBody, hbody, hnew]

/-- Witness of C20: the call of `TestSendText`, the text `Hello, world!` to the
chat `chat123` by a client that holds `test-token`. -/
theorem SendMessage_request_witness :
    (MessageService.SendMessage (scenarioLib ⟨0, "ok", "other", 7200⟩ ⟨0, "", ""⟩)
        (scenarioServiceCodec APIResponse.zero) Vars.initial (scenarioEnv 5 6 [1])
        (scenarioClient "test-token" 7200) "chat123"
        (TextContent.mk "Hello, world!").toMessageContent).requests
      = (GetTenantAccessToken (scenarioLib ⟨0, "ok", "other", 7200⟩ ⟨0, "", ""⟩) Vars.initial (scenarioEnv 5 6 [1])
          (scenarioClient "test-token" 7200)).requests ++
        [apiRequest "POST"
          (Vars.initial.BaseURL ++ "/im/v1/messages?receive_id_type=chat_id")
          (some [123, 125])
          (GetTenantAccessToken (scenarioLib ⟨0, "ok", "other", 7200⟩ ⟨0, "", ""⟩) Vars.initial (scenarioEnv 5 6 [1])
            (scenarioClient "test-token" 7200)).token] :=
  (SendMessage_request (scenarioLib ⟨0, "ok", "other", 7200⟩ ⟨0, "", ""⟩) (scenarioServiceCodec APIResponse.zero) Vars.initial
    (scenarioEnv 5 6 [1]) (scenarioClient "test-token" 7200) "chat123" "Hello, world!"
    (TextContent.mk "Hello, world!").toMessageContent NewMessageCard).2.2.2
    (by decide) [123, 125] rfl (by decide)

/-! ## Properties settled last -/

/-- C21. WriteRange request: for every sheet token `s`, range string `r` and
value matrix `v`, the effects of `WriteRange` are those of one `DoRequest` call
with the method PUT, the path `/sheets/v3/spreadsheets/` ++ `s` ++ `/values/`
++ `r` and the body that maps `values` to the rows of `v`, as many rows as `v`
has and in their order; when that call succeeds and the decoded code is 0,
`WriteRange` returns a nil error; and once the call gets as far as sending, the
request sent after the acquisition is the PUT to `BaseURL` followed by that
path with the serialisation of that body. -/
theorem WriteRange_request (lib : Lib) (codec : Codec Value APIResponse) (vars : Vars)
    (env : Env) (c : Client) (sheetToken rangeStr : String) (values : List (List Value)) :
    (SheetService.WriteRange lib codec vars env c sheetToken rangeStr values).requests
      = (DoRequest lib codec vars env c "PUT"
          ("/sheets/v3/spreadsheets/" ++ sheetToken ++ "/values/" ++ rangeStr)
          (some (Value.map [("values", .slice (values.map Value.slice))]))
          (some APIResponse.zero)).requests ∧
    (SheetService.WriteRange lib codec vars env c sheetToken rangeStr values).client
      = (DoRequest lib codec vars env c "PUT"
          ("/sheets/v3/spreadsheets/" ++ sheetToken ++ "/values/" ++ rangeStr)
          (some (Value.map [("values", .slice (values.map Value.slice))]))
          (some APIResponse.zero)).client ∧
    (values.map Value.slice).length = values.length ∧
    (∀ (i : Nat) (row : List Value), values[i]? = some row →
      (values.map Value.slice)[i]? = some (Value.slice row)) ∧
    (∀ res,
      (DoRequest lib codec vars env c "PUT"
        ("/sheets/v3/spreadsheets/" ++ sheetToken ++ "/values/" ++ rangeStr)
        (some (Value.map [("values", .slice (values.map Value.slice))]))
        (some APIResponse.zero)).err = none →
      (DoRequest lib codec vars env c "PUT"
        ("/sheets/v3/spreadsheets/" ++ sheetToken ++ "/values/" ++ rangeStr)
        (some (Value.map [("values", .slice (values.map Value.slice))]))
        (some APIResponse.zero)).result = some res →
      res.Code = 0 →
      (SheetService.WriteRange lib codec vars env c sheetToken rangeStr values).err = none) ∧
    ((GetTenantAccessToken lib vars env c).err = none →
      ∀ bodyBytes,
        codec.marshal (Value.map [("values", .slice (values.map Value.slice))])
          = .ok bodyBytes →
        lib.newRequestErr "PUT"
          (vars.BaseURL ++ ("/sheets/v3/spreadsheets/" ++ sheetToken ++ "/values/" ++ rangeStr))
          = none →
        (SheetService.WriteRange lib codec vars env c sheetToken rangeStr values).requests
          = (GetTenantAccessToken lib vars env c).requests ++
            [apiRequest "PUT"
              (vars.BaseURL ++
                ("/sheets/v3/spreadsheets/" ++ sheetToken ++ "/values/" ++ rangeStr))
              (some bodyBytes) (GetTenantAccessToken lib vars env c).token]) := by
  have htr := translatesEnvelope_of_check
    (DoRequest lib codec vars env c "PUT"
      ("/sheets/v3/spreadsheets/" ++ sheetToken ++ "/values/" ++ rangeStr)
      (some (Value.map [("values", .slice (values.map Value.slice))]))
      (some APIResponse.zero))
    APIResponse.zero (fun res => res.Code) (fun res => res.Msg) () (fun _ => ())
    (DoRequest_result_some _ _ _ _ _ _ _ _ _)
  have hreqs : (SheetService.WriteRange lib codec vars env c sheetToken rangeStr values).requests
      = (DoRequest lib codec vars env c "PUT"
          ("/sheets/v3/spreadsheets/" ++ sheetToken ++ "/values/" ++ rangeStr)
          (some (Value.map [("values", .slice (values.map Value.slice))]))
          (some APIResponse.zero)).requests := htr.2.1
  refine ⟨hreqs, htr.1, List.length_map _ _, ?_, ?_, ?_⟩
  · intro i row hrow
    simp [List.getElem?_map, hrow]
  · intro res herr hres hcode
    exact htr.2.2.2.2.2 res herr hres hcode
  · intro hacq bodyBytes hbody hnew
    rw [hreqs, DoRequest_requests, hacq]
    simp only [marshalBody, hbody, hnew]

/-- Witness of C21: the call of `TestSheetWriteRange`, two rows written to
`Sheet1!A1:B2` of `sheet123`, against an endpoint that answers with code 0. -/
theorem WriteRange_request_witness :
    (SheetService.WriteRange (scenarioLib ⟨0, "ok", "other", 7200⟩ ⟨0, "", ""⟩)
      (scenarioServiceCodec (⟨0, "ok", Value.nil⟩ : APIResponse))
      Vars.initial (scenarioEnv 5 6 [1]) (scenarioClient "test-token" 7200) "sheet123"
      "Sheet1!A1:B2" [[.string "A1", .string "B1"], [.string "A2", .string "B2"]]).err
      = none :=
  (WriteRange_request (scenarioLib ⟨0, "ok", "other", 7200⟩ ⟨0, "", ""⟩)
    (scenarioServiceCodec (⟨0, "ok", Value.nil⟩ : APIResponse))
    Vars.initial (scenarioEnv 5 6 [1]) (scenarioClient "test-token" 7200) "sheet123"
    "Sheet1!A1:B2" [[.string "A1", .string "B1"], [.string "A2", .string "B2"]]).2.2.2.2.1
    ⟨0, "ok", Value.nil⟩ (by decide) rfl rfl

/-- C22. Failed exchange leaves the cache untouched: when the cache test fails,
the exchange request is built, and then the transport fails (a timeout
included), the response body cannot be read, or the response cannot be decoded,
each with the error `cause`, the call returns the empty token and an error that
wraps `cause`, and the client, its token and expiry included, is as before. -/
theorem GetTenantAccessToken_failed_exchange (lib : Lib) (vars : Vars) (env : Env)
    (c : Client) (cause : GoError)
    (hmiss : c.expired env.nowCheck)
    (hreq : lib.newRequestErr "POST" vars.TenantAccessTokenURL = none)
    (hfail : env.exchange (c.exchangeRequest lib vars) = .doFailed cause ∨
      (∃ status, env.exchange (c.exchangeRequest lib vars) = .readFailed status cause) ∨
      (∃ status respBody,
        env.exchange (c.exchangeRequest lib vars) = .response status respBody ∧
        lib.unmarshalToken respBody = .error cause)) :
    ∃ e : GoError,
      GetTenantAccessToken lib vars env c = ⟨"", some e, c, [c.exchangeRequest lib vars]⟩ ∧
      e.Unwrap = some cause ∧
      (GetTenantAccessToken lib vars env c).token = "" ∧
      (GetTenantAccessToken lib vars env c).client.tenantAccessToken = c.tenantAccessToken ∧
      (GetTenantAccessToken lib vars env c).client.tokenExpireTime = c.tokenExpireTime := by
  unfold Client.expired at hmiss
  unfold Client.exchangeRequest at hfail
  rcases hfail with h | ⟨status, h⟩ | ⟨status, respBody, h, hdec⟩
  · refine ⟨Errorf_w "send request failed: " cause, ?_, rfl, ?_, ?_, ?_⟩ <;>
      simp only [GetTenantAccessToken, if_neg hmiss, marshalIdentity, hreq, h,
        Client.exchangeRequest]
  · refine ⟨Errorf_w "read response body failed: " cause, ?_, rfl, ?_, ?_, ?_⟩ <;>
      simp only [GetTenantAccessToken, if_neg hmiss, marshalIdentity, hreq, h,
        Client.exchangeRequest]
  · refine ⟨Errorf_w "unmarshal response body failed: " cause, ?_, rfl, ?_, ?_, ?_⟩ <;>
      simp only [GetTenantAccessToken, if_neg hmiss, marshalIdentity, hreq, h, hdec,
        Client.exchangeRequest]

/-- Witness of C22: the exchange of a client whose token expired at 7 ns times
out; the call fails and the client keeps the expired credential. -/
theorem GetTenantAccessToken_failed_exchange_witness :
    ∃ e : GoError,
      GetTenantAccessToken (scenarioLib ⟨0, "ok", "other", 7200⟩ ⟨0, "", ""⟩) Vars.initial
          { scenarioEnv 8 9 [] with
            exchange := fun _ => .doFailed (.errorString "context deadline exceeded") }
          (scenarioClient "old-token" 7)
        = ⟨"", some e, scenarioClient "old-token" 7,
            [(scenarioClient "old-token" 7).exchangeRequest (scenarioLib ⟨0, "ok", "other", 7200⟩ ⟨0, "", ""⟩) Vars.initial]⟩ ∧
      e.Unwrap = some (.errorString "context deadline exceeded") ∧
      (GetTenantAccessToken (scenarioLib ⟨0, "ok", "other", 7200⟩ ⟨0, "", ""⟩) Vars.initial
          { scenarioEnv 8 9 [] with
            exchange := fun _ => .doFailed (.errorString "context deadline exceeded") }
          (scenarioClient "old-token" 7)).token = "" ∧
      (GetTenantAccessToken (scenarioLib ⟨0, "ok", "other", 7200⟩ ⟨0, "", ""⟩) Vars.initial
          { scenarioEnv 8 9 [] with
            exchange := fun _ => .doFailed (.errorString "context deadline exceeded") }
          (scenarioClient "old-token" 7)).client.tenantAccessToken = "old-token" ∧
      (GetTenantAccessToken (scenarioLib ⟨0, "ok", "other", 7200⟩ ⟨0, "", ""⟩) Vars.initial
          { scenarioEnv 8 9 [] with
            exchange := fun _ => .doFailed (.errorString "context deadline exceeded") }
          (scenarioClient "old-token" 7)).client.tokenExpireTime = 7 :=
  GetTenantAccessToken_failed_exchange (scenarioLib ⟨0, "ok", "other", 7200⟩ ⟨0, "", ""⟩) Vars.initial
    { scenarioEnv 8 9 [] with
      exchange := fun _ => .doFailed (.errorString "context deadline exceeded") }
    (scenarioClient "old-token" 7) (.errorString "context deadline exceeded")
    (by decide) (by decide) (Or.inl rfl)

/-- C24. Exchange request shape: every request `GetTenantAccessToken` hands to
the transport is a POST to `TenantAccessTokenURL` whose body is the JSON object
with the two keys `app_id` and `app_secret`, in this order, set to the JSON
strings of the client's `AppID` and `AppSecret`, and nothing else; its only
header is the Content-Type `application/json; charset=utf-8`, so it carries no
Authorization header; and a call whose cache test fails sends such a request
once `http.NewRequest` accepts it. -/
theorem exchange_request_shape (lib : Lib) (vars : Vars) (env : Env) (c : Client) :
    (∀ r ∈ (GetTenantAccessToken lib vars env c).requests,
      r.method = "POST" ∧ r.url = vars.TenantAccessTokenURL ∧
      r.body = some ([123, 34, 97, 112, 112, 95, 105, 100, 34, 58] ++ lib.jsonString c.AppID
        ++ [44, 34, 97, 112, 112, 95, 115, 101, 99, 114, 101, 116, 34, 58]
        ++ lib.jsonString c.AppSecret ++ [125]) ∧
      Header.Get r.header "Content-Type" = some "application/json; charset=utf-8" ∧
      Header.Get r.header "Authorization" = none ∧
      r.header = [("Content-Type", "application/json; charset=utf-8")]) ∧
    (c.expired env.nowCheck → lib.newRequestErr "POST" vars.TenantAccessTokenURL = none →
      (GetTenantAccessToken lib vars env c).requests.length = 1) := by
  refine ⟨?_, ?_⟩
  · intro r hr
    rcases GetTenantAccessToken_requests lib vars env c with h | h
    · rw [h] at hr
      simp at hr
    · rw [h, List.mem_singleton] at hr
      subst hr
      refine ⟨rfl, rfl, rfl, ?_, ?_, ?_⟩ <;>
        simp [Client.exchangeRequest, exchangeRequest, Header.Set, Header.Get]
  · intro hmiss hreq
    rw [GetTenantAccessToken_requests_of_expired lib vars env c hmiss hreq]
    rfl

/-- Witness of C24: the exchange of the client of the tests sends one
request. -/
theorem exchange_request_shape_witness :
    (GetTenantAccessToken (scenarioLib ⟨0, "ok", "other", 7200⟩ ⟨0, "", ""⟩) Vars.initial (scenarioEnv 5 6 [])
      (scenarioClient "" 0)).requests.length = 1 :=
  (exchange_request_shape (scenarioLib ⟨0, "ok", "other", 7200⟩ ⟨0, "", ""⟩) Vars.initial (scenarioEnv 5 6 [])
    (scenarioClient "" 0)).2 (by decide) (by decide)

/-- C25. Construction: for every pair of strings `(id, secret)`, the client
`NewClient` allocates, at the address `self`, has `AppID = id` and
`AppSecret = secret`, a non-nil HTTP client (with the timeout of 10 s), non-nil
Message and Sheet services whose `client` pointers are both `self`, and the
empty token; its data are those of `NewClient`, so the cache test of a first
`GetTenantAccessToken` call fails at every time, and the call sends the
exchange request once `http.NewRequest` accepts it. -/
theorem NewClient_fresh (self : Nat) (appID appSecret : String) (lib : Lib) (vars : Vars)
    (env : Env) :
    (NewClientAt self appID appSecret).data.AppID = appID ∧
    (NewClientAt self appID appSecret).data.AppSecret = appSecret ∧
    (NewClientAt self appID appSecret).httpClient = some ⟨10 * Second⟩ ∧
    (NewClientAt self appID appSecret).httpClient ≠ none ∧
    (NewClientAt self appID appSecret).Message = some ⟨self⟩ ∧
    (NewClientAt self appID appSecret).Sheet = some ⟨self⟩ ∧
    (NewClientAt self appID appSecret).data.tenantAccessToken = "" ∧
    (NewClientAt self appID appSecret).data = NewClient appID appSecret ∧
    (NewClient appID appSecret).expired env.nowCheck ∧
    (lib.newRequestErr "POST" vars.TenantAccessTokenURL = none →
      (GetTenantAccessToken lib vars env (NewClient appID appSecret)).requests
        = [(NewClient appID appSecret).exchangeRequest lib vars]) := by
  have hexp : (NewClient appID appSecret).expired env.nowCheck := by
    intro h
    exact h.1 rfl
  refine ⟨rfl, rfl, rfl, ?_, rfl, rfl, rfl, rfl, hexp, ?_⟩
  · simp [NewClientAt]
  · intro hreq
    exact GetTenantAccessToken_requests_of_expired lib vars env _ hexp hreq

/-- Witness of C25: the client of `TestNewClient` performs an exchange on its
first call. -/
theorem NewClient_fresh_witness :
    (GetTenantAccessToken (scenarioLib ⟨0, "ok", "other", 7200⟩ ⟨0, "", ""⟩) Vars.initial (scenarioEnv 5 6 [])
      (NewClient "test-app-id" "test-app-secret")).requests
      = [(NewClient "test-app-id" "test-app-secret").exchangeRequest (scenarioLib ⟨0, "ok", "other", 7200⟩ ⟨0, "", ""⟩) Vars.initial] :=
  (NewClient_fresh 4096 "test-app-id" "test-app-secret" (scenarioLib ⟨0, "ok", "other", 7200⟩ ⟨0, "", ""⟩) Vars.initial
    (scenarioEnv 5 6 [])).2.2.2.2.2.2.2.2.2 (by decide)

/-- The status codes of the exchange do not matter to `GetTenantAccessToken`. -/
theorem GetTenantAccessToken_eraseStatus (lib : Lib) (vars : Vars) (env : Env) (c : Client) :
    GetTenantAccessToken lib vars env.eraseStatus c = GetTenantAccessToken lib vars env c := by
  unfold GetTenantAccessToken marshalIdentity
  by_cases hhit : c.tenantAccessToken ≠ "" ∧ env.nowCheck < c.tokenExpireTime
  · have hhit2 : c.tenantAccessToken ≠ "" ∧ env.eraseStatus.nowCheck < c.tokenExpireTime := hhit
    rw [if_pos hhit, if_pos hhit2]
  · have hhit2 : ¬ (c.tenantAccessToken ≠ "" ∧ env.eraseStatus.nowCheck < c.tokenExpireTime) :=
      hhit
    rw [if_neg hhit, if_neg hhit2]
    simp only
    cases lib.newRequestErr "POST" vars.TenantAccessTokenURL with
    | some err => rfl
    | none =>
      simp only [Env.eraseStatus]
      cases env.exchange (exchangeRequest vars (identityJSON lib c.AppID c.AppSecret)) with
      | doFailed err => rfl
      | readFailed status err => rfl
      | response status respBody => rfl

/-- The status codes do not matter to `DoRequest`. -/
theorem DoRequest_eraseStatus {β ρ : Type} (lib : Lib) (codec : Codec β ρ) (vars : Vars)
    (env : Env) (c : Client) (method path : String) (body : Option β) (result : Option ρ) :
    DoRequest lib codec vars env.eraseStatus c method path body result
      = DoRequest lib codec vars env c method path body result := by
  unfold DoRequest
  rw [GetTenantAccessToken_eraseStatus]
  simp only
  cases (GetTenantAccessToken lib vars env c).err with
  | some err => rfl
  | none =>
    simp only
    cases marshalBody codec body with
    | error err => rfl
    | ok reqBody =>
      simp only
      cases lib.newRequestErr method (vars.BaseURL ++ path) with
      | some err => rfl
      | none =>
        simp only [Env.eraseStatus]
        cases env.api (apiRequest method (vars.BaseURL ++ path) reqBody
          (GetTenantAccessToken lib vars env c).token) with
        | doFailed err => rfl
        | readFailed status err => rfl
        | response status respBody => rfl

/-- The status codes do not matter to `UploadFile`. -/
theorem UploadFile_eraseStatus (lib : Lib) (vars : Vars) (env : Env) (c : Client)
    (path : String) (fileBytes : Bytes) (fileName : String) :
    UploadFile lib vars env.eraseStatus c path fileBytes fileName
      = UploadFile lib vars env c path fileBytes fileName := by
  unfold UploadFile
  rw [GetTenantAccessToken_eraseStatus]
  simp only
  cases (GetTenantAccessToken lib vars env c).err with
  | some err => rfl
  | none =>
    have hmp : env.eraseStatus.multipart = env.multipart := rfl
    simp only [hmp]
    cases env.multipart "file" fileName fileBytes with
    | createFormFileFailed err => rfl
    | writeFailed err => rfl
    | closeFailed err => rfl
    | encoded requestBody contentType =>
      simp only
      cases lib.newRequestErr "POST" (vars.BaseURL ++ path) with
      | some err => rfl
      | none =>
        simp only [Env.eraseStatus]
        cases env.api (uploadRequest (vars.BaseURL ++ path) requestBody contentType
          (GetTenantAccessToken lib vars env c).token) with
        | doFailed err => rfl
        | readFailed status err => rfl
        | response status respBody => rfl

/-- C26. HTTP status is ignored: two worlds that differ only in the status
codes of their responses give `DoRequest` the same results and effects, and
`UploadFile` the same results and effects; in particular an upload answered
with any status code, 4xx and 5xx included, and a body that decodes to code 0
and the file key `k` returns `(k, nil)`. -/
theorem status_code_ignored {β ρ : Type} (lib : Lib) (codec : Codec β ρ) (vars : Vars)
    (env1 env2 : Env) (c : Client) (method path : String) (body : Option β)
    (result : Option ρ) (fileBytes : Bytes) (fileName : String)
    (hsame : env1.eraseStatus = env2.eraseStatus) :
    DoRequest lib codec vars env1 c method path body result
      = DoRequest lib codec vars env2 c method path body result ∧
    UploadFile lib vars env1 c path fileBytes fileName
      = UploadFile lib vars env2 c path fileBytes fileName ∧
    (∀ (status : Nat) (requestBody : Bytes) (contentType : String) (respBody : Bytes)
      (res : UploadResult),
      (GetTenantAccessToken lib vars env1 c).err = none →
      env1.multipart "file" fileName fileBytes = .encoded requestBody contentType →
      lib.newRequestErr "POST" (vars.BaseURL ++ path) = none →
      env1.api (uploadRequest (vars.BaseURL ++ path) requestBody contentType
        (GetTenantAccessToken lib vars env1 c).token) = .response status respBody →
      lib.unmarshalUpload respBody = .ok res → res.Code = 0 →
      (UploadFile lib vars env1 c path fileBytes fileName).fileKey = res.FileKey ∧
      (UploadFile lib vars env1 c path fileBytes fileName).err = none) := by
  refine ⟨?_, ?_, ?_⟩
  · rw [← DoRequest_eraseStatus lib codec vars env1, ← DoRequest_eraseStatus lib codec vars env2,
      hsame]
  · rw [← UploadFile_eraseStatus lib vars env1, ← UploadFile_eraseStatus lib vars env2, hsame]
  · intro status requestBody contentType respBody res hacq hmp hnew hresp hdec hcode
    rw [UploadFile_answered lib vars env1 c path fileBytes fileName requestBody contentType
      status respBody res hacq hmp hnew hresp hdec, if_neg (by simp [hcode])]
    exact ⟨rfl, rfl⟩

/-- Witness of C26: the same upload answered with the status 200 and with the
status 503, the body decoding to code 0 and the file key `fk_1` both times. -/
theorem status_code_ignored_witness :
    DoRequest (scenarioLib ⟨0, "ok", "other", 7200⟩ ⟨0, "", "fk_1"⟩) scenarioCodec Vars.initial (scenarioEnv 5 6 [1])
        (scenarioClient "test-token" 7200) "GET" "/im/v1/images" none (some [7])
      = DoRequest (scenarioLib ⟨0, "ok", "other", 7200⟩ ⟨0, "", "fk_1"⟩) scenarioCodec Vars.initial
        { scenarioEnv 5 6 [1] with api := fun _ => .response 503 [1] }
        (scenarioClient "test-token" 7200) "GET" "/im/v1/images" none (some [7]) ∧
    UploadFile (scenarioLib ⟨0, "ok", "other", 7200⟩ ⟨0, "", "fk_1"⟩) Vars.initial (scenarioEnv 5 6 [1]) (scenarioClient "test-token" 7200)
        "/im/v1/images" [1, 2, 3] "x.png"
      = UploadFile (scenarioLib ⟨0, "ok", "other", 7200⟩ ⟨0, "", "fk_1"⟩) Vars.initial
        { scenarioEnv 5 6 [1] with api := fun _ => .response 503 [1] }
        (scenarioClient "test-token" 7200) "/im/v1/images" [1, 2, 3] "x.png" ∧
    (UploadFile (scenarioLib ⟨0, "ok", "other", 7200⟩ ⟨0, "", "fk_1"⟩) Vars.initial
        { scenarioEnv 5 6 [1] with api := fun _ => .response 503 [1] }
        (scenarioClient "test-token" 7200) "/im/v1/images" [1, 2, 3] "x.png").fileKey
      = "fk_1" :=
  ⟨(status_code_ignored (scenarioLib ⟨0, "ok", "other", 7200⟩ ⟨0, "", "fk_1"⟩) scenarioCodec Vars.initial (scenarioEnv 5 6 [1])
      { scenarioEnv 5 6 [1] with api := fun _ => .response 503 [1] }
      (scenarioClient "test-token" 7200) "GET" "/im/v1/images" none (some [7]) [1, 2, 3] "x.png"
      rfl).1,
    (status_code_ignored (scenarioLib ⟨0, "ok", "other", 7200⟩ ⟨0, "", "fk_1"⟩) scenarioCodec Vars.initial (scenarioEnv 5 6 [1])
      { scenarioEnv 5 6 [1] with api := fun _ => .response 503 [1] }
      (scenarioClient "test-token" 7200) "GET" "/im/v1/images" none (some [7]) [1, 2, 3] "x.png"
      rfl).2.1,
    by decide⟩

/-- A produced credential comes from a response that decodes with code 0. -/
theorem exchangedCredential_some (lib : Lib) (env : Env) (req : Request)
    (credential : String × Time) (h : exchangedCredential lib env req = some credential) :
    ∃ status respBody result, env.exchange req = .response status respBody ∧
      lib.unmarshalToken respBody = .ok result ∧ result.Code = 0 ∧
      credential = (result.TenantAccessToken, env.nowInstall + secondsDuration result.Expire) := by
  unfold exchangedCredential at h
  cases hx : env.exchange req with
  | doFailed err => simp [hx] at h
  | readFailed status err => simp [hx] at h
  | response status respBody =>
    simp only [hx] at h
    cases hd : lib.unmarshalToken respBody with
    | error err => simp [hd] at h
    | ok result =>
      simp only [hd] at h
      by_cases hcode : result.Code = 0
      · rw [if_pos hcode, Option.some.injEq] at h
        exact ⟨status, respBody, result, rfl, hd, hcode, h.symm⟩
      · rw [if_neg hcode] at h
        cases h

/-- While the client holds the empty token and no exchange installs a
non-empty one, every call sends the exchange request. -/
theorem acquireAll_of_empty (lib : Lib) (vars : Vars) (req : Request)
    (hreq : lib.newRequestErr "POST" vars.TenantAccessTokenURL = none) :
    ∀ (later : List Env) (c : Client), c.tenantAccessToken = "" →
      c.exchangeRequest lib vars = req →
      (∀ e ∈ later, ∀ status respBody result,
        e.exchange req = .response status respBody →
        lib.unmarshalToken respBody = .ok result → result.Code = 0 →
        result.TenantAccessToken = "") →
      ∀ call ∈ acquireAll lib vars c later, call.requests = [req] := by
  intro later
  induction later with
  | nil => intro c _ _ _ call hcall; simp [acquireAll] at hcall
  | cons env later ih =>
    intro c hempty hc hlater call hcall
    have hmiss : c.expired env.nowCheck := fun h => h.1 hempty
    obtain ⟨hsame, _, hpair⟩ := GetTenantAccessToken_credential lib vars env c
    simp only [acquireAll, List.mem_cons] at hcall
    rcases hcall with h | h
    · subst h
      rw [GetTenantAccessToken_requests_of_expired lib vars env c hmiss hreq, hc]
    · refine ih (GetTenantAccessToken lib vars env c).client ?_ (hsame.trans hc)
        (fun e he => hlater e (List.mem_cons_of_mem _ he)) call h
      rcases hpair with hp | hp
      · have := congrArg Prod.fst hp
        simp only [Client.credential] at this
        rw [this, hempty]
      · rw [hc] at hp
        obtain ⟨status, respBody, result, hx, hd, hcode, hcred⟩ :=
          exchangedCredential_some lib env req _ hp
        have := congrArg Prod.fst hcred
        simp only [Client.credential] at this
        rw [this]
        exact hlater env (List.mem_cons_self _ _) status respBody result hx hd hcode

/-- C27. Empty token on success is never cached: when the exchange response
decodes with code 0 and the empty token, `GetTenantAccessToken` returns
`("", nil)`; the client then fails the cache test at every time, whatever the
reported lifetime, so the next call sends a new exchange request, and so does
every later call for as long as no exchange installs a non-empty token. -/
theorem GetTenantAccessToken_empty_token (lib : Lib) (vars : Vars) (env next : Env)
    (c : Client) (status : Nat) (respBody : Bytes) (result : TokenResult) (later : List Env)
    (hmiss : c.expired env.nowCheck)
    (hreq : lib.newRequestErr "POST" vars.TenantAccessTokenURL = none)
    (hresp : env.exchange (c.exchangeRequest lib vars) = .response status respBody)
    (hdec : lib.unmarshalToken respBody = .ok result)
    (hcode : result.Code = 0)
    (htoken : result.TenantAccessToken = "")
    (hlater : ∀ e ∈ later, ∀ status1 respBody1 result1,
      e.exchange (c.exchangeRequest lib vars) = .response status1 respBody1 →
      lib.unmarshalToken respBody1 = .ok result1 → result1.Code = 0 →
      result1.TenantAccessToken = "") :
    (GetTenantAccessToken lib vars env c).token = "" ∧
    (GetTenantAccessToken lib vars env c).err = none ∧
    (∀ now, (GetTenantAccessToken lib vars env c).client.expired now) ∧
    (GetTenantAccessToken lib vars next (GetTenantAccessToken lib vars env c).client).requests
      = [c.exchangeRequest lib vars] ∧
    (acquireAll lib vars (GetTenantAccessToken lib vars env c).client later).length
      = later.length ∧
    (∀ call ∈ acquireAll lib vars (GetTenantAccessToken lib vars env c).client later,
      call.requests = [c.exchangeRequest lib vars]) := by
  have h := GetTenantAccessToken_exchange lib vars env c status respBody result
    hmiss hreq hresp hdec
  rw [if_neg (by simp [hcode])] at h
  have hempty : (GetTenantAccessToken lib vars env c).client.tenantAccessToken = "" := by
    rw [h]
    exact htoken
  have hsame : (GetTenantAccessToken lib vars env c).client.exchangeRequest lib vars
      = c.exchangeRequest lib vars := (GetTenantAccessToken_credential lib vars env c).1
  refine ⟨by rw [h]; exact htoken, by rw [h], fun now hvalid => hvalid.1 hempty, ?_,
    acquireAll_length _ _ _ _, ?_⟩
  · rw [GetTenantAccessToken_requests_of_expired lib vars next _
      (fun hvalid => hvalid.1 hempty) hreq, hsame]
  · exact acquireAll_of_empty lib vars _ hreq later _ hempty hsame hlater

/-- Witness of C27: an exchange answered with code 0, no token and a lifetime
of 7200 s, then two more calls answered the same way. -/
theorem GetTenantAccessToken_empty_token_witness :
    (GetTenantAccessToken (scenarioLib ⟨0, "ok", "", 7200⟩ ⟨0, "", ""⟩) Vars.initial
      (scenarioEnv 5 6 []) (scenarioClient "" 0)).token = "" ∧
    (GetTenantAccessToken (scenarioLib ⟨0, "ok", "", 7200⟩ ⟨0, "", ""⟩) Vars.initial
      (scenarioEnv 5 6 []) (scenarioClient "" 0)).err = none ∧
    (∀ now, (GetTenantAccessToken (scenarioLib ⟨0, "ok", "", 7200⟩ ⟨0, "", ""⟩) Vars.initial
      (scenarioEnv 5 6 []) (scenarioClient "" 0)).client.expired now) ∧
    (GetTenantAccessToken (scenarioLib ⟨0, "ok", "", 7200⟩ ⟨0, "", ""⟩) Vars.initial
      (scenarioEnv 7 8 [])
      (GetTenantAccessToken (scenarioLib ⟨0, "ok", "", 7200⟩ ⟨0, "", ""⟩) Vars.initial
        (scenarioEnv 5 6 []) (scenarioClient "" 0)).client).requests
      = [(scenarioClient "" 0).exchangeRequest
          (scenarioLib ⟨0, "ok", "", 7200⟩ ⟨0, "", ""⟩) Vars.initial] ∧
    (acquireAll (scenarioLib ⟨0, "ok", "", 7200⟩ ⟨0, "", ""⟩) Vars.initial
      (GetTenantAccessToken (scenarioLib ⟨0, "ok", "", 7200⟩ ⟨0, "", ""⟩) Vars.initial
        (scenarioEnv 5 6 []) (scenarioClient "" 0)).client
      [scenarioEnv 7 8 [], scenarioEnv 9 10 []]).length = 2 ∧
    (∀ call ∈ acquireAll (scenarioLib ⟨0, "ok", "", 7200⟩ ⟨0, "", ""⟩) Vars.initial
      (GetTenantAccessToken (scenarioLib ⟨0, "ok", "", 7200⟩ ⟨0, "", ""⟩) Vars.initial
        (scenarioEnv 5 6 []) (scenarioClient "" 0)).client
      [scenarioEnv 7 8 [], scenarioEnv 9 10 []],
      call.requests = [(scenarioClient "" 0).exchangeRequest
        (scenarioLib ⟨0, "ok", "", 7200⟩ ⟨0, "", ""⟩) Vars.initial]) :=
  GetTenantAccessToken_empty_token (scenarioLib ⟨0, "ok", "", 7200⟩ ⟨0, "", ""⟩) Vars.initial
    (scenarioEnv 5 6 []) (scenarioEnv 7 8 []) (scenarioClient "" 0) 200 []
    ⟨0, "ok", "", 7200⟩ [scenarioEnv 7 8 [], scenarioEnv 9 10 []]
    (by decide) (by decide) rfl rfl rfl rfl
    (by
      intro e _ status1 respBody1 result1 _ hdec1 _
      have hres : result1 = ⟨0, "ok", "", 7200⟩ := by
        simp only [scenarioLib, Except.ok.injEq] at hdec1
        exact hdec1.symm
      rw [hres])

/-- The client after a `DoRequest` call is the client its credential
acquisition left. -/
theorem DoRequest_client {β ρ : Type} (lib : Lib) (codec : Codec β ρ) (vars : Vars)
    (env : Env) (c : Client) (method path : String) (body : Option β) (result : Option ρ) :
    (DoRequest lib codec vars env c method path body result).client
      = (GetTenantAccessToken lib vars env c).client := by
  unfold DoRequest
  simp only
  repeat' split
  all_goals rfl

/-- The client after an `UploadFile` call is the client its credential
acquisition left. -/
theorem UploadFile_client (lib : Lib) (vars : Vars) (env : Env) (c : Client)
    (path : String) (fileBytes : Bytes) (fileName : String) :
    (UploadFile lib vars env c path fileBytes fileName).client
      = (GetTenantAccessToken lib vars env c).client := by
  unfold UploadFile
  simp only
  repeat' split
  all_goals rfl

/-- C28, as stated, fails: a client that holds no token calls `DoRequest`; the
exchange succeeds with `test-token` and a lifetime of 9223372037 s, installed
at 6 ns, and the API request is then refused. The call returns an error and the
cache holds `test-token`, but with the expiry 6 ns - 9223372036709551616 ns and
not 6 ns + 9223372037 s, because the Duration wraps. -/
theorem refreshed_expiry_wraps_before_failed_request :
    (DoRequest (scenarioLib ⟨0, "ok", "test-token", 9223372037⟩ ⟨0, "", ""⟩) scenarioCodec Vars.initial
      { scenarioEnv 5 6 [] with api := fun _ => .doFailed (.errorString "connection refused") }
      (scenarioClient "" 0) "GET" "/test/api" none (some [7])).err
      = some (.wrapError "send request failed: connection refused"
          (.errorString "connection refused")) ∧
    (DoRequest (scenarioLib ⟨0, "ok", "test-token", 9223372037⟩ ⟨0, "", ""⟩) scenarioCodec Vars.initial
      { scenarioEnv 5 6 [] with api := fun _ => .doFailed (.errorString "connection refused") }
      (scenarioClient "" 0) "GET" "/test/api" none (some [7])).client.tenantAccessToken
      = "test-token" ∧
    (DoRequest (scenarioLib ⟨0, "ok", "test-token", 9223372037⟩ ⟨0, "", ""⟩) scenarioCodec Vars.initial
      { scenarioEnv 5 6 [] with api := fun _ => .doFailed (.errorString "connection refused") }
      (scenarioClient "" 0) "GET" "/test/api" none (some [7])).client.tokenExpireTime
      = 6 - 9223372036709551616 ∧
    (DoRequest (scenarioLib ⟨0, "ok", "test-token", 9223372037⟩ ⟨0, "", ""⟩) scenarioCodec Vars.initial
      { scenarioEnv 5 6 [] with api := fun _ => .doFailed (.errorString "connection refused") }
      (scenarioClient "" 0) "GET" "/test/api" none (some [7])).client.tokenExpireTime
      ≠ 6 + 9223372037 * Second := by
  decide

/-- C28, amended. A refresh survives a failed request: for every `DoRequest`
call and every `UploadFile` call that starts with an empty or expired cache and
whose token exchange succeeds with the token `k` and a lifetime of `e` seconds,
`|e| ≤ 9223372036`, the client afterwards holds the newly installed credential
`(k, install time + e seconds)`, whatever becomes of the API request; and when
the API request is sent with the token `k` and then fails, by a transport
error, an unreadable body or a body that does not decode, the call returns an
error. -/
theorem refresh_survives_failed_request {β ρ : Type} (lib : Lib) (codec : Codec β ρ)
    (vars : Vars) (env : Env) (c : Client) (method path : String) (body : Option β)
    (sink : Option ρ) (fileBytes : Bytes) (fileName : String)
    (status : Nat) (respBody : Bytes) (result : TokenResult)
    (hmiss : c.expired env.nowCheck)
    (hreq : lib.newRequestErr "POST" vars.TenantAccessTokenURL = none)
    (hresp : env.exchange (c.exchangeRequest lib vars) = .response status respBody)
    (hdec : lib.unmarshalToken respBody = .ok result)
    (hcode : result.Code = 0)
    (hlo : -9223372036 ≤ result.Expire) (hhi : result.Expire ≤ 9223372036) :
    (DoRequest lib codec vars env c method path body sink).client.credential
      = (result.TenantAccessToken, env.nowInstall + result.Expire * Second) ∧
    (UploadFile lib vars env c path fileBytes fileName).client.credential
      = (result.TenantAccessToken, env.nowInstall + result.Expire * Second) ∧
    (∀ reqBody, marshalBody codec body = .ok reqBody →
      lib.newRequestErr method (vars.BaseURL ++ path) = none →
      ((∃ err, env.api (apiRequest method (vars.BaseURL ++ path) reqBody
          result.TenantAccessToken) = .doFailed err) ∨
        (∃ status1 err, env.api (apiRequest method (vars.BaseURL ++ path) reqBody
          result.TenantAccessToken) = .readFailed status1 err) ∨
        (∃ status1 respBody1 sink0 sink1 cause, sink = some sink0 ∧
          env.api (apiRequest method (vars.BaseURL ++ path) reqBody
            result.TenantAccessToken) = .response status1 respBody1 ∧
          codec.unmarshal respBody1 sink0 = (sink1, some cause))) →
      (DoRequest lib codec vars env c method path body sink).err ≠ none) ∧
    (∀ requestBody contentType,
      env.multipart "file" fileName fileBytes = .encoded requestBody contentType →
      lib.newRequestErr "POST" (vars.BaseURL ++ path) = none →
      ((∃ err, env.api (uploadRequest (vars.BaseURL ++ path) requestBody contentType
          result.TenantAccessToken) = .doFailed err) ∨
        (∃ status1 err, env.api (uploadRequest (vars.BaseURL ++ path) requestBody contentType
          result.TenantAccessToken) = .readFailed status1 err) ∨
        (∃ status1 respBody1 cause,
          env.api (uploadRequest (vars.BaseURL ++ path) requestBody contentType
            result.TenantAccessToken) = .response status1 respBody1 ∧
          lib.unmarshalUpload respBody1 = .error cause)) →
      (UploadFile lib vars env c path fileBytes fileName).err ≠ none) := by
  have h := GetTenantAccessToken_exchange lib vars env c status respBody result
    hmiss hreq hresp hdec
  rw [if_neg (by simp [hcode]), secondsDuration_of_range _ hlo hhi] at h
  have hacq : (GetTenantAccessToken lib vars env c).err = none := by rw [h]
  have htok : (GetTenantAccessToken lib vars env c).token = result.TenantAccessToken := by
    rw [h]
  refine ⟨by rw [DoRequest_client, h]; rfl, by rw [UploadFile_client, h]; rfl, ?_, ?_⟩
  · intro reqBody hbody hnew hfail
    rw [DoRequest_dispatched lib codec vars env c method path body sink reqBody
      hacq hbody hnew, htok]
    rcases hfail with ⟨err, hx⟩ | ⟨status1, err, hx⟩ |
      ⟨status1, respBody1, sink0, sink1, cause, hsink, hx, hu⟩
    · simp [hx]
    · simp [hx]
    · subst hsink
      simp [hx, hu]
  · intro requestBody contentType hmp hnew hfail
    rcases hfail with ⟨err, hx⟩ | ⟨status1, err, hx⟩ | ⟨status1, respBody1, cause, hx, hu⟩
    · rw [← htok] at hx
      simp [UploadFile, hacq, hmp, hnew, hx]
    · rw [← htok] at hx
      simp [UploadFile, hacq, hmp, hnew, hx]
    · rw [← htok] at hx
      simp [UploadFile, hacq, hmp, hnew, hx, hu]

/-- Witness of C28: the exchange installs `test-token` for 7200 s at 6 ns and
the API request is refused; the cache holds the new credential. -/
theorem refresh_survives_failed_request_witness :
    (DoRequest (scenarioLib ⟨0, "ok", "test-token", 7200⟩ ⟨0, "", ""⟩) scenarioCodec Vars.initial
      { scenarioEnv 5 6 [] with api := fun _ => .doFailed (.errorString "connection refused") }
      (scenarioClient "" 0) "GET" "/test/api" none (some [7])).client.credential
      = ("test-token", 6 + 7200 * Second) ∧
    (DoRequest (scenarioLib ⟨0, "ok", "test-token", 7200⟩ ⟨0, "", ""⟩) scenarioCodec Vars.initial
      { scenarioEnv 5 6 [] with api := fun _ => .doFailed (.errorString "connection refused") }
      (scenarioClient "" 0) "GET" "/test/api" none (some [7])).err ≠ none :=
  ⟨(refresh_survives_failed_request (scenarioLib ⟨0, "ok", "test-token", 7200⟩ ⟨0, "", ""⟩) scenarioCodec Vars.initial
      { scenarioEnv 5 6 [] with api := fun _ => .doFailed (.errorString "connection refused") }
      (scenarioClient "" 0) "GET" "/test/api" none (some [7]) [1] "x.png" 200 []
      ⟨0, "ok", "test-token", 7200⟩ (by decide) (by decide) rfl rfl rfl
      (by decide) (by decide)).1,
    (refresh_survives_failed_request (scenarioLib ⟨0, "ok", "test-token", 7200⟩ ⟨0, "", ""⟩) scenarioCodec Vars.initial
      { scenarioEnv 5 6 [] with api := fun _ => .doFailed (.errorString "connection refused") }
      (scenarioClient "" 0) "GET" "/test/api" none (some [7]) [1] "x.png" 200 []
      ⟨0, "ok", "test-token", 7200⟩ (by decide) (by decide) rfl rfl rfl
      (by decide) (by decide)).2.2.1 none rfl (by decide)
      (Or.inl ⟨.errorString "connection refused", rfl⟩)⟩

/-- After the first id the loop puts `&` before every parameter. -/
theorem queryParamsLoop_pos (userIDs : List String) : ∀ (i : Nat) (queryParams : String),
    0 < i → queryParamsLoop i userIDs queryParams
      = userIDs.foldl (fun acc userID => acc ++ "&" ++ ("id_list=" ++ userID)) queryParams := by
  induction userIDs with
  | nil => intro i q _; rfl
  | cons u rest ih =>
    intro i q hi
    rw [queryParamsLoop, if_pos hi, ih (i + 1) _ (Nat.succ_pos i)]
    rfl

/-- The accumulating loop of `String.intercalate` as a fold. -/
theorem intercalate_go_eq (sep : String) (parts : List String) : ∀ acc : String,
    String.intercalate.go acc sep parts = parts.foldl (fun a part => a ++ sep ++ part) acc := by
  induction parts with
  | nil => intro acc; rfl
  | cons part parts ih =>
    intro acc
    rw [String.intercalate.go, ih]
    rfl

/-- A text before the accumulator stays before the joined text. -/
theorem foldl_append_left {α : Type} (sep : String) (f : α → String) (items : List α) :
    ∀ (head acc : String),
    items.foldl (fun a item => a ++ sep ++ f item) (head ++ acc)
      = head ++ items.foldl (fun a item => a ++ sep ++ f item) acc := by
  induction items with
  | nil => intro head acc; rfl
  | cons item items ih =>
    intro head acc
    simp only [List.foldl_cons]
    rw [String.append_assoc, String.append_assoc, ih, String.append_assoc]

/-- The loop of `RemoveGroupMember` builds the query string of the
specification. -/
theorem queryParamsLoop_eq_joinedQuery (userIDs : List String) :
    queryParamsLoop 0 userIDs "?" = joinedQuery userIDs := by
  cases userIDs with
  | nil => rfl
  | cons u rest =>
    rw [queryParamsLoop, if_neg (by decide), queryParamsLoop_pos rest 1 _ (by decide)]
    simp only [joinedQuery, List.map_cons, String.intercalate, intercalate_go_eq,
      List.foldl_map]
    exact foldl_append_left "&" (fun userID => "id_list=" ++ userID) rest "?" _

/-- C29. RemoveGroupMember query string: for every chat id and every list of
user ids, the effects of `RemoveGroupMember` are those of one `DoRequest` call
with the method DELETE, no body and the path `/im/v1/chats/` ++ chat id ++
`/members` ++ the query string of the specification, `?` followed by the ids
rendered as `id_list=` ++ id and joined by `&` in the given order, the ids as
they are. For the empty list the query string is the bare `?`; for a list that
starts with `u` it starts with `?id_list=` ++ `u`, no `&` before; for a list
that ends with `u` it ends with `id_list=` ++ `u`, no `&` after. -/
theorem RemoveGroupMember_path (lib : Lib) (codec : Codec Value APIResponse) (vars : Vars)
    (env : Env) (c : Client) (chatID : String) (userIDs : List String) :
    (MessageService.RemoveGroupMember lib codec vars env c chatID userIDs).requests
      = (DoRequest lib codec vars env c "DELETE"
          ("/im/v1/chats/" ++ chatID ++ "/members" ++ joinedQuery userIDs) none
          (some APIResponse.zero)).requests ∧
    (MessageService.RemoveGroupMember lib codec vars env c chatID userIDs).client
      = (DoRequest lib codec vars env c "DELETE"
          ("/im/v1/chats/" ++ chatID ++ "/members" ++ joinedQuery userIDs) none
          (some APIResponse.zero)).client ∧
    queryParamsLoop 0 userIDs "?" = joinedQuery userIDs ∧
    joinedQuery [] = "?" ∧
    (∀ u rest, userIDs = u :: rest →
      ∃ tail, joinedQuery userIDs = "?" ++ ("id_list=" ++ u) ++ tail) ∧
    (∀ init u, userIDs = init ++ [u] →
      ∃ head, joinedQuery userIDs = head ++ ("id_list=" ++ u)) ∧
    ((GetTenantAccessToken lib vars env c).err = none →
      lib.newRequestErr "DELETE"
        (vars.BaseURL ++ ("/im/v1/chats/" ++ chatID ++ "/members" ++ joinedQuery userIDs))
        = none →
      (MessageService.RemoveGroupMember lib codec vars env c chatID userIDs).requests
        = (GetTenantAccessToken lib vars env c).requests ++
          [apiRequest "DELETE"
            (vars.BaseURL ++ ("/im/v1/chats/" ++ chatID ++ "/members" ++ joinedQuery userIDs))
            none (GetTenantAccessToken lib vars env c).token]) := by
  have htr := translatesEnvelope_of_check
    (DoRequest lib codec vars env c "DELETE"
      ("/im/v1/chats/" ++ chatID ++ "/members" ++ queryParamsLoop 0 userIDs "?") none
      (some APIResponse.zero))
    APIResponse.zero (fun res => res.Code) (fun res => res.Msg) () (fun _ => ())
    (DoRequest_result_some _ _ _ _ _ _ _ _ _)
  have hreqs : (MessageService.RemoveGroupMember lib codec vars env c chatID userIDs).requests
      = (DoRequest lib codec vars env c "DELETE"
          ("/im/v1/chats/" ++ chatID ++ "/members" ++ queryParamsLoop 0 userIDs "?") none
          (some APIResponse.zero)).requests := htr.2.1
  have hclient : (MessageService.RemoveGroupMember lib codec vars env c chatID userIDs).client
      = (DoRequest lib codec vars env c "DELETE"
          ("/im/v1/chats/" ++ chatID ++ "/members" ++ queryParamsLoop 0 userIDs "?") none
          (some APIResponse.zero)).client := htr.1
  rw [queryParamsLoop_eq_joinedQuery] at hreqs hclient
  refine ⟨hreqs, hclient, queryParamsLoop_eq_joinedQuery userIDs, rfl, ?_, ?_, ?_⟩
  · intro u rest hu
    subst hu
    refine ⟨rest.foldl (fun a userID => a ++ "&" ++ ("id_list=" ++ userID)) "", ?_⟩
    simp only [joinedQuery, List.map_cons, String.intercalate, intercalate_go_eq,
      List.foldl_map]
    have h := foldl_append_left "&" (fun userID => "id_list=" ++ userID) rest
      ("id_list=" ++ u) ""
    rw [String.append_empty] at h
    rw [h]
    simp only [String.append_assoc]
  · intro init u hu
    subst hu
    rw [← queryParamsLoop_eq_joinedQuery]
    cases init with
    | nil => exact ⟨"?", rfl⟩
    | cons a init =>
      refine ⟨init.foldl (fun acc userID => acc ++ "&" ++ ("id_list=" ++ userID))
        ("?" ++ ("id_list=" ++ a)) ++ "&", ?_⟩
      rw [List.cons_append, queryParamsLoop, if_neg (by decide),
        queryParamsLoop_pos _ 1 _ (by decide), List.foldl_append]
      rfl
  · intro hacq hnew
    rw [hreqs, DoRequest_requests, hacq]
    simp only [marshalBody, hnew]

/-- Witness of C29: the members `u1` and `u2` removed from the chat `oc_1`. -/
theorem RemoveGroupMember_path_witness :
    (MessageService.RemoveGroupMember (scenarioLib ⟨0, "ok", "other", 7200⟩ ⟨0, "", ""⟩) (scenarioServiceCodec APIResponse.zero)
      Vars.initial (scenarioEnv 5 6 [1]) (scenarioClient "test-token" 7200) "oc_1"
      ["u1", "u2"]).requests
      = (GetTenantAccessToken (scenarioLib ⟨0, "ok", "other", 7200⟩ ⟨0, "", ""⟩) Vars.initial (scenarioEnv 5 6 [1])
          (scenarioClient "test-token" 7200)).requests ++
        [apiRequest "DELETE"
          (Vars.initial.BaseURL ++ "/im/v1/chats/oc_1/members?id_list=u1&id_list=u2") none
          (GetTenantAccessToken (scenarioLib ⟨0, "ok", "other", 7200⟩ ⟨0, "", ""⟩) Vars.initial (scenarioEnv 5 6 [1])
            (scenarioClient "test-token" 7200)).token] :=
  ((RemoveGroupMember_path (scenarioLib ⟨0, "ok", "other", 7200⟩ ⟨0, "", ""⟩) (scenarioServiceCodec APIResponse.zero)
    Vars.initial (scenarioEnv 5 6 [1]) (scenarioClient "test-token" 7200) "oc_1"
    ["u1", "u2"]).2.2.2.2.2.2 (by decide) (by decide)).trans (by decide)

/-- C30. AddSheet result guard: `AddSheet` makes one `DoRequest` call and never
panics on the index expression of the first reply; whenever it returns a nil
error, the returned sheet id is non-empty and is the sheet id of the first
reply in the decoded response; when the call succeeds with the code 0 but the
reply list is empty or the sheet id of the first reply is empty, it returns
the empty id and the error `failed to get sheet ID`. -/
theorem AddSheet_guard (lib : Lib) (codec : Codec Value (Envelope AddSheetData))
    (vars : Vars) (env : Env) (c : Client) (sheetToken title : String) :
    ∃ res,
      (DoRequest lib codec vars env c "POST"
        ("/sheets/v3/spreadsheets/" ++ sheetToken ++ "/sheets_batch_update")
        (some (Value.map [("requests", .slice [.map [
          ("addSheet", .map [("properties", .map [("title", .string title)])])]])]))
        (some (Envelope.zero (AddSheetData.mk [])))).result = some res ∧
      AddSheetGuard
        (DoRequest lib codec vars env c "POST"
        ("/sheets/v3/spreadsheets/" ++ sheetToken ++ "/sheets_batch_update")
        (some (Value.map [("requests", .slice [.map [
          ("addSheet", .map [("properties", .map [("title", .string title)])])]])]))
        (some (Envelope.zero (AddSheetData.mk []))))
        res (SheetService.AddSheet lib codec vars env c sheetToken title) := by
  obtain ⟨res, hres⟩ := DoRequest_result_some lib codec vars env c "POST"
    ("/sheets/v3/spreadsheets/" ++ sheetToken ++ "/sheets_batch_update")
    (some (Value.map [("requests", .slice [.map [
      ("addSheet", .map [("properties", .map [("title", .string title)])])]])]))
    (Envelope.zero (AddSheetData.mk []))
  refine ⟨res, hres, ?_⟩
  unfold SheetService.AddSheet AddSheetGuard
  simp only [hres, Option.getD_some]
  cases herr : (DoRequest lib codec vars env c "POST"
        ("/sheets/v3/spreadsheets/" ++ sheetToken ++ "/sheets_batch_update")
        (some (Value.map [("requests", .slice [.map [
          ("addSheet", .map [("properties", .map [("title", .string title)])])]])]))
        (some (Envelope.zero (AddSheetData.mk [])))).err with
  | some err =>
    refine ⟨⟨_, rfl, rfl, rfl⟩, ?_, ?_⟩
    · intro r hr hnil
      simp only [Option.some.injEq] at hr
      rw [← hr] at hnil
      cases hnil
    · intro h
      cases h
  | none =>
    simp only
    by_cases hcode : res.Code ≠ 0
    · rw [if_pos hcode]
      refine ⟨⟨_, rfl, rfl, rfl⟩, ?_, ?_⟩
      · intro r hr hnil
        simp only [Option.some.injEq] at hr
        rw [← hr] at hnil
        cases hnil
      · intro _ hzero
        exact absurd hzero hcode
    · rw [if_neg hcode]
      cases hrep : res.Data.Replies with
      | nil =>
        simp only [List.length_nil, if_true]
        refine ⟨⟨_, rfl, rfl, rfl⟩, ?_, ?_⟩
        · intro r hr hnil
          simp only [Option.some.injEq] at hr
          rw [← hr] at hnil
          cases hnil
        · intro _ _ _
          exact ⟨_, rfl, rfl, rfl⟩
      | cons reply rest =>
        simp only [List.length_cons, Nat.add_one_ne_zero, if_false, List.getElem?_cons_zero,
          Option.map_some']
        by_cases hid : reply.SheetID = ""
        · simp only [hid, decide_True]
          refine ⟨⟨_, rfl, rfl, rfl⟩, ?_, ?_⟩
          · intro r hr hnil
            simp only [Option.some.injEq] at hr
            rw [← hr] at hnil
            cases hnil
          · intro _ _ _
            exact ⟨_, rfl, rfl, rfl⟩
        · simp only [hid, decide_False]
          refine ⟨⟨_, rfl, rfl, rfl⟩, ?_, ?_⟩
          · intro r hr _
            simp only [Option.some.injEq] at hr
            rw [← hr]
            exact ⟨hid, reply, rest, rfl, rfl⟩
          · intro _ _ hbad
            rcases hbad with h | ⟨reply1, rest1, h, hempty⟩
            · cases h
            · simp only [List.cons.injEq] at h
              rw [h.1] at hid
              exact absurd hempty hid

/-- Witness of C30: the sheet `New` added to `sheet123`, the endpoint answering
with one reply whose sheet id is `sheet_1`. -/
theorem AddSheet_guard_witness :
    ∃ res,
      (DoRequest (scenarioLib ⟨0, "ok", "other", 7200⟩ ⟨0, "", ""⟩) (scenarioServiceCodec
          (⟨0, "ok", ⟨[⟨"sheet_1"⟩]⟩⟩ : Envelope AddSheetData))
        Vars.initial (scenarioEnv 5 6 [1]) (scenarioClient "test-token" 7200) "POST"
        ("/sheets/v3/spreadsheets/" ++ "sheet123" ++ "/sheets_batch_update")
        (some (Value.map [("requests", .slice [.map [
          ("addSheet", .map [("properties", .map [("title", .string "New")])])]])]))
        (some (Envelope.zero (AddSheetData.mk [])))).result = some res ∧
      AddSheetGuard
        (DoRequest (scenarioLib ⟨0, "ok", "other", 7200⟩ ⟨0, "", ""⟩) (scenarioServiceCodec
          (⟨0, "ok", ⟨[⟨"sheet_1"⟩]⟩⟩ : Envelope AddSheetData))
        Vars.initial (scenarioEnv 5 6 [1]) (scenarioClient "test-token" 7200) "POST"
        ("/sheets/v3/spreadsheets/" ++ "sheet123" ++ "/sheets_batch_update")
        (some (Value.map [("requests", .slice [.map [
          ("addSheet", .map [("properties", .map [("title", .string "New")])])]])]))
        (some (Envelope.zero (AddSheetData.mk []))))
        res
        (SheetService.AddSheet (scenarioLib ⟨0, "ok", "other", 7200⟩ ⟨0, "", ""⟩) (scenarioServiceCodec
          (⟨0, "ok", ⟨[⟨"sheet_1"⟩]⟩⟩ : Envelope AddSheetData))
          Vars.initial (scenarioEnv 5 6 [1]) (scenarioClient "test-token" 7200) "sheet123"
          "New") :=
  AddSheet_guard (scenarioLib ⟨0, "ok", "other", 7200⟩ ⟨0, "", ""⟩) (scenarioServiceCodec
    (⟨0, "ok", ⟨[⟨"sheet_1"⟩]⟩⟩ : Envelope AddSheetData))
    Vars.initial (scenarioEnv 5 6 [1]) (scenarioClient "test-token" 7200) "sheet123" "New"

/-- The errors of `GetTenantAccessToken` are values of `fmt.Errorf`: a cause
wrapped after one of the stage texts, or the message of the envelope after
`get tenant_access_token failed: `. -/
theorem GetTenantAccessToken_error_stage (lib : Lib) (vars : Vars) (env : Env) (c : Client)
    (e : GoError) (h : (GetTenantAccessToken lib vars env c).err = some e) :
    (∃ stage ∈ stageTexts, ∃ cause, e = Errorf_w stage cause) ∨
    (∃ msg, e = Errorf_s "get tenant_access_token failed: " msg) := by
  unfold GetTenantAccessToken marshalIdentity at h
  by_cases hhit : c.tenantAccessToken ≠ "" ∧ env.nowCheck < c.tokenExpireTime
  · rw [if_pos hhit] at h
    cases h
  · rw [if_neg hhit] at h
    simp only at h
    cases hn : lib.newRequestErr "POST" vars.TenantAccessTokenURL with
    | some err =>
      simp only [hn, Option.some.injEq] at h
      exact Or.inl ⟨_, by simp [stageTexts], err, h.symm⟩
    | none =>
      simp only [hn] at h
      cases hx : env.exchange (exchangeRequest vars (identityJSON lib c.AppID c.AppSecret)) with
      | doFailed err =>
        simp only [hx, Option.some.injEq] at h
        exact Or.inl ⟨_, by simp [stageTexts], err, h.symm⟩
      | readFailed status err =>
        simp only [hx, Option.some.injEq] at h
        exact Or.inl ⟨_, by simp [stageTexts], err, h.symm⟩
      | response status respBody =>
        simp only [hx] at h
        cases hd : lib.unmarshalToken respBody with
        | error err =>
          simp only [hd, Option.some.injEq] at h
          exact Or.inl ⟨_, by simp [stageTexts], err, h.symm⟩
        | ok result =>
          simp only [hd] at h
          by_cases hcode : result.Code ≠ 0
          · rw [if_pos hcode, Option.some.injEq] at h
            exact Or.inr ⟨result.Msg, h.symm⟩
          · rw [if_neg hcode] at h
            cases h

/-- The errors of `DoRequest` are values of `fmt.Errorf` of the same kinds. -/
theorem DoRequest_error_stage {β ρ : Type} (lib : Lib) (codec : Codec β ρ) (vars : Vars)
    (env : Env) (c : Client) (method path : String) (body : Option β) (result : Option ρ)
    (e : GoError) (h : (DoRequest lib codec vars env c method path body result).err = some e) :
    (∃ stage ∈ stageTexts, ∃ cause, e = Errorf_w stage cause) ∨
    (∃ msg, e = Errorf_s "get tenant_access_token failed: " msg) := by
  unfold DoRequest at h
  simp only at h
  cases hacq : (GetTenantAccessToken lib vars env c).err with
  | some err =>
    simp only [hacq, Option.some.injEq] at h
    rw [← h]
    exact GetTenantAccessToken_error_stage lib vars env c err hacq
  | none =>
    simp only [hacq] at h
    cases hb : marshalBody codec body with
    | error err =>
      simp only [hb, Option.some.injEq] at h
      exact Or.inl ⟨_, by simp [stageTexts], err, h.symm⟩
    | ok reqBody =>
      simp only [hb] at h
      cases hn : lib.newRequestErr method (vars.BaseURL ++ path) with
      | some err =>
        simp only [hn, Option.some.injEq] at h
        exact Or.inl ⟨_, by simp [stageTexts], err, h.symm⟩
      | none =>
        simp only [hn] at h
        cases hx : env.api (apiRequest method (vars.BaseURL ++ path) reqBody
          (GetTenantAccessToken lib vars env c).token) with
        | doFailed err =>
          simp only [hx, Option.some.injEq] at h
          exact Or.inl ⟨_, by simp [stageTexts], err, h.symm⟩
        | readFailed status err =>
          simp only [hx, Option.some.injEq] at h
          exact Or.inl ⟨_, by simp [stageTexts], err, h.symm⟩
        | response status respBody =>
          simp only [hx] at h
          cases result with
          | none => cases h
          | some sink =>
            simp only at h
            cases hu : codec.unmarshal respBody sink with
            | mk sink1 uerr =>
              cases uerr with
              | none =>
                simp only [hu] at h
                cases h
              | some err =>
                simp only [hu, Option.some.injEq] at h
                exact Or.inl ⟨_, by simp [stageTexts], err, h.symm⟩

/-- Two texts that start with different stage texts are different. -/
theorem stageTexts_distinguish :
    ∀ p ∈ stageTexts, ∀ q ∈ stageTexts, p ≠ q → ∀ x y : String, p ++ x ≠ q ++ y := by
  have hhead : ∀ p ∈ stageTexts, ∀ q ∈ stageTexts, p ≠ q →
      p.data.head? ≠ q.data.head? ∧ p.data ≠ [] ∧ q.data ≠ [] := by
    decide
  intro p hp q hq hpq x y hxy
  obtain ⟨hne, hpd, hqd⟩ := hhead p hp q hq hpq
  have hdata := congrArg (fun s => s.data.head?) hxy
  simp only [String.data_append, List.head?_append_of_ne_nil _ hpd,
    List.head?_append_of_ne_nil _ hqd] at hdata
  exact hne hdata

/-- C23, as stated, fails, twice. First, a failed token exchange and a failed
decode give the same error: with every request answered by an empty body, a
client without a token fails in the exchange and a client that holds
`test-token` fails decoding the API response, and both `DoRequest` calls return
the value of `fmt.Errorf` with the text `unmarshal response body failed:
unexpected end of JSON input`. Second, the same transport failure during the
exchange and during the API request gives the same error: with every connection
refused, `DoRequest("POST", "/auth/v3/tenant_access_token/internal", nil, sink)`
sends one POST to the same URL in both states of the client, and both calls
return `send request failed: ` wrapping the same error of the transport. -/
theorem exchange_and_request_failures_coincide :
    ((DoRequest (emptyRejectingLib ⟨0, "ok", "other", 7200⟩ ⟨0, "", ""⟩) emptyRejectingCodec
        Vars.initial (scenarioEnv 5 6 []) (scenarioClient "" 0) "GET" "/test/api" none
        (some [7])).err
      = some (.wrapError "unmarshal response body failed: unexpected end of JSON input"
          (.errorString "unexpected end of JSON input")) ∧
    (DoRequest (emptyRejectingLib ⟨0, "ok", "other", 7200⟩ ⟨0, "", ""⟩) emptyRejectingCodec
        Vars.initial (scenarioEnv 5 6 []) (scenarioClient "" 0) "GET" "/test/api" none
        (some [7])).requests.map Request.url = [Vars.initial.TenantAccessTokenURL] ∧
    (GetTenantAccessToken (emptyRejectingLib ⟨0, "ok", "other", 7200⟩ ⟨0, "", ""⟩)
        Vars.initial (scenarioEnv 5 6 []) (scenarioClient "test-token" 7200)).err = none ∧
    (DoRequest (emptyRejectingLib ⟨0, "ok", "other", 7200⟩ ⟨0, "", ""⟩) emptyRejectingCodec
        Vars.initial (scenarioEnv 5 6 []) (scenarioClient "test-token" 7200) "GET" "/test/api"
        none (some [7])).err
      = some (.wrapError "unmarshal response body failed: unexpected end of JSON input"
          (.errorString "unexpected end of JSON input")) ∧
    (DoRequest (emptyRejectingLib ⟨0, "ok", "other", 7200⟩ ⟨0, "", ""⟩) emptyRejectingCodec
        Vars.initial (scenarioEnv 5 6 []) (scenarioClient "test-token" 7200) "GET" "/test/api"
        none (some [7])).requests.map Request.url
      = [Vars.initial.BaseURL ++ "/test/api"]) ∧
    ((DoRequest (scenarioLib ⟨0, "ok", "other", 7200⟩ ⟨0, "", ""⟩) scenarioCodec Vars.initial
        refusingEnv (scenarioClient "" 0) "POST" "/auth/v3/tenant_access_token/internal" none
        (some [7])).err
      = (DoRequest (scenarioLib ⟨0, "ok", "other", 7200⟩ ⟨0, "", ""⟩) scenarioCodec Vars.initial
        refusingEnv (scenarioClient "test-token" 7200) "POST"
        "/auth/v3/tenant_access_token/internal" none (some [7])).err ∧
    (DoRequest (scenarioLib ⟨0, "ok", "other", 7200⟩ ⟨0, "", ""⟩) scenarioCodec Vars.initial
        refusingEnv (scenarioClient "" 0) "POST" "/auth/v3/tenant_access_token/internal" none
        (some [7])).err.map GoError.Error
      = some ("send request failed: Post " ++
          "\"https://open.feishu.cn/open-apis/auth/v3/tenant_access_token/internal\": " ++
          "dial tcp 203.0.113.1:443: connect: connection refused") ∧
    (DoRequest (scenarioLib ⟨0, "ok", "other", 7200⟩ ⟨0, "", ""⟩) scenarioCodec Vars.initial
        refusingEnv (scenarioClient "" 0) "POST" "/auth/v3/tenant_access_token/internal" none
        (some [7])).requests
      = [(scenarioClient "" 0).exchangeRequest
          (scenarioLib ⟨0, "ok", "other", 7200⟩ ⟨0, "", ""⟩) Vars.initial] ∧
    (GetTenantAccessToken (scenarioLib ⟨0, "ok", "other", 7200⟩ ⟨0, "", ""⟩) Vars.initial
        refusingEnv (scenarioClient "test-token" 7200)).err = none ∧
    (DoRequest (scenarioLib ⟨0, "ok", "other", 7200⟩ ⟨0, "", ""⟩) scenarioCodec Vars.initial
        refusingEnv (scenarioClient "test-token" 7200) "POST"
        "/auth/v3/tenant_access_token/internal" none (some [7])).requests
      = [apiRequest "POST" Vars.initial.TenantAccessTokenURL none "test-token"]) := by
  decide

/-- C23, amended. Staged failures: a failing `DoRequest` call returns a value
of `fmt.Errorf`, not a typed failure, whose text starts with the text of the
step that failed. An error of the acquisition is returned unchanged; in the
exchange a request `http.NewRequest` rejects gives `create request failed: `, a
transport failure `send request failed: `, an unreadable body `read response
body failed: `, an undecodable body `unmarshal response body failed: `, each
wrapping its cause, and an answer with a non-zero code gives
`get tenant_access_token failed: ` followed by the message of the auth
endpoint. After a successful acquisition a body that does not serialise gives
`marshal request body failed: `, a rejected request `create request failed: `,
a transport failure `send request failed: `, an unreadable body `read response
body failed: ` and a body that does not decode into the sink `unmarshal
response body failed: `, each wrapping its cause. There are no other errors,
and texts that start with different step texts are different, so a transport
failure, a failure to decode and a rejection by the auth endpoint are pairwise
distinguishable by their text; the exchange and the API request share the step
texts, so only the cause tells a step of the one from the same step of the
other. -/
theorem DoRequest_errors_by_stage {β ρ : Type} (lib : Lib) (codec : Codec β ρ) (vars : Vars)
    (env : Env) (c : Client) (method path : String) (body : Option β) (result : Option ρ) :
    (∀ e, (GetTenantAccessToken lib vars env c).err = some e →
      (DoRequest lib codec vars env c method path body result).err = some e) ∧
    (c.expired env.nowCheck →
      (∀ err, lib.newRequestErr "POST" vars.TenantAccessTokenURL = some err →
        (GetTenantAccessToken lib vars env c).err
          = some (Errorf_w "create request failed: " err)) ∧
      (lib.newRequestErr "POST" vars.TenantAccessTokenURL = none →
        (∀ err, env.exchange (c.exchangeRequest lib vars) = .doFailed err →
          (GetTenantAccessToken lib vars env c).err
            = some (Errorf_w "send request failed: " err)) ∧
        (∀ status err, env.exchange (c.exchangeRequest lib vars) = .readFailed status err →
          (GetTenantAccessToken lib vars env c).err
            = some (Errorf_w "read response body failed: " err)) ∧
        (∀ status respBody,
          env.exchange (c.exchangeRequest lib vars) = .response status respBody →
          (∀ err, lib.unmarshalToken respBody = .error err →
            (GetTenantAccessToken lib vars env c).err
              = some (Errorf_w "unmarshal response body failed: " err)) ∧
          (∀ answer, lib.unmarshalToken respBody = .ok answer → answer.Code ≠ 0 →
            (GetTenantAccessToken lib vars env c).err
              = some (Errorf_s "get tenant_access_token failed: " answer.Msg))))) ∧
    ((GetTenantAccessToken lib vars env c).err = none →
      (∀ err, marshalBody codec body = .error err →
        (DoRequest lib codec vars env c method path body result).err
          = some (Errorf_w "marshal request body failed: " err)) ∧
      (∀ reqBody, marshalBody codec body = .ok reqBody →
        (∀ err, lib.newRequestErr method (vars.BaseURL ++ path) = some err →
          (DoRequest lib codec vars env c method path body result).err
            = some (Errorf_w "create request failed: " err)) ∧
        (lib.newRequestErr method (vars.BaseURL ++ path) = none →
          (∀ err, env.api (apiRequest method (vars.BaseURL ++ path) reqBody
              (GetTenantAccessToken lib vars env c).token) = .doFailed err →
            (DoRequest lib codec vars env c method path body result).err
              = some (Errorf_w "send request failed: " err)) ∧
          (∀ status err, env.api (apiRequest method (vars.BaseURL ++ path) reqBody
              (GetTenantAccessToken lib vars env c).token) = .readFailed status err →
            (DoRequest lib codec vars env c method path body result).err
              = some (Errorf_w "read response body failed: " err)) ∧
          (∀ status respBody sink sink1 err,
            env.api (apiRequest method (vars.BaseURL ++ path) reqBody
              (GetTenantAccessToken lib vars env c).token) = .response status respBody →
            result = some sink → codec.unmarshal respBody sink = (sink1, some err) →
            (DoRequest lib codec vars env c method path body result).err
              = some (Errorf_w "unmarshal response body failed: " err))))) ∧
    (∀ e, (DoRequest lib codec vars env c method path body result).err = some e →
      (∃ stage ∈ stageTexts, ∃ cause, e = Errorf_w stage cause ∧ e.Unwrap = some cause ∧
          e.Error = stage ++ cause.Error) ∨
        (∃ msg, e = Errorf_s "get tenant_access_token failed: " msg ∧ e.Unwrap = none ∧
          e.Error = "get tenant_access_token failed: " ++ msg)) ∧
    (∀ p ∈ stageTexts, ∀ q ∈ stageTexts, p ≠ q → ∀ x y : String, p ++ x ≠ q ++ y) := by
  refine ⟨?_, ?_, ?_, ?_, stageTexts_distinguish⟩
  · intro e he
    simp only [DoRequest, he]
  · intro hmiss
    unfold Client.expired at hmiss
    unfold Client.exchangeRequest
    refine ⟨?_, ?_⟩
    · intro err hn
      simp only [GetTenantAccessToken, if_neg hmiss, marshalIdentity, hn]
    · intro hn
      refine ⟨?_, ?_, ?_⟩
      · intro err hx
        simp only [GetTenantAccessToken, if_neg hmiss, marshalIdentity, hn, hx]
      · intro status err hx
        simp only [GetTenantAccessToken, if_neg hmiss, marshalIdentity, hn, hx]
      · intro status respBody hx
        refine ⟨?_, ?_⟩
        · intro err hd
          simp only [GetTenantAccessToken, if_neg hmiss, marshalIdentity, hn, hx, hd]
        · intro answer hd hcode
          simp only [GetTenantAccessToken, if_neg hmiss, marshalIdentity, hn, hx, hd,
            if_pos hcode]
  · intro hacq
    refine ⟨?_, ?_⟩
    · intro err hb
      simp only [DoRequest, hacq, hb]
    · intro reqBody hb
      refine ⟨?_, ?_⟩
      · intro err hn
        simp only [DoRequest, hacq, hb, hn]
      · intro hn
        refine ⟨?_, ?_, ?_⟩
        · intro err hx
          simp only [DoRequest, hacq, hb, hn, hx]
        · intro status err hx
          simp only [DoRequest, hacq, hb, hn, hx]
        · intro status respBody sink sink1 err hx hres hu
          subst hres
          simp only [DoRequest, hacq, hb, hn, hx, hu]
  · intro e he
    rcases DoRequest_error_stage lib codec vars env c method path body result e he with
      ⟨stage, hstage, cause, hcause⟩ | ⟨msg, hmsg⟩
    · subst hcause
      exact Or.inl ⟨stage, hstage, cause, rfl, rfl, rfl⟩
    · subst hmsg
      exact Or.inr ⟨msg, rfl, rfl, rfl⟩

/-- Witness of C23: a client that holds `test-token` finds the connection of its
API request refused; the error is the cause wrapped after `send request
failed: `, and no other step text. -/
theorem DoRequest_errors_by_stage_witness :
    (DoRequest (scenarioLib ⟨0, "ok", "other", 7200⟩ ⟨0, "", ""⟩) scenarioCodec Vars.initial
      refusingEnv (scenarioClient "test-token" 7200) "GET" "/test/api" none (some [7])).err
      = some (Errorf_w "send request failed: "
          (urlError (apiRequest "GET" (Vars.initial.BaseURL ++ "/test/api") none "test-token")
            (.errorString "dial tcp 203.0.113.1:443: connect: connection refused"))) :=
  ((((DoRequest_errors_by_stage (scenarioLib ⟨0, "ok", "other", 7200⟩ ⟨0, "", ""⟩)
    scenarioCodec Vars.initial refusingEnv (scenarioClient "test-token" 7200) "GET" "/test/api"
    none (some [7])).2.2.1 (by decide)).2 none rfl).2 (by decide)).1 _ rfl

/-! ## Properties of the JSON codec -/

/-- A character is a Unicode scalar value: below the surrogates, or above them and
below 0x110000. -/
theorem char_range (ch : Char) :
    ch.toNat < 0xD800 ∨ (0xDFFF < ch.toNat ∧ ch.toNat < 0x110000) := by
  have h := ch.valid
  simp only [UInt32.isValidChar, Nat.isValidChar] at h
  exact h

set_option maxRecDepth 8000 in
/-- Decoding the UTF-8 encoding of a character gives the character and the bytes
after the encoding. -/
theorem utf8DecodeRune_encode (ch : Char) (rest : Bytes) :
    utf8DecodeRune (utf8EncodeChar ch ++ rest) = (ch, rest) := by
  have hr := char_range ch
  have hback := Char.ofNat_toNat ch
  unfold utf8EncodeChar
  generalize ch.toNat = n at hr hback
  subst hback
  by_cases h1 : n < 0x80
  · rw [if_pos h1]
    have hv : (Fin.ofNat n : Fin 256).val = n := by show n % 256 = n; omega
    simp only [List.singleton_append, utf8DecodeRune, hv, if_pos h1]
  · rw [if_neg h1]
    by_cases h2 : n < 0x800
    · rw [if_pos h2]
      have hv0 : (Fin.ofNat (0xC0 + n / 0x40) : Fin 256).val = 0xC0 + n / 0x40 := by
        show (0xC0 + n / 0x40) % 256 = _; omega
      have hv1 : (Fin.ofNat (0x80 + n % 0x40) : Fin 256).val = 0x80 + n % 0x40 := by
        show (0x80 + n % 0x40) % 256 = _; omega
      have hc1 : isContinuation (Fin.ofNat (0x80 + n % 0x40) : Fin 256) := by
        unfold isContinuation; rw [hv1]; omega
      simp only [List.cons_append, List.nil_append, utf8DecodeRune, hv0, hv1, if_pos hc1]
      rw [if_neg (by omega), if_neg (by omega), if_pos (by omega)]
      congr 2
      omega
    · rw [if_neg h2]
      by_cases h3 : n < 0x10000
      · rw [if_pos h3]
        have hv0 : (Fin.ofNat (0xE0 + n / 0x1000) : Fin 256).val = 0xE0 + n / 0x1000 := by
          show (0xE0 + n / 0x1000) % 256 = _; omega
        have hv1 : (Fin.ofNat (0x80 + n / 0x40 % 0x40) : Fin 256).val
            = 0x80 + n / 0x40 % 0x40 := by
          show (0x80 + n / 0x40 % 0x40) % 256 = _; omega
        have hv2 : (Fin.ofNat (0x80 + n % 0x40) : Fin 256).val = 0x80 + n % 0x40 := by
          show (0x80 + n % 0x40) % 256 = _; omega
        have hc1 : isContinuation (Fin.ofNat (0x80 + n / 0x40 % 0x40) : Fin 256) := by
          unfold isContinuation; rw [hv1]; omega
        have hc2 : isContinuation (Fin.ofNat (0x80 + n % 0x40) : Fin 256) := by
          unfold isContinuation; rw [hv2]; omega
        have hn : (0xE0 + n / 0x1000 - 0xE0) * 0x1000 + (0x80 + n / 0x40 % 0x40 - 0x80) * 0x40
            + (0x80 + n % 0x40 - 0x80) = n := by omega
        simp only [List.cons_append, List.nil_append, utf8DecodeRune, hv0, hv1, hv2, hn]
        rw [if_neg (by omega), if_neg (by omega), if_neg (by omega), if_pos (by omega),
          if_pos ⟨hc1, hc2, by omega, by omega⟩]
      · rw [if_neg h3]
        have hv0 : (Fin.ofNat (0xF0 + n / 0x40000) : Fin 256).val = 0xF0 + n / 0x40000 := by
          show (0xF0 + n / 0x40000) % 256 = _; omega
        have hv1 : (Fin.ofNat (0x80 + n / 0x1000 % 0x40) : Fin 256).val
            = 0x80 + n / 0x1000 % 0x40 := by
          show (0x80 + n / 0x1000 % 0x40) % 256 = _; omega
        have hv2 : (Fin.ofNat (0x80 + n / 0x40 % 0x40) : Fin 256).val
            = 0x80 + n / 0x40 % 0x40 := by
          show (0x80 + n / 0x40 % 0x40) % 256 = _; omega
        have hv3 : (Fin.ofNat (0x80 + n % 0x40) : Fin 256).val = 0x80 + n % 0x40 := by
          show (0x80 + n % 0x40) % 256 = _; omega
        have hc1 : isContinuation (Fin.ofNat (0x80 + n / 0x1000 % 0x40) : Fin 256) := by
          unfold isContinuation; rw [hv1]; omega
        have hc2 : isContinuation (Fin.ofNat (0x80 + n / 0x40 % 0x40) : Fin 256) := by
          unfold isContinuation; rw [hv2]; omega
        have hc3 : isContinuation (Fin.ofNat (0x80 + n % 0x40) : Fin 256) := by
          unfold isContinuation; rw [hv3]; omega
        have hn : (0xF0 + n / 0x40000 - 0xF0) * 0x40000 + (0x80 + n / 0x1000 % 0x40 - 0x80) * 0x1000
            + (0x80 + n / 0x40 % 0x40 - 0x80) * 0x40 + (0x80 + n % 0x40 - 0x80) = n := by omega
        simp only [List.cons_append, List.nil_append, utf8DecodeRune, hv0, hv1, hv2, hv3, hn]
        rw [if_neg (by omega), if_neg (by omega), if_neg (by omega), if_neg (by omega),
          if_pos (by omega), if_pos ⟨hc1, hc2, hc3, by omega, by omega⟩]

/-- The value of the hexadecimal digit of a number below 16 is the number. -/
theorem hexValue_hexDigit (n : Nat) (h : n < 16) : hexValue (hexDigit n) = some n := by
  interval_cases n <;> decide

/-- Four written hexadecimal digits are read back as the number. -/
theorem getu4_hex4 (n : Nat) (h : n < 65536) (rest : Bytes) :
    getu4 (hex4 n ++ rest) = some (n, rest) := by
  simp only [hex4, List.cons_append, List.nil_append, getu4,
    hexValue_hexDigit (n / 4096) (by omega), hexValue_hexDigit (n / 256 % 16) (by omega),
    hexValue_hexDigit (n / 16 % 16) (by omega), hexValue_hexDigit (n % 16) (by omega)]
  congr 2
  omega

/-- The first byte of the UTF-8 encoding, and that the encoding is not empty. -/
theorem utf8EncodeChar_head (ch : Char) :
    ∃ b tail, utf8EncodeChar ch = b :: tail ∧
      (ch.toNat < 128 → b.val = ch.toNat ∧ tail = []) ∧ (128 ≤ ch.toNat → 128 ≤ b.val) := by
  have hr := char_range ch
  unfold utf8EncodeChar
  by_cases h1 : ch.toNat < 0x80
  · rw [if_pos h1]
    refine ⟨_, _, rfl, fun _ => ⟨?_, rfl⟩, fun h => ?_⟩
    · show ch.toNat % 256 = _; omega
    · omega
  · rw [if_neg h1]
    by_cases h2 : ch.toNat < 0x800
    · rw [if_pos h2]
      refine ⟨_, _, rfl, fun h => by omega, fun _ => ?_⟩
      show 128 ≤ (0xC0 + ch.toNat / 0x40) % 256; omega
    · rw [if_neg h2]
      by_cases h3 : ch.toNat < 0x10000
      · rw [if_pos h3]
        refine ⟨_, _, rfl, fun h => by omega, fun _ => ?_⟩
        show 128 ≤ (0xE0 + ch.toNat / 0x1000) % 256; omega
      · rw [if_neg h3]
        refine ⟨_, _, rfl, fun h => by omega, fun _ => ?_⟩
        show 128 ≤ (0xF0 + ch.toNat / 0x40000) % 256; omega

/-- Reading back what was written for one character gives the character; what
is written starts with a byte that is not the quote. -/
theorem readChar_renderChar (ch : Char) (rest : Bytes) :
    readChar (renderChar ch ++ rest) = some (ch, rest) ∧
    ∃ b tail, renderChar ch = b :: tail ∧ b.val ≠ 34 := by
  have hback := Char.ofNat_toNat ch
  unfold renderChar
  by_cases h34 : ch.toNat = 34
  · rw [if_pos h34]
    refine ⟨?_, _, _, rfl, by decide⟩
    rw [← hback, h34]; rfl
  rw [if_neg h34]
  by_cases h92 : ch.toNat = 92
  · rw [if_pos h92]
    refine ⟨?_, _, _, rfl, by decide⟩
    rw [← hback, h92]; rfl
  rw [if_neg h92]
  by_cases h8 : ch.toNat = 8
  · rw [if_pos h8]
    refine ⟨?_, _, _, rfl, by decide⟩
    rw [← hback, h8]; rfl
  rw [if_neg h8]
  by_cases h12 : ch.toNat = 12
  · rw [if_pos h12]
    refine ⟨?_, _, _, rfl, by decide⟩
    rw [← hback, h12]; rfl
  rw [if_neg h12]
  by_cases h10 : ch.toNat = 10
  · rw [if_pos h10]
    refine ⟨?_, _, _, rfl, by decide⟩
    rw [← hback, h10]; rfl
  rw [if_neg h10]
  by_cases h13 : ch.toNat = 13
  · rw [if_pos h13]
    refine ⟨?_, _, _, rfl, by decide⟩
    rw [← hback, h13]; rfl
  rw [if_neg h13]
  by_cases h9 : ch.toNat = 9
  · rw [if_pos h9]
    refine ⟨?_, _, _, rfl, by decide⟩
    rw [← hback, h9]; rfl
  rw [if_neg h9]
  by_cases hesc : ch.toNat < 32 ∨ ch.toNat = 60 ∨ ch.toNat = 62 ∨ ch.toNat = 38 ∨
      ch.toNat = 0x2028 ∨ ch.toNat = 0x2029
  · rw [if_pos hesc]
    refine ⟨?_, _, _, rfl, by decide⟩
    have hu := getu4_hex4 ch.toNat (by omega) rest
    have h1 : ¬ (0xD800 ≤ ch.toNat ∧ ch.toNat < 0xDC00) := by omega
    have h2 : ¬ (0xDC00 ≤ ch.toNat ∧ ch.toNat < 0xE000) := by omega
    show readEscape (117 :: (hex4 ch.toNat ++ rest)) = _
    simp only [readEscape, hu, if_neg h1, if_neg h2, hback]
    rfl
  · rw [if_neg hesc]
    obtain ⟨b, tail, henc, hsmall, hbig⟩ := utf8EncodeChar_head ch
    refine ⟨?_, b, tail, henc, ?_⟩
    · by_cases hlt : ch.toNat < 128
      · obtain ⟨hb, htail⟩ := hsmall hlt
        subst htail
        rw [henc]
        simp only [List.singleton_append, readChar, hb]
        rw [if_neg h92, if_neg (by omega), if_pos hlt, hback]
      · have hb := hbig (by omega)
        have hdec := utf8DecodeRune_encode ch rest
        rw [henc] at hdec
        rw [henc]
        simp only [List.cons_append] at hdec ⊢
        simp only [readChar]
        rw [if_neg (by omega), if_neg (by omega), if_neg (by omega), hdec]
    · by_cases hlt : ch.toNat < 128
      · rw [(hsmall hlt).1]; exact h34
      · have := hbig (by omega); omega

/-- Reading back a written string literal, after its opening quote, gives the
characters of the string and the bytes after the closing quote. -/
theorem readString_render (chars : List Char) (rest : Bytes) :
    ∀ fuel, chars.length < fuel →
      readString fuel (chars.flatMap renderChar ++ 34 :: rest) = some (chars, rest) := by
  induction chars with
  | nil =>
    intro fuel hfuel
    obtain ⟨fuel, rfl⟩ : ∃ k, fuel = k + 1 := ⟨fuel - 1, by simp at hfuel; omega⟩
    have h34 : ((34 : Fin 256) : Nat) = 34 := rfl
    simp only [List.flatMap_nil, List.nil_append, readString, h34, if_true]
  | cons ch chars ih =>
    intro fuel hfuel
    obtain ⟨fuel, rfl⟩ : ∃ k, fuel = k + 1 := ⟨fuel - 1, by simp at hfuel; omega⟩
    obtain ⟨hread, b, tail, hb, hne⟩ := readChar_renderChar ch
      (chars.flatMap renderChar ++ 34 :: rest)
    have hih := ih fuel (by simp at hfuel; omega)
    simp only [List.flatMap_cons, List.append_assoc] at hread ⊢
    rw [hb] at hread ⊢
    simp only [List.cons_append] at hread ⊢
    simp only [readString, if_neg hne, hread, hih]

/-- Every character is written as at least one byte. -/
theorem length_le_flatMap_renderChar (chars : List Char) :
    chars.length ≤ (chars.flatMap renderChar).length := by
  induction chars with
  | nil => simp
  | cons ch chars ih =>
    obtain ⟨_, b, tail, hb, _⟩ := readChar_renderChar ch []
    simp only [List.flatMap_cons, List.length_append, List.length_cons, hb]
    omega

/-- The written digits of a number are digits, start with a digit other than 0
unless the number is 0, and denote the number. -/
theorem natDigits_spec : ∀ fuel n, n < fuel →
    (∀ d ∈ natDigits fuel n, isDigit d) ∧
    (∃ d ds, natDigits fuel n = d :: ds ∧ (n = 0 → d.val = 48 ∧ ds = []) ∧
      (0 < n → 49 ≤ d.val)) ∧
    (∀ acc, (natDigits fuel n).foldl (fun acc b => acc * 10 + (b.val - 48)) acc
      = acc * 10 ^ (natDigits fuel n).length + n) := by
  intro fuel
  induction fuel with
  | zero => intro n h; omega
  | succ fuel ih =>
    intro n h
    unfold natDigits
    by_cases h10 : n < 10
    · rw [if_pos h10]
      have hv : (Fin.ofNat (48 + n) : Fin 256).val = 48 + n := by
        show (48 + n) % 256 = _; omega
      refine ⟨?_, ⟨_, _, rfl, ?_, ?_⟩, ?_⟩
      · intro d hd
        simp only [List.mem_singleton] at hd
        subst hd
        unfold isDigit; rw [hv]; omega
      · intro h0; rw [hv]; exact ⟨by omega, rfl⟩
      · intro h0; rw [hv]; omega
      · intro acc
        simp only [List.foldl_cons, List.foldl_nil, hv, List.length_singleton, pow_one]
        omega
    · rw [if_neg h10]
      obtain ⟨hdig, ⟨d, ds, hcons, _, hpos⟩, hval⟩ := ih (n / 10) (by omega)
      have hv : (Fin.ofNat (48 + n % 10) : Fin 256).val = 48 + n % 10 := by
        show (48 + n % 10) % 256 = _; omega
      refine ⟨?_, ⟨d, ds ++ [Fin.ofNat (48 + n % 10)], by rw [hcons]; rfl, ?_, ?_⟩, ?_⟩
      · intro x hx
        simp only [List.mem_append, List.mem_singleton] at hx
        rcases hx with hx | hx
        · exact hdig x hx
        · subst hx; unfold isDigit; rw [hv]; omega
      · intro h0; omega
      · intro _; exact hpos (by omega)
      · intro acc
        simp only [List.foldl_append, List.foldl_cons, List.foldl_nil, hval acc, hv,
          List.length_append, List.length_singleton, pow_succ]
        have := Nat.div_add_mod n 10
        ring_nf
        omega

/-- Digits followed by bytes that do not start with a digit are scanned whole. -/
theorem scanDigits_append (digits rest : Bytes) (hdigits : ∀ d ∈ digits, isDigit d)
    (hrest : ∀ b tail, rest = b :: tail → ¬ isDigit b) :
    scanDigits (digits ++ rest) = (digits, rest) := by
  induction digits with
  | nil =>
    cases rest with
    | nil => rfl
    | cons b tail =>
      simp only [List.nil_append, scanDigits, if_neg (hrest b tail rfl)]
  | cons d digits ih =>
    have hd := hdigits d (List.mem_cons_self _ _)
    have hih := ih (fun x hx => hdigits x (List.mem_cons_of_mem _ hx))
    simp only [List.cons_append, scanDigits, if_pos hd]
    rw [show digits.append rest = digits ++ rest from rfl, hih]

/-- The scanner reads back a written integer when what follows cannot continue
a number. -/
theorem scanNumber_renderInt (n : Int) (rest : Bytes) (hrest : endsNumber rest) :
    scanNumber (renderInt n ++ rest) = some (renderInt n, rest) := by
  have hnot : ∀ b tail, rest = b :: tail → ¬ isDigit b := by
    intro b tail h; subst h; exact hrest.1
  have hfrac : scanFraction rest = some ([], rest) := by
    cases rest with
    | nil => rfl
    | cons b tail => simp only [scanFraction, if_neg hrest.2.1]
  have hexp : scanExponent rest = some ([], rest) := by
    cases rest with
    | nil => rfl
    | cons b tail =>
      have : ¬ (b.val = 101 ∨ b.val = 69) := fun h => h.elim hrest.2.2.1 hrest.2.2.2
      simp only [scanExponent, if_neg this]
  have hwhole : ∀ m fuel, m < fuel →
      scanInteger (natDigits fuel m ++ rest) = some (natDigits fuel m, rest) ∧
      ∃ d ds, natDigits fuel m = d :: ds ∧ d.val ≠ 45 := by
    intro m fuel hm
    obtain ⟨hdig, ⟨d, ds, hcons, hzero, hpos⟩, _⟩ := natDigits_spec fuel m hm
    refine ⟨?_, d, ds, hcons, ?_⟩
    · rw [hcons] at hdig ⊢
      have hd : isDigit d := hdig d (List.mem_cons_self _ _)
      unfold isDigit at hd
      by_cases h0 : m = 0
      · obtain ⟨hd0, hds⟩ := hzero h0
        subst hds
        simp only [List.singleton_append, scanInteger, if_pos hd0]
      · have hd1 := hpos (by omega)
        have hsd := scanDigits_append ds rest
          (fun x hx => hdig x (List.mem_cons_of_mem _ hx)) hnot
        simp only [List.cons_append, scanInteger]
        rw [if_neg (by omega), if_pos ⟨hd1, hd.2⟩, hsd]
    · have hd : isDigit d := by
        rw [hcons] at hdig; exact hdig d (List.mem_cons_self _ _)
      unfold isDigit at hd
      omega
  cases n with
  | ofNat m =>
    obtain ⟨hw, d, ds, hcons, hne⟩ := hwhole m (m + 1) (by omega)
    simp only [renderInt] at hw ⊢
    rw [hcons] at hw ⊢
    simp only [List.cons_append] at hw ⊢
    simp only [scanNumber, if_neg hne, hw, hfrac, hexp, List.nil_append, List.append_nil]
  | negSucc m =>
    obtain ⟨hw, _⟩ := hwhole (m + 1) (m + 2) (by omega)
    have h45 : ((45 : Fin 256) : Nat) = 45 := rfl
    simp only [renderInt, List.cons_append, scanNumber, h45, if_true, hw, hfrac, hexp,
      List.append_nil, List.singleton_append, List.nil_append]

/-- The library reads back a written integer when it is within 64 bits. -/
theorem parseInt64_renderInt (n : Int) (hlo : -9223372036854775808 ≤ n)
    (hhi : n < 9223372036854775808) : parseInt64 (renderInt n) = some n := by
  have hall : ∀ m fuel, m < fuel →
      (natDigits fuel m).all (fun d => isDigit d) = true ∧ digitsValue (natDigits fuel m) = m ∧
      ∃ d ds, natDigits fuel m = d :: ds ∧ d.val ≠ 45 := by
    intro m fuel hm
    obtain ⟨hdig, ⟨d, ds, hcons, _, _⟩, hval⟩ := natDigits_spec fuel m hm
    refine ⟨?_, ?_, d, ds, hcons, ?_⟩
    · rw [List.all_eq_true]
      intro x hx
      exact decide_eq_true (hdig x hx)
    · have := hval 0
      simpa [digitsValue] using this
    · have hd : isDigit d := by
        rw [hcons] at hdig; exact hdig d (List.mem_cons_self _ _)
      unfold isDigit at hd
      omega
  cases n with
  | ofNat m =>
    obtain ⟨ha, hv, d, ds, hcons, hne⟩ := hall m (m + 1) (by omega)
    simp only [renderInt]
    rw [hcons] at ha hv ⊢
    have hlt : digitsValue (d :: ds) < 9223372036854775808 := by
      rw [hv]
      have : (m : Int) < 9223372036854775808 := hhi
      omega
    simp only [parseInt64, if_neg hne]
    rw [if_pos ⟨ha, hlt⟩, hv]
    rfl
  | negSucc m =>
    obtain ⟨ha, hv, d, ds, hcons, _⟩ := hall (m + 1) (m + 2) (by omega)
    have h45 : ((45 : Fin 256) : Nat) = 45 := rfl
    have hne : natDigits (m + 2) (m + 1) ≠ [] := by rw [hcons]; exact List.cons_ne_nil _ _
    have hle : digitsValue (natDigits (m + 2) (m + 1)) ≤ 9223372036854775808 := by
      rw [hv]
      have : -9223372036854775808 ≤ -((m : Int) + 1) := by
        rw [← Int.negSucc_eq]; exact hlo
      omega
    simp only [renderInt, parseInt64, h45, if_true]
    rw [if_pos ⟨hne, ha, hle⟩, hv]
    rfl

/-- A written integer starts with a minus sign or a digit. -/
theorem renderInt_head (n : Int) :
    ∃ d ds, renderInt n = d :: ds ∧ (d.val = 45 ∨ isDigit d) := by
  cases n with
  | ofNat m =>
    obtain ⟨hdig, ⟨d, ds, hcons, _, _⟩, _⟩ := natDigits_spec (m + 1) m (by omega)
    refine ⟨d, ds, hcons, Or.inr ?_⟩
    rw [hcons] at hdig
    exact hdig d (List.mem_cons_self _ _)
  | negSucc m => exact ⟨45, _, rfl, Or.inl rfl⟩

/-- The text of a value starts with a byte that is no white space and closes no
array or object. -/
theorem render_head (x : JSON) (h : x.Plain) :
    ∃ b tail, x.render = b :: tail ∧ ¬ isSpace b ∧ b.val ≠ 93 ∧ b.val ≠ 125 := by
  cases x with
  | null => exact ⟨110, _, rfl, by decide, by decide, by decide⟩
  | bool v =>
    cases v
    · exact ⟨102, _, rfl, by decide, by decide, by decide⟩
    · exact ⟨116, _, rfl, by decide, by decide, by decide⟩
  | number literal =>
    obtain ⟨n, hn⟩ := h
    obtain ⟨d, ds, hcons, hd⟩ := renderInt_head n
    refine ⟨d, ds, by rw [JSON.render, hn, hcons], ?_⟩
    unfold isSpace
    rcases hd with hd | hd
    · omega
    · unfold isDigit at hd; omega
  | string v => exact ⟨34, _, rfl, by decide, by decide, by decide⟩
  | array items => exact ⟨91, _, by rw [JSON.render], by decide, by decide, by decide⟩
  | object members => exact ⟨123, _, by rw [JSON.render], by decide, by decide, by decide⟩

/-- Bytes that start with no white space are left as they are. -/
theorem skipSpace_cons (b : Fin 256) (rest : Bytes) (h : ¬ isSpace b) :
    skipSpace (b :: rest) = b :: rest := by
  simp only [skipSpace, if_neg h]

/-- A written string literal starts with a quote, and what follows the quote is
read back as the string. -/
theorem readString_renderString (s : String) (rest : Bytes) :
    ∃ tail, renderString s ++ rest = 34 :: tail ∧
      readString (tail.length + 1) tail = some (s.data, rest) := by
  refine ⟨s.data.flatMap renderChar ++ 34 :: rest, by simp [renderString], ?_⟩
  apply readString_render
  have := length_le_flatMap_renderChar s.data
  simp only [List.length_append, List.length_cons]
  omega

/-- A comma, a closing bracket or brace, or white space cannot continue a number. -/
theorem endsNumber_cons (b : Fin 256) (rest : Bytes)
    (h : b.val = 44 ∨ b.val = 93 ∨ b.val = 125 ∨ isSpace b) : endsNumber (b :: rest) := by
  unfold endsNumber isDigit
  unfold isSpace at h
  omega

/-- What follows an item of an array cannot continue a number. -/
theorem endsNumber_itemsTail (items : List JSON) (rest : Bytes) :
    endsNumber (renderItemsTail items ++ rest) := by
  cases items with
  | nil => exact endsNumber_cons _ _ (Or.inr (Or.inl rfl))
  | cons x xs => rw [renderItemsTail]; exact endsNumber_cons _ _ (Or.inl rfl)

/-- What follows a member of an object cannot continue a number. -/
theorem endsNumber_membersTail (members : List (String × JSON)) (rest : Bytes) :
    endsNumber (renderMembersTail members ++ rest) := by
  cases members with
  | nil => exact endsNumber_cons _ _ (Or.inr (Or.inr (Or.inl rfl)))
  | cons m ms =>
    obtain ⟨key, x⟩ := m
    rw [renderMembersTail]; exact endsNumber_cons _ _ (Or.inl rfl)

/-- A scalar value is read back. -/
theorem parseValue_scalar (x : JSON) (fuel depth : Nat) (rest : Bytes) (hplain : x.Plain)
    (hrest : endsNumber rest)
    (hscalar : (∀ items, x ≠ .array items) ∧ (∀ members, x ≠ .object members)) :
    parseValue (fuel + 1) depth (x.render ++ rest) = some (x, rest) := by
  have h34 : ((34 : Fin 256) : Nat) = 34 := rfl
  have h102 : ((102 : Fin 256) : Nat) = 102 := rfl
  have h110 : ((110 : Fin 256) : Nat) = 110 := rfl
  have h116 : ((116 : Fin 256) : Nat) = 116 := rfl
  cases x with
  | null =>
    simp only [JSON.render, List.cons_append, List.nil_append, parseValue,
      skipSpace_cons 110 _ (by decide), h110]
    rfl
  | bool v =>
    cases v
    · simp only [JSON.render, List.cons_append, List.nil_append, parseValue,
        skipSpace_cons 102 _ (by decide), h102]
      rfl
    · simp only [JSON.render, List.cons_append, List.nil_append, parseValue,
        skipSpace_cons 116 _ (by decide), h116]
      rfl
  | number literal =>
    obtain ⟨n, hn⟩ := hplain
    subst hn
    obtain ⟨d, ds, hcons, hd⟩ := renderInt_head n
    have hscan := scanNumber_renderInt n rest hrest
    have hns : ¬ isSpace d := by
      unfold isSpace
      rcases hd with hd | hd
      · omega
      · unfold isDigit at hd; omega
    have hval : d.val = 45 ∨ (48 ≤ d.val ∧ d.val ≤ 57) := hd
    simp only [JSON.render]
    rw [hcons] at hscan ⊢
    simp only [List.cons_append] at hscan ⊢
    simp only [parseValue, skipSpace_cons d _ hns]
    rw [if_neg (by omega), if_neg (by omega), if_neg (by omega), if_neg (by omega),
      if_neg (by omega), if_neg (by omega), hscan]
  | string v =>
    obtain ⟨tail, htail, hread⟩ := readString_renderString v rest
    simp only [JSON.render]
    rw [htail]
    simp only [parseValue, skipSpace_cons 34 _ (by decide), h34, if_true, hread]
  | array items => exact absurd rfl (hscalar.1 items)
  | object members => exact absurd rfl (hscalar.2 members)

/-- A member is read back once its value is. -/
theorem parseMember_render (key : String) (x : JSON) (fuel depth : Nat) (rest : Bytes)
    (hx : parseValue fuel depth (x.render ++ rest) = some (x, rest)) :
    parseMember (fuel + 1) depth (renderString key ++ 58 :: (x.render ++ rest))
      = some ((key, x), rest) := by
  have h58 : ((58 : Fin 256) : Nat) = 58 := rfl
  have h34 : ((34 : Fin 256) : Nat) = 34 := rfl
  obtain ⟨tail, htail, hread⟩ := readString_renderString key (58 :: (x.render ++ rest))
  rw [htail]
  simp only [parseMember, skipSpace_cons 34 _ (by decide), h34, if_true, hread,
    skipSpace_cons 58 _ (by decide), h58, hx]

mutual
/-- The parser reads back the text of a value when the fuel exceeds the length
of the text and the nesting stays within the limit. -/
theorem parseValue_render : ∀ (x : JSON) (fuel depth : Nat) (rest : Bytes), x.Plain →
    x.render.length < fuel → x.depth + depth ≤ maxNestingDepth → endsNumber rest →
    parseValue fuel depth (x.render ++ rest) = some (x, rest)
  | .null, fuel, depth, rest, hplain, hfuel, _, hrest => by
    obtain ⟨fuel, rfl⟩ : ∃ k, fuel = k + 1 := ⟨fuel - 1, by omega⟩
    exact parseValue_scalar _ fuel depth rest hplain hrest
      ⟨fun _ h => JSON.noConfusion h, fun _ h => JSON.noConfusion h⟩
  | .bool v, fuel, depth, rest, hplain, hfuel, _, hrest => by
    obtain ⟨fuel, rfl⟩ : ∃ k, fuel = k + 1 := ⟨fuel - 1, by omega⟩
    exact parseValue_scalar _ fuel depth rest hplain hrest
      ⟨fun _ h => JSON.noConfusion h, fun _ h => JSON.noConfusion h⟩
  | .number literal, fuel, depth, rest, hplain, hfuel, _, hrest => by
    obtain ⟨fuel, rfl⟩ : ∃ k, fuel = k + 1 := ⟨fuel - 1, by omega⟩
    exact parseValue_scalar _ fuel depth rest hplain hrest
      ⟨fun _ h => JSON.noConfusion h, fun _ h => JSON.noConfusion h⟩
  | .string v, fuel, depth, rest, hplain, hfuel, _, hrest => by
    obtain ⟨fuel, rfl⟩ : ∃ k, fuel = k + 1 := ⟨fuel - 1, by omega⟩
    exact parseValue_scalar _ fuel depth rest hplain hrest
      ⟨fun _ h => JSON.noConfusion h, fun _ h => JSON.noConfusion h⟩
  | .array [], fuel, depth, rest, _, hfuel, hdepth, _ => by
    obtain ⟨fuel, rfl⟩ : ∃ k, fuel = k + 1 := ⟨fuel - 1, by omega⟩
    have h91 : ((91 : Fin 256) : Nat) = 91 := rfl
    have h93 : ((93 : Fin 256) : Nat) = 93 := rfl
    have hd : ¬ maxNestingDepth ≤ depth := by
      simp only [JSON.depth] at hdepth; omega
    simp only [JSON.render, renderItems, List.cons_append, List.nil_append, parseValue,
      skipSpace_cons 91 _ (by decide), h91, if_neg hd, skipSpace_cons 93 _ (by decide), h93]
    rfl
  | .array (x :: xs), fuel, depth, rest, hplain, hfuel, hdepth, _ => by
    obtain ⟨fuel, rfl⟩ : ∃ k, fuel = k + 1 := ⟨fuel - 1, by omega⟩
    have h91 : ((91 : Fin 256) : Nat) = 91 := rfl
    simp only [JSON.Plain, PlainItems] at hplain
    simp only [JSON.depth, depthItems] at hdepth
    simp only [JSON.render, renderItems, List.length_cons, List.length_append] at hfuel
    have hd : ¬ maxNestingDepth ≤ depth := by omega
    have hx := parseValue_render x fuel (depth + 1) (renderItemsTail xs ++ rest) hplain.1
      (by omega) (by omega) (endsNumber_itemsTail xs rest)
    have hxs := parseItemsTail_render xs fuel (depth + 1) rest hplain.2 (by omega) (by omega)
    obtain ⟨b, tail, hhead, hns, h93, _⟩ := render_head x hplain.1
    simp only [JSON.render, renderItems, List.cons_append, List.append_assoc]
    rw [hhead] at hx ⊢
    simp only [List.cons_append] at hx ⊢
    simp only [parseValue, skipSpace_cons 91 _ (by decide), h91, if_neg hd,
      skipSpace_cons b _ hns, if_neg h93]
    simp only [hx, hxs]
    rw [if_neg (by decide), if_pos trivial]
  | .object [], fuel, depth, rest, _, hfuel, hdepth, _ => by
    obtain ⟨fuel, rfl⟩ : ∃ k, fuel = k + 1 := ⟨fuel - 1, by omega⟩
    have h123 : ((123 : Fin 256) : Nat) = 123 := rfl
    have h125 : ((125 : Fin 256) : Nat) = 125 := rfl
    have hd : ¬ maxNestingDepth ≤ depth := by
      simp only [JSON.depth] at hdepth; omega
    simp only [JSON.render, renderMembers, List.cons_append, List.nil_append, parseValue,
      skipSpace_cons 123 _ (by decide), h123, if_neg hd, skipSpace_cons 125 _ (by decide), h125]
    rfl
  | .object ((key, x) :: ms), fuel, depth, rest, hplain, hfuel, hdepth, _ => by
    obtain ⟨fuel, rfl⟩ : ∃ k, fuel = k + 1 := ⟨fuel - 1, by omega⟩
    have h123 : ((123 : Fin 256) : Nat) = 123 := rfl
    simp only [JSON.Plain, PlainMembers] at hplain
    simp only [JSON.depth, depthMembers] at hdepth
    simp only [JSON.render, renderMembers, List.length_cons, List.length_append] at hfuel
    have hd : ¬ maxNestingDepth ≤ depth := by omega
    obtain ⟨fuel, rfl⟩ : ∃ k, fuel = k + 1 := ⟨fuel - 1, by omega⟩
    have hx := parseValue_render x fuel (depth + 1) (renderMembersTail ms ++ rest) hplain.1
      (by omega) (by omega) (endsNumber_membersTail ms rest)
    have hm := parseMember_render key x fuel (depth + 1) (renderMembersTail ms ++ rest) hx
    have hms := parseMembersTail_render ms (fuel + 1) (depth + 1) rest hplain.2 (by omega)
      (by omega)
    obtain ⟨tail, htail, _⟩ := readString_renderString key
      (58 :: (x.render ++ (renderMembersTail ms ++ rest)))
    simp only [JSON.render, renderMembers, List.cons_append, List.append_assoc]
    rw [htail] at hm ⊢
    rw [parseValue]
    simp only [skipSpace_cons 123 _ (by decide), h123, if_neg hd,
      skipSpace_cons 34 _ (by decide)]
    rw [if_neg (by decide), if_neg (by decide), if_pos trivial, if_neg (by decide), hm]
    simp only [hms]
/-- The parser reads back the items of an array after the first. -/
theorem parseItemsTail_render : ∀ (items : List JSON) (fuel depth : Nat) (rest : Bytes),
    PlainItems items → (renderItemsTail items).length < fuel →
    depthItems items + depth ≤ maxNestingDepth →
    parseItemsTail fuel depth (renderItemsTail items ++ rest) = some (items, rest)
  | [], fuel, depth, rest, _, hfuel, _ => by
    obtain ⟨fuel, rfl⟩ : ∃ k, fuel = k + 1 := ⟨fuel - 1, by omega⟩
    have h93 : ((93 : Fin 256) : Nat) = 93 := rfl
    simp only [renderItemsTail, List.cons_append, List.nil_append, parseItemsTail,
      skipSpace_cons 93 _ (by decide), h93, if_true]
  | x :: xs, fuel, depth, rest, hplain, hfuel, hdepth => by
    obtain ⟨fuel, rfl⟩ : ∃ k, fuel = k + 1 := ⟨fuel - 1, by omega⟩
    have h44 : ((44 : Fin 256) : Nat) = 44 := rfl
    simp only [PlainItems] at hplain
    simp only [depthItems] at hdepth
    simp only [renderItemsTail, List.length_cons, List.length_append] at hfuel
    have hx := parseValue_render x fuel depth (renderItemsTail xs ++ rest) hplain.1
      (by omega) (by omega) (endsNumber_itemsTail xs rest)
    have hxs := parseItemsTail_render xs fuel depth rest hplain.2 (by omega) (by omega)
    simp only [renderItemsTail, List.cons_append, List.append_assoc, parseItemsTail,
      skipSpace_cons 44 _ (by decide), h44, hx, hxs]
    rfl
/-- The parser reads back the members of an object after the first. -/
theorem parseMembersTail_render : ∀ (members : List (String × JSON)) (fuel depth : Nat)
    (rest : Bytes), PlainMembers members → (renderMembersTail members).length < fuel →
    depthMembers members + depth ≤ maxNestingDepth →
    parseMembersTail fuel depth (renderMembersTail members ++ rest) = some (members, rest)
  | [], fuel, depth, rest, _, hfuel, _ => by
    obtain ⟨fuel, rfl⟩ : ∃ k, fuel = k + 1 := ⟨fuel - 1, by omega⟩
    have h125 : ((125 : Fin 256) : Nat) = 125 := rfl
    simp only [renderMembersTail, List.cons_append, List.nil_append, parseMembersTail,
      skipSpace_cons 125 _ (by decide), h125, if_true]
  | (key, x) :: ms, fuel, depth, rest, hplain, hfuel, hdepth => by
    obtain ⟨fuel, rfl⟩ : ∃ k, fuel = k + 1 := ⟨fuel - 1, by omega⟩
    have h44 : ((44 : Fin 256) : Nat) = 44 := rfl
    simp only [PlainMembers] at hplain
    simp only [depthMembers] at hdepth
    simp only [renderMembersTail, List.length_cons, List.length_append] at hfuel
    obtain ⟨fuel, rfl⟩ : ∃ k, fuel = k + 1 := ⟨fuel - 1, by omega⟩
    have hx := parseValue_render x fuel depth (renderMembersTail ms ++ rest) hplain.1
      (by omega) (by omega) (endsNumber_membersTail ms rest)
    have hm := parseMember_render key x fuel depth (renderMembersTail ms ++ rest) hx
    have hms := parseMembersTail_render ms (fuel + 1) depth rest hplain.2 (by omega) (by omega)
    simp only [renderMembersTail, List.cons_append, List.append_assoc]
    rw [parseMembersTail]
    simp only [skipSpace_cons 44 _ (by decide), h44]
    rw [if_neg (by decide), if_pos trivial, hm]
    simp only [hms]
end

mutual
/-- The zero value of a type has the type. -/
theorem typeOf_zero : ∀ t : GoType, t.zero.typeOf = t
  | .bool => rfl
  | .int => rfl
  | .string => rfl
  | .slice elem => rfl
  | .struct fields => by
    simp only [GoType.zero, GoValue.typeOf, typeOfFields_zeroFields fields]
/-- The zero values of the fields of a struct type have the types of the fields. -/
theorem typeOfFields_zeroFields : ∀ fields : List (String × GoType),
    typeOfFields (zeroFields fields) = fields
  | [] => rfl
  | (name, t) :: rest => by
    simp only [zeroFields, typeOfFields, typeOf_zero t, typeOfFields_zeroFields rest]
end

/-- Before any member is decoded the fields of a sink of the type of the target
are pending, when every field has its member. -/
theorem fieldsPending_of_types (keys : List String) :
    ∀ (cur target : List (String × GoValue)), typeOfFields cur = typeOfFields target →
      (∀ f ∈ target, f.1 ∈ keys) → FieldsPending keys cur target
  | [], [], _, _ => trivial
  | [], (n, v) :: fs, h, _ => by simp [typeOfFields] at h
  | (n, v) :: cs, [], h, _ => by simp [typeOfFields] at h
  | (n, v) :: cs, (n2, v2) :: fs, h, hkeys => by
    simp only [typeOfFields, List.cons.injEq, Prod.mk.injEq] at h
    refine ⟨⟨h.1.1, h.1.2, Or.inl ?_⟩, fieldsPending_of_types keys cs fs h.2
        (fun f hf => hkeys f (List.mem_cons_of_mem _ hf))⟩
    have := hkeys (n2, v2) (List.mem_cons_self _ _)
    simpa [h.1.1] using this

/-- When no member is still to come the fields of the sink are those of the target. -/
theorem fieldsPending_nil : ∀ (cur target : List (String × GoValue)),
    FieldsPending [] cur target → cur = target
  | [], [], _ => rfl
  | [], _ :: _, h => h.elim
  | _ :: _, [], h => h.elim
  | c :: cs, f :: fs, h => by
    obtain ⟨⟨h1, _, h3⟩, hrest⟩ := h
    have h2 : c.2 = f.2 := by
      rcases h3 with h3 | h3
      · simp at h3
      · exact h3
    rw [fieldsPending_nil cs fs hrest, Prod.ext h1 h2]

/-- Fields with distinct names hold one value for a name. -/
theorem value_unique_of_nodup (key : String) (v w : GoValue) :
    ∀ (fields : List (String × GoValue)), (fields.map Prod.fst).Nodup → (key, v) ∈ fields →
      (key, w) ∈ fields → v = w
  | [], _, hv, _ => by simp at hv
  | f :: fs, hnodup, hv, hw => by
    simp only [List.map_cons, List.nodup_cons] at hnodup
    simp only [List.mem_cons] at hv hw
    rcases hv with hv | hv
    · rcases hw with hw | hw
      · have := hv.trans hw.symm
        simpa using this
      · exact absurd (List.mem_map_of_mem Prod.fst hw) (by rw [← hv] at hnodup; exact hnodup.1)
    · rcases hw with hw | hw
      · exact absurd (List.mem_map_of_mem Prod.fst hv) (by rw [← hw] at hnodup; exact hnodup.1)
      · exact value_unique_of_nodup key v w fs hnodup.2 hv hw

/-- A field whose name is the key is the field the key is decoded into. -/
theorem find_exact_of_lookup (lib : JSONLib) (key : String) (fields : List (String × GoValue))
    (f : String × GoValue) (h : fields.find? (fun g => g.1 = key) = some f) :
    lookupField lib key fields = some f := by
  simp only [lookupField, h]

/-- A pending sink has the field of every name of the target, with a value of the
type of the target. -/
theorem find_pending (keys : List String) (key : String) (v : GoValue) :
    ∀ (cur target : List (String × GoValue)), FieldsPending keys cur target →
      (target.map Prod.fst).Nodup → (key, v) ∈ target →
      ∃ old, cur.find? (fun g => g.1 = key) = some (key, old) ∧ old.typeOf = v.typeOf
  | [], [], _, _, hmem => by simp at hmem
  | [], _ :: _, h, _, _ => h.elim
  | _ :: _, [], h, _, _ => h.elim
  | c :: cs, f :: fs, h, hnodup, hmem => by
    obtain ⟨⟨h1, h2, _⟩, hrest⟩ := h
    simp only [List.map_cons, List.nodup_cons] at hnodup
    by_cases hk : c.1 = key
    · have hf : f = (key, v) := by
        simp only [List.mem_cons] at hmem
        rcases hmem with hmem | hmem
        · exact hmem.symm
        · exact absurd (List.mem_map_of_mem Prod.fst hmem)
            (by rw [← h1, hk] at hnodup; exact hnodup.1)
      refine ⟨c.2, ?_, by rw [h2, hf]⟩
      have hc : c = (key, c.2) := Prod.ext hk rfl
      simp only [List.find?_cons, hk, decide_True]
      rw [← hc]
    · have hmem2 : (key, v) ∈ fs := by
        simp only [List.mem_cons] at hmem
        rcases hmem with hmem | hmem
        · exact absurd (by rw [h1, ← hmem]) hk
        · exact hmem
      obtain ⟨old, hold, htype⟩ := find_pending keys key v cs fs hrest hnodup.2 hmem2
      refine ⟨old, ?_, htype⟩
      simp only [List.find?_cons, hk, decide_False]
      exact hold

/-- Setting the field of a decoded member to the value of the target leaves the
fields pending for the members after it. -/
theorem setField_pending (keys : List String) (key : String) (v : GoValue)
    (hkey : key ∉ keys) :
    ∀ (cur target : List (String × GoValue)), FieldsPending (key :: keys) cur target →
      (target.map Prod.fst).Nodup → (key, v) ∈ target →
      FieldsPending keys (setField key v cur) target
  | [], [], _, _, hmem => by simp at hmem
  | [], _ :: _, h, _, _ => h.elim
  | _ :: _, [], h, _, _ => h.elim
  | (n, old) :: cs, f :: fs, h, hnodup, hmem => by
    obtain ⟨⟨h1, h2, h3⟩, hrest⟩ := h
    simp only [List.map_cons, List.nodup_cons] at hnodup
    simp only at h1 h2 h3
    by_cases hk : n = key
    · have hf : f = (key, v) := by
        simp only [List.mem_cons] at hmem
        rcases hmem with hmem | hmem
        · exact hmem.symm
        · exact absurd (List.mem_map_of_mem Prod.fst hmem)
            (by rw [← h1, hk] at hnodup; exact hnodup.1)
      simp only [setField, if_pos hk]
      refine ⟨⟨h1, by rw [hf], Or.inr (by rw [hf])⟩, ?_⟩
      -- the other fields do not have the name `key`
      have hothers : ∀ (cs fs : List (String × GoValue)), FieldsPending (key :: keys) cs fs →
          key ∉ fs.map Prod.fst → FieldsPending keys cs fs := by
        intro cs
        induction cs with
        | nil =>
          intro fs h _
          cases fs with
          | nil => trivial
          | cons _ _ => exact h.elim
        | cons c cs ih =>
          intro fs h hnot
          cases fs with
          | nil => exact h.elim
          | cons g gs =>
            obtain ⟨⟨g1, g2, g3⟩, grest⟩ := h
            simp only [List.map_cons, List.mem_cons, not_or] at hnot
            refine ⟨⟨g1, g2, ?_⟩, ih gs grest hnot.2⟩
            rcases g3 with g3 | g3
            · simp only [List.mem_cons] at g3
              rcases g3 with g3 | g3
              · exact absurd (g3 ▸ g1 : key = g.1) hnot.1
              · exact Or.inl g3
            · exact Or.inr g3
      exact hothers cs fs hrest (by rw [← h1, hk] at hnodup; exact hnodup.1)
    · have hmem2 : (key, v) ∈ fs := by
        simp only [List.mem_cons] at hmem
        rcases hmem with hmem | hmem
        · exact absurd (by rw [h1, ← hmem]) hk
        · exact hmem
      simp only [setField, if_neg hk]
      refine ⟨⟨h1, h2, ?_⟩, setField_pending keys key v hkey cs fs hrest hnodup.2 hmem2⟩
      rcases h3 with h3 | h3
      · simp only [List.mem_cons] at h3
        rcases h3 with h3 | h3
        · exact absurd h3 hk
        · exact Or.inl h3
      · exact Or.inr h3

mutual
/-- Decoding the JSON form of a Go value into a sink of the type of the value
leaves the value in the sink, without error. -/
theorem decodeInto_denotes (lib : JSONLib) : ∀ (x : JSON) (v sink : GoValue)
    (path : List String), Denotes x v → sink.typeOf = v.typeOf →
    decodeInto lib path x sink = (v, none)
  | .null, v, _, _, h, _ => by cases v <;> simp [Denotes] at h
  | .bool a, v, sink, _, h, ht => by
    cases v <;> simp only [Denotes] at h
    cases sink <;> simp only [GoValue.typeOf, reduceCtorEq] at ht
    simp only [decodeInto, h]
  | .number literal, v, sink, _, h, ht => by
    cases v <;> simp only [Denotes] at h
    cases sink <;> simp only [GoValue.typeOf, reduceCtorEq] at ht
    obtain ⟨hlit, hlo, hhi⟩ := h
    simp only [decodeInto, hlit, parseInt64_renderInt _ hlo hhi]
  | .string a, v, sink, _, h, ht => by
    cases v <;> simp only [Denotes] at h
    cases sink <;> simp only [GoValue.typeOf, reduceCtorEq] at ht
    simp only [decodeInto, h]
  | .array items, v, sink, path, h, ht => by
    cases v <;> simp only [Denotes] at h
    cases sink <;> simp only [GoValue.typeOf, GoType.slice.injEq, reduceCtorEq] at ht
    subst ht
    simp only [decodeInto, decodeItems_denotes lib items _ _ path h]
  | .object members, v, sink, path, h, ht => by
    cases v <;> simp only [Denotes] at h
    cases sink <;> simp only [GoValue.typeOf, GoType.struct.injEq, reduceCtorEq] at ht
    obtain ⟨hkeys, hnames, hall, hmembers⟩ := h
    have hpending := fieldsPending_of_types (members.map Prod.fst) _ _ ht hall
    simp only [decodeInto,
      decodeMembers_denotes lib members _ _ path hmembers hkeys hnames hpending]
/-- Decoding the JSON forms of the items of a slice gives the items. -/
theorem decodeItems_denotes (lib : JSONLib) : ∀ (xs : List JSON) (elem : GoType)
    (vs : List GoValue) (path : List String), DenotesItems xs elem vs →
    decodeItems lib path xs elem = (vs, none)
  | [], _, [], _, _ => rfl
  | [], _, _ :: _, _, h => by simp [DenotesItems] at h
  | _ :: _, _, [], _, h => by simp [DenotesItems] at h
  | x :: xs, elem, v :: vs, path, h => by
    simp only [DenotesItems] at h
    obtain ⟨hx, ht, hxs⟩ := h
    have h1 := decodeInto_denotes lib x v elem.zero path hx (by rw [typeOf_zero, ht])
    have h2 := decodeItems_denotes lib xs elem vs path hxs
    simp only [decodeItems, h1, h2, firstError]
/-- Decoding the members of the JSON form of a struct, in any order, into
fields of the same names and types gives the fields of the struct. -/
theorem decodeMembers_denotes (lib : JSONLib) : ∀ (ms : List (String × JSON))
    (cur target : List (String × GoValue)) (path : List String), DenotesMembers ms target →
    (ms.map Prod.fst).Nodup → (target.map Prod.fst).Nodup →
    FieldsPending (ms.map Prod.fst) cur target →
    decodeMembers lib path ms cur = (target, none)
  | [], cur, target, _, _, _, _, hpending => by
    simp only [decodeMembers, fieldsPending_nil cur target hpending]
  | (key, x) :: rest, cur, target, path, h, hkeys, hnames, hpending => by
    simp only [DenotesMembers] at h
    obtain ⟨⟨v, hmem, hx⟩, hrest⟩ := h
    simp only [List.map_cons, List.nodup_cons] at hkeys
    obtain ⟨old, hfind, htype⟩ := find_pending _ key v cur target hpending hnames hmem
    have hlook := find_exact_of_lookup lib key cur _ hfind
    have h1 := decodeInto_denotes lib x v old (path ++ [key]) hx htype
    have hset := setField_pending (rest.map Prod.fst) key v hkeys.1 cur target hpending
      hnames hmem
    have h2 := decodeMembers_denotes lib rest (setField key v cur) target path hrest hkeys.2
      hnames hset
    simp only [decodeMembers, hlook, h1, h2, firstError]
end

mutual
/-- The JSON form of a Go value has only integers written in decimal. -/
theorem plain_of_denotes : ∀ (x : JSON) (v : GoValue), Denotes x v → x.Plain
  | .null, _, _ => trivial
  | .bool _, _, _ => trivial
  | .string _, _, _ => trivial
  | .number literal, v, h => by
    cases v <;> simp only [Denotes] at h
    exact ⟨_, h.1⟩
  | .array items, v, h => by
    cases v <;> simp only [Denotes] at h
    simp only [JSON.Plain]
    exact plainItems_of_denotes items _ _ h
  | .object members, v, h => by
    cases v <;> simp only [Denotes] at h
    simp only [JSON.Plain]
    exact plainMembers_of_denotes members _ h.2.2.2
/-- The JSON forms of the items of a slice have only integers written in decimal. -/
theorem plainItems_of_denotes : ∀ (xs : List JSON) (elem : GoType) (vs : List GoValue),
    DenotesItems xs elem vs → PlainItems xs
  | [], _, _, _ => trivial
  | _ :: _, _, [], h => by simp [DenotesItems] at h
  | x :: xs, elem, v :: vs, h => by
    simp only [DenotesItems] at h
    exact ⟨plain_of_denotes x v h.1, plainItems_of_denotes xs elem vs h.2.2⟩
/-- The members of the JSON form of a struct have only integers written in decimal. -/
theorem plainMembers_of_denotes : ∀ (ms : List (String × JSON))
    (fields : List (String × GoValue)), DenotesMembers ms fields → PlainMembers ms
  | [], _, _ => trivial
  | (key, x) :: rest, fields, h => by
    simp only [DenotesMembers] at h
    obtain ⟨⟨v, _, hx⟩, hrest⟩ := h
    exact ⟨plain_of_denotes x v hx, plainMembers_of_denotes rest fields hrest⟩
end

/-- White space alone is skipped whole. -/
theorem skipSpace_of_spaces : ∀ (trailing : Bytes), (∀ b ∈ trailing, isSpace b) →
    skipSpace trailing = []
  | [], _ => rfl
  | b :: rest, h => by
    simp only [skipSpace, if_pos (h b (List.mem_cons_self _ _))]
    exact skipSpace_of_spaces rest (fun x hx => h x (List.mem_cons_of_mem _ hx))

/-- The whole input is read back as the value it is the text of, white space
after it allowed, when the value is nested within the limit. -/
theorem parseJSON_render (x : JSON) (trailing : Bytes) (hplain : x.Plain)
    (hdepth : x.depth ≤ maxNestingDepth) (hspace : ∀ b ∈ trailing, isSpace b) :
    parseJSON (x.render ++ trailing) = some x := by
  have hends : endsNumber trailing := by
    cases trailing with
    | nil => trivial
    | cons b rest =>
      exact endsNumber_cons b rest (Or.inr (Or.inr (Or.inr (hspace b (List.mem_cons_self _ _)))))
  have hparse := parseValue_render x ((x.render ++ trailing).length + 1) 0 trailing hplain
    (by simp only [List.length_append]; omega) (by omega) hends
  simp only [parseJSON, hparse, skipSpace_of_spaces trailing hspace, if_true]

/-- The round trip of `json.Unmarshal` alone: the text of the JSON form of a Go
value, decoded into a sink of the type of the value, leaves the value in the
sink and gives no error. -/
theorem Unmarshal_render (lib : JSONLib) (x : JSON) (v sink : GoValue) (trailing : Bytes)
    (hx : Denotes x v) (hdepth : x.depth ≤ maxNestingDepth)
    (hspace : ∀ b ∈ trailing, isSpace b) (hsink : sink.typeOf = v.typeOf) :
    Unmarshal lib (x.render ++ trailing) sink = (v, none) := by
  simp only [Unmarshal, parseJSON_render x trailing (plain_of_denotes x v hx) hdepth hspace,
    decodeInto_denotes lib x v sink [] hx hsink]

/-- A member is refused once its value is. -/
theorem parseMember_none (key : String) (x : JSON) (fuel depth : Nat) (rest : Bytes)
    (hx : parseValue fuel depth (x.render ++ rest) = none) :
    parseMember (fuel + 1) depth (renderString key ++ 58 :: (x.render ++ rest)) = none := by
  have h58 : ((58 : Fin 256) : Nat) = 58 := rfl
  have h34 : ((34 : Fin 256) : Nat) = 34 := rfl
  obtain ⟨tail, htail, hread⟩ := readString_renderString key (58 :: (x.render ++ rest))
  rw [htail]
  simp only [parseMember, skipSpace_cons 34 _ (by decide), h34, if_true, hread,
    skipSpace_cons 58 _ (by decide), h58, hx]

mutual
/-- The parser refuses the text of a value whose arrays and objects are nested
beyond the limit. -/
theorem parseValue_too_deep : ∀ (x : JSON) (fuel depth : Nat) (rest : Bytes), x.Plain →
    x.render.length < fuel → depth ≤ maxNestingDepth → maxNestingDepth < x.depth + depth →
    endsNumber rest → parseValue fuel depth (x.render ++ rest) = none
  | .null, _, _, _, _, _, h1, h2, _ => by simp only [JSON.depth] at h2; omega
  | .bool _, _, _, _, _, _, h1, h2, _ => by simp only [JSON.depth] at h2; omega
  | .number _, _, _, _, _, _, h1, h2, _ => by simp only [JSON.depth] at h2; omega
  | .string _, _, _, _, _, _, h1, h2, _ => by simp only [JSON.depth] at h2; omega
  | .array [], fuel, depth, rest, _, hfuel, h1, h2, _ => by
    obtain ⟨fuel, rfl⟩ : ∃ k, fuel = k + 1 := ⟨fuel - 1, by omega⟩
    have h91 : ((91 : Fin 256) : Nat) = 91 := rfl
    have hd : maxNestingDepth ≤ depth := by
      simp only [JSON.depth, depthItems] at h2; omega
    simp only [JSON.render, renderItems, List.cons_append, List.nil_append, parseValue,
      skipSpace_cons 91 _ (by decide), h91, if_pos hd]
    rfl
  | .array (x :: xs), fuel, depth, rest, hplain, hfuel, h1, h2, _ => by
    obtain ⟨fuel, rfl⟩ : ∃ k, fuel = k + 1 := ⟨fuel - 1, by omega⟩
    have h91 : ((91 : Fin 256) : Nat) = 91 := rfl
    simp only [JSON.Plain, PlainItems] at hplain
    simp only [JSON.depth, depthItems] at h2
    simp only [JSON.render, renderItems, List.length_cons, List.length_append] at hfuel
    obtain ⟨b, tail, hhead, hns, h93, _⟩ := render_head x hplain.1
    simp only [JSON.render, renderItems, List.cons_append, List.append_assoc]
    by_cases hd : maxNestingDepth ≤ depth
    · simp only [parseValue, skipSpace_cons 91 _ (by decide), h91, if_pos hd]
      rfl
    · by_cases hx : maxNestingDepth < x.depth + (depth + 1)
      · have hnone := parseValue_too_deep x fuel (depth + 1) (renderItemsTail xs ++ rest)
          hplain.1 (by omega) (by omega) hx (endsNumber_itemsTail xs rest)
        rw [hhead] at hnone ⊢
        simp only [List.cons_append] at hnone ⊢
        simp only [parseValue, skipSpace_cons 91 _ (by decide), h91, if_neg hd,
          skipSpace_cons b _ hns, if_neg h93]
        simp only [hnone]
        rw [if_neg (by decide), if_pos trivial]
      · have hsome := parseValue_render x fuel (depth + 1) (renderItemsTail xs ++ rest)
          hplain.1 (by omega) (by omega) (endsNumber_itemsTail xs rest)
        have hnone := parseItemsTail_too_deep xs fuel (depth + 1) rest hplain.2 (by omega)
          (by omega) (by omega)
        rw [hhead] at hsome ⊢
        simp only [List.cons_append] at hsome ⊢
        simp only [parseValue, skipSpace_cons 91 _ (by decide), h91, if_neg hd,
          skipSpace_cons b _ hns, if_neg h93]
        simp only [hsome, hnone]
        rw [if_neg (by decide), if_pos trivial]
  | .object [], fuel, depth, rest, _, hfuel, h1, h2, _ => by
    obtain ⟨fuel, rfl⟩ : ∃ k, fuel = k + 1 := ⟨fuel - 1, by omega⟩
    have h123 : ((123 : Fin 256) : Nat) = 123 := rfl
    have hd : maxNestingDepth ≤ depth := by
      simp only [JSON.depth, depthMembers] at h2; omega
    simp only [JSON.render, renderMembers, List.cons_append, List.nil_append, parseValue,
      skipSpace_cons 123 _ (by decide), h123, if_pos hd]
    rfl
  | .object ((key, x) :: ms), fuel, depth, rest, hplain, hfuel, h1, h2, _ => by
    obtain ⟨fuel, rfl⟩ : ∃ k, fuel = k + 1 := ⟨fuel - 1, by omega⟩
    have h123 : ((123 : Fin 256) : Nat) = 123 := rfl
    simp only [JSON.Plain, PlainMembers] at hplain
    simp only [JSON.depth, depthMembers] at h2
    simp only [JSON.render, renderMembers, List.length_cons, List.length_append] at hfuel
    obtain ⟨fuel, rfl⟩ : ∃ k, fuel = k + 1 := ⟨fuel - 1, by omega⟩
    obtain ⟨tail, htail, _⟩ := readString_renderString key
      (58 :: (x.render ++ (renderMembersTail ms ++ rest)))
    simp only [JSON.render, renderMembers, List.cons_append, List.append_assoc]
    by_cases hd : maxNestingDepth ≤ depth
    · simp only [parseValue, skipSpace_cons 123 _ (by decide), h123, if_pos hd]
      rfl
    · by_cases hx : maxNestingDepth < x.depth + (depth + 1)
      · have hnone := parseValue_too_deep x fuel (depth + 1) (renderMembersTail ms ++ rest)
          hplain.1 (by omega) (by omega) hx (endsNumber_membersTail ms rest)
        have hm := parseMember_none key x fuel (depth + 1) (renderMembersTail ms ++ rest) hnone
        rw [htail] at hm ⊢
        rw [parseValue]
        simp only [skipSpace_cons 123 _ (by decide), h123, if_neg hd,
          skipSpace_cons 34 _ (by decide)]
        rw [if_neg (by decide), if_neg (by decide), if_pos trivial, if_neg (by decide), hm]
      · have hsome := parseValue_render x fuel (depth + 1) (renderMembersTail ms ++ rest)
          hplain.1 (by omega) (by omega) (endsNumber_membersTail ms rest)
        have hm := parseMember_render key x fuel (depth + 1) (renderMembersTail ms ++ rest)
          hsome
        have hnone := parseMembersTail_too_deep ms (fuel + 1) (depth + 1) rest hplain.2
          (by omega) (by omega) (by omega)
        rw [htail] at hm ⊢
        rw [parseValue]
        simp only [skipSpace_cons 123 _ (by decide), h123, if_neg hd,
          skipSpace_cons 34 _ (by decide)]
        rw [if_neg (by decide), if_neg (by decide), if_pos trivial, if_neg (by decide), hm]
        simp only [hnone]
/-- The parser refuses the items after the first when one is nested beyond the
limit. -/
theorem parseItemsTail_too_deep : ∀ (items : List JSON) (fuel depth : Nat) (rest : Bytes),
    PlainItems items → (renderItemsTail items).length < fuel → depth ≤ maxNestingDepth →
    maxNestingDepth < depthItems items + depth →
    parseItemsTail fuel depth (renderItemsTail items ++ rest) = none
  | [], _, _, _, _, _, h1, h2 => by simp only [depthItems] at h2; omega
  | x :: xs, fuel, depth, rest, hplain, hfuel, h1, h2 => by
    obtain ⟨fuel, rfl⟩ : ∃ k, fuel = k + 1 := ⟨fuel - 1, by omega⟩
    have h44 : ((44 : Fin 256) : Nat) = 44 := rfl
    simp only [PlainItems] at hplain
    simp only [depthItems] at h2
    simp only [renderItemsTail, List.length_cons, List.length_append] at hfuel
    by_cases hx : maxNestingDepth < x.depth + depth
    · have hnone := parseValue_too_deep x fuel depth (renderItemsTail xs ++ rest) hplain.1
        (by omega) h1 hx (endsNumber_itemsTail xs rest)
      simp only [renderItemsTail, List.cons_append, List.append_assoc, parseItemsTail,
        skipSpace_cons 44 _ (by decide), h44, hnone]
      rfl
    · have hsome := parseValue_render x fuel depth (renderItemsTail xs ++ rest) hplain.1
        (by omega) (by omega) (endsNumber_itemsTail xs rest)
      have hnone := parseItemsTail_too_deep xs fuel depth rest hplain.2 (by omega) h1
        (by omega)
      simp only [renderItemsTail, List.cons_append, List.append_assoc, parseItemsTail,
        skipSpace_cons 44 _ (by decide), h44, hsome, hnone]
      rfl
/-- The parser refuses the members after the first when the value of one is
nested beyond the limit. -/
theorem parseMembersTail_too_deep : ∀ (members : List (String × JSON)) (fuel depth : Nat)
    (rest : Bytes), PlainMembers members → (renderMembersTail members).length < fuel →
    depth ≤ maxNestingDepth → maxNestingDepth < depthMembers members + depth →
    parseMembersTail fuel depth (renderMembersTail members ++ rest) = none
  | [], _, _, _, _, _, h1, h2 => by simp only [depthMembers] at h2; omega
  | (key, x) :: ms, fuel, depth, rest, hplain, hfuel, h1, h2 => by
    obtain ⟨fuel, rfl⟩ : ∃ k, fuel = k + 1 := ⟨fuel - 1, by omega⟩
    have h44 : ((44 : Fin 256) : Nat) = 44 := rfl
    simp only [PlainMembers] at hplain
    simp only [depthMembers] at h2
    simp only [renderMembersTail, List.length_cons, List.length_append] at hfuel
    obtain ⟨fuel, rfl⟩ : ∃ k, fuel = k + 1 := ⟨fuel - 1, by omega⟩
    simp only [renderMembersTail, List.cons_append, List.append_assoc]
    by_cases hx : maxNestingDepth < x.depth + depth
    · have hnone := parseValue_too_deep x fuel depth (renderMembersTail ms ++ rest) hplain.1
        (by omega) h1 hx (endsNumber_membersTail ms rest)
      have hm := parseMember_none key x fuel depth (renderMembersTail ms ++ rest) hnone
      rw [parseMembersTail]
      simp only [skipSpace_cons 44 _ (by decide), h44]
      rw [if_neg (by decide), if_pos trivial, hm]
    · have hsome := parseValue_render x fuel depth (renderMembersTail ms ++ rest) hplain.1
        (by omega) (by omega) (endsNumber_membersTail ms rest)
      have hm := parseMember_render key x fuel depth (renderMembersTail ms ++ rest) hsome
      have hnone := parseMembersTail_too_deep ms (fuel + 1) depth rest hplain.2 (by omega) h1
        (by omega)
      rw [parseMembersTail]
      simp only [skipSpace_cons 44 _ (by decide), h44]
      rw [if_neg (by decide), if_pos trivial, hm]
      simp only [hnone]
end

/-- Members that are each the JSON form of a field are the JSON form of the
fields. -/
theorem denotesMembers_of_forall (fields : List (String × GoValue)) :
    ∀ (ms : List (String × JSON)),
      (∀ m ∈ ms, ∃ v, (m.1, v) ∈ fields ∧ Denotes m.2 v) → DenotesMembers ms fields
  | [], _ => trivial
  | (key, x) :: rest, h => by
    simp only [DenotesMembers]
    exact ⟨h (key, x) (List.mem_cons_self _ _),
      denotesMembers_of_forall fields rest (fun m hm => h m (List.mem_cons_of_mem _ hm))⟩

/-- The members are nested no deeper than the deepest of their values. -/
theorem depthMembers_le (bound : Nat) : ∀ (ms : List (String × JSON)),
    (∀ m ∈ ms, m.2.depth ≤ bound) → depthMembers ms ≤ bound
  | [], _ => Nat.zero_le _
  | (key, x) :: rest, h => by
    simp only [depthMembers]
    exact max_le (h (key, x) (List.mem_cons_self _ _))
      (depthMembers_le bound rest (fun m hm => h m (List.mem_cons_of_mem _ hm)))

/-- An envelope written with its three members in any order is the JSON form of
the result struct that holds the code, the message and the data. -/
theorem denotes_envelope (code : Int) (msg : String) (d : JSON) (data : GoValue)
    (members : List (String × JSON))
    (hmembers : members.Perm
      [("code", .number (renderInt code)), ("msg", .string msg), ("data", d)])
    (hcode : -9223372036854775808 ≤ code ∧ code < 9223372036854775808)
    (hdata : Denotes d data) :
    Denotes (.object members)
      (.struct [("code", .int code), ("msg", .string msg), ("data", data)]) ∧
    (JSON.object members).depth = d.depth + 1 := by
  have hkeys : (members.map Prod.fst).Perm ["code", "msg", "data"] := hmembers.map Prod.fst
  have hmem : ∀ m, m ∈ members ↔
      m = ("code", .number (renderInt code)) ∨ m = ("msg", .string msg) ∨ m = ("data", d) := by
    intro m
    rw [hmembers.mem_iff]
    simp only [List.mem_cons, List.mem_singleton, List.not_mem_nil, or_false]
  refine ⟨?_, ?_⟩
  · simp only [Denotes]
    refine ⟨hkeys.nodup_iff.mpr (by decide),
      (by simp only [List.map_cons, List.map_nil]; decide), ?_, ?_⟩
    · intro f hf
      rw [hkeys.mem_iff]
      simp only [List.mem_cons, List.mem_singleton, List.not_mem_nil, or_false] at hf ⊢
      rcases hf with hf | hf | hf <;> simp [hf]
    · apply denotesMembers_of_forall
      intro m hm
      rcases (hmem m).mp hm with h | h | h
      · exact ⟨.int code, by simp [h], by rw [h]; simp only [Denotes, true_and]; exact hcode⟩
      · exact ⟨.string msg, by simp [h], by rw [h]; simp only [Denotes]⟩
      · exact ⟨data, by simp [h], by rw [h]; exact hdata⟩
  · simp only [JSON.depth, Nat.add_right_cancel_iff]
    apply le_antisymm
    · apply depthMembers_le
      intro m hm
      rcases (hmem m).mp hm with h | h | h <;> rw [h] <;> simp [JSON.depth]
    · have hd : ("data", d) ∈ members := (hmem _).mpr (Or.inr (Or.inr rfl))
      have hle : ∀ (ms : List (String × JSON)) (m : String × JSON), m ∈ ms →
          m.2.depth ≤ depthMembers ms := by
        intro ms
        induction ms with
        | nil => intro m hm; simp at hm
        | cons a rest ih =>
          intro m hm
          obtain ⟨key, x⟩ := a
          simp only [depthMembers]
          simp only [List.mem_cons] at hm
          rcases hm with hm | hm
          · rw [hm]; exact le_max_left _ _
          · exact le_trans (ih m hm) (le_max_right _ _)
      exact hle members _ hd

/-- A text nested beyond the limit is refused by `json.Unmarshal` as a whole:
the sink is left as it is and the error is the syntax error. -/
theorem Unmarshal_too_deep (jlib : JSONLib) (x : JSON) (sink : GoValue) (hplain : x.Plain)
    (hdeep : maxNestingDepth < x.depth) :
    Unmarshal jlib x.render sink = (sink, some (jlib.invalid x.render)) := by
  have hnone := parseValue_too_deep x (x.render.length + 1) 0 [] hplain (by omega)
    (Nat.zero_le _) (by omega) trivial
  simp only [List.append_nil] at hnone
  simp only [Unmarshal, parseJSON, hnone]

/-- The nesting of `nestedArray k`, its numbers (none) and its Go value. -/
theorem nestedArray_spec : ∀ k : Nat,
    (nestedArray k).depth = k + 1 ∧ (nestedArray k).Plain ∧
    Denotes (nestedArray k) (nestedSlice k) ∧ (nestedSlice k).typeOf = nestedSliceType k
  | 0 => ⟨rfl, trivial, by simp [nestedArray, nestedSlice, Denotes, DenotesItems], rfl⟩
  | k + 1 => by
    obtain ⟨hd, hp, hden, ht⟩ := nestedArray_spec k
    refine ⟨?_, ?_, ?_, rfl⟩
    · simp only [nestedArray, JSON.depth, depthItems, hd]
      simp
    · simp only [nestedArray, JSON.Plain, PlainItems]
      exact ⟨hp, trivial⟩
    · simp only [nestedArray, nestedSlice, Denotes, DenotesItems]
      exact ⟨hden, ht, trivial⟩

/-- A JSON string is the JSON form of the Go string of its characters. -/
theorem denotes_string (s : String) : Denotes (.string s) (.string s) := by
  simp only [Denotes]

/-- An object with one member is the JSON form of a struct with one field of
the same name when the value of the member is the form of that of the field. -/
theorem denotes_singleton (key : String) (x : JSON) (v : GoValue) (h : Denotes x v) :
    Denotes (.object [(key, x)]) (.struct [(key, v)]) := by
  simp only [Denotes, DenotesMembers]
  exact ⟨by simp, by simp, by simp, ⟨v, by simp, h⟩, trivial⟩

/-- The data object `deepData k` is nested `k + 2` deep and is the JSON form of
`deepDataValue k`, a value of type `deepDataType k`; the envelope around it is
nested `k + 3` deep and has only integers written in decimal. -/
theorem deepData_spec (k : Nat) :
    (deepData k).depth = k + 2 ∧ Denotes (deepData k) (deepDataValue k) ∧
    (deepDataValue k).typeOf = deepDataType k ∧
    (deepEnvelope k).depth = k + 3 ∧ (deepEnvelope k).Plain := by
  obtain ⟨hd, hp, hden, ht⟩ := nestedArray_spec k
  refine ⟨?_, ?_, ?_, ?_, ?_⟩
  · simp only [deepData, JSON.depth, depthMembers, hd]
    simp
  · simp only [deepData, deepDataValue, Denotes, DenotesMembers]
    exact ⟨by simp, by simp, by simp, ⟨nestedSlice k, by simp, hden⟩, trivial⟩
  · simp only [deepDataValue, deepDataType, GoValue.typeOf, typeOfFields, ht]
  · simp only [deepEnvelope, deepData, JSON.depth, depthMembers, hd]
    simp
  · simp only [deepEnvelope, deepData, JSON.Plain, PlainMembers]
    exact ⟨⟨0, rfl⟩, trivial, ⟨hp, trivial⟩, trivial⟩

/-- A `DoRequest` call answered by the text of a value nested beyond the limit
returns the syntax error of `json.Unmarshal`, wrapped. -/
theorem DoRequest_too_deep {β : Type} (lib : Lib) (jlib : JSONLib)
    (marshal : β → Except GoError Bytes) (vars : Vars) (env : Env) (c : Client)
    (method path : String) (body : Option β) (reqBody : Option Bytes) (status : Nat)
    (x : JSON) (sink : GoValue)
    (hacq : (GetTenantAccessToken lib vars env c).err = none)
    (hbody : marshalBody (jsonCodec marshal jlib) body = .ok reqBody)
    (hnew : lib.newRequestErr method (vars.BaseURL ++ path) = none)
    (hresp : env.api (apiRequest method (vars.BaseURL ++ path) reqBody
      (GetTenantAccessToken lib vars env c).token) = .response status x.render)
    (hplain : x.Plain) (hdeep : maxNestingDepth < x.depth) :
    (DoRequest lib (jsonCodec marshal jlib) vars env c method path body (some sink)).err
      = some (Errorf_w "unmarshal response body failed: " (jlib.invalid x.render)) := by
  rw [DoRequest_dispatched lib (jsonCodec marshal jlib) vars env c method path body
    (some sink) reqBody hacq hbody hnew, hresp]
  simp only [jsonCodec, Unmarshal_too_deep jlib x sink hplain hdeep]

/-- C15, as stated, fails, twice. First, the code 9223372036854775808 is an
integer but no `int`: the endpoint returns the JSON encoding of the envelope
with that code, the message `ok` and the data of the test, the sink is the
result struct of the test, and `DoRequest` returns `unmarshal response body
failed: ...` with the code of the sink still 0. Second, the decoder refuses
arrays and objects nested more than 10000 deep: the data object
`deepData 9998` is the JSON form of a Go value of type `deepDataType 9998` and
is nested 10000 deep, the encoding of the envelope around it 10001 deep, and
`DoRequest` into a sink of that shape returns `unmarshal response body failed:
exceeded max depth`. -/
theorem envelope_overflow_and_nesting_not_decoded :
    ((JSON.object [("code", .number (renderInt 9223372036854775808)), ("msg", .string "ok"),
        ("data", .object [("key", .string "value")])]).render
      = ascii ("\x7b\"code\":9223372036854775808,\"msg\":\"ok\"," ++
          "\"data\":\x7b\"key\":\"value\"\x7d\x7d") ∧
    testSinkType.zero.typeOf = testSinkType ∧
    (DoRequest (scenarioLib ⟨0, "ok", "other", 7200⟩ ⟨0, "", ""⟩)
        (jsonCodec (fun b : Bytes => Except.ok b) scenarioJSONLib) Vars.initial
        (scenarioEnv 5 6 (ascii ("\x7b\"code\":9223372036854775808,\"msg\":\"ok\"," ++
          "\"data\":\x7b\"key\":\"value\"\x7d\x7d")))
        (scenarioClient "test-token" 7200) "GET" "/test/api" none
        (some testSinkType.zero)).err
      = some (.wrapError ("unmarshal response body failed: json: cannot unmarshal number " ++
            "9223372036854775808 into Go struct field .code of type int")
          (.errorString ("json: cannot unmarshal number " ++
            "9223372036854775808 into Go struct field .code of type int"))) ∧
    (DoRequest (scenarioLib ⟨0, "ok", "other", 7200⟩ ⟨0, "", ""⟩)
        (jsonCodec (fun b : Bytes => Except.ok b) scenarioJSONLib) Vars.initial
        (scenarioEnv 5 6 (ascii ("\x7b\"code\":9223372036854775808,\"msg\":\"ok\"," ++
          "\"data\":\x7b\"key\":\"value\"\x7d\x7d")))
        (scenarioClient "test-token" 7200) "GET" "/test/api" none
        (some testSinkType.zero)).result
      = some (.struct [("code", .int 0), ("msg", .string "ok"),
          ("data", .struct [("key", .string "value")])])) ∧
    ((deepData 9998).depth = maxNestingDepth ∧
    Denotes (deepData 9998) (deepDataValue 9998) ∧
    (deepDataValue 9998).typeOf = deepDataType 9998 ∧
    (deepEnvelope 9998).depth = maxNestingDepth + 1 ∧
    (DoRequest (scenarioLib ⟨0, "ok", "other", 7200⟩ ⟨0, "", ""⟩)
        (jsonCodec (fun b : Bytes => Except.ok b) scenarioJSONLib) Vars.initial
        (scenarioEnv 5 6 (deepEnvelope 9998).render)
        (scenarioClient "test-token" 7200) "GET" "/test/api" none
        (some (GoType.struct [("code", .int), ("msg", .string),
          ("data", deepDataType 9998)]).zero)).err
      = some (.wrapError "unmarshal response body failed: exceeded max depth"
          (.errorString "exceeded max depth"))) := by
  obtain ⟨hd, hden, ht, hed, hep⟩ := deepData_spec 9998
  refine ⟨⟨by decide, rfl, rfl, rfl⟩, hd, hden, ht, hed, ?_⟩
  exact DoRequest_too_deep (scenarioLib ⟨0, "ok", "other", 7200⟩ ⟨0, "", ""⟩) scenarioJSONLib
    (fun b : Bytes => Except.ok b) Vars.initial (scenarioEnv 5 6 (deepEnvelope 9998).render)
    (scenarioClient "test-token" 7200) "GET" "/test/api" none none 200 (deepEnvelope 9998) _
    rfl rfl rfl rfl hep (by rw [hed]; exact Nat.lt_succ_self _)

/-- C15, amended. Envelope round trip: for every envelope with a code `c` within
the 64 bits of `int`, a string message `m` and data `d` that is the JSON form
of a Go value `data` (integers within 64 bits, written in decimal) and is
nested, with the envelope around it, at most 10000 deep: when the endpoint
returns the JSON encoding of the envelope as `encoding/json` writes it, its
three members in any order and white space after it allowed, `DoRequest` with
a sink of matching shape (a struct with the fields `code`, `msg` and `data` of
the types `int`, `string` and that of `data`, whatever it holds) returns nil
and leaves the sink holding the code `c`, the message `m` and the data; and
`json.Unmarshal` does the same with any other text it reads as that envelope. -/
theorem DoRequest_envelope_round_trip {β : Type} (lib : Lib) (jlib : JSONLib)
    (marshal : β → Except GoError Bytes) (vars : Vars) (env : Env) (c : Client)
    (method path : String) (body : Option β) (reqBody : Option Bytes) (status : Nat)
    (code : Int) (msg : String) (d : JSON) (data : GoValue) (members : List (String × JSON))
    (trailing : Bytes) (sink : GoValue)
    (hacq : (GetTenantAccessToken lib vars env c).err = none)
    (hbody : marshalBody (jsonCodec marshal jlib) body = .ok reqBody)
    (hnew : lib.newRequestErr method (vars.BaseURL ++ path) = none)
    (hmembers : members.Perm
      [("code", .number (renderInt code)), ("msg", .string msg), ("data", d)])
    (hspace : ∀ b ∈ trailing, isSpace b)
    (hresp : env.api (apiRequest method (vars.BaseURL ++ path) reqBody
      (GetTenantAccessToken lib vars env c).token)
        = .response status ((JSON.object members).render ++ trailing))
    (hcode : -9223372036854775808 ≤ code ∧ code < 9223372036854775808)
    (hdata : Denotes d data) (hdepth : d.depth < maxNestingDepth)
    (hsink : sink.typeOf
      = .struct [("code", .int), ("msg", .string), ("data", data.typeOf)]) :
    (DoRequest lib (jsonCodec marshal jlib) vars env c method path body (some sink)).err = none ∧
    (DoRequest lib (jsonCodec marshal jlib) vars env c method path body (some sink)).result
      = some (.struct [("code", .int code), ("msg", .string msg), ("data", data)]) ∧
    (∀ text : Bytes, parseJSON text = some (.object members) →
      Unmarshal jlib text sink
        = (.struct [("code", .int code), ("msg", .string msg), ("data", data)], none)) := by
  obtain ⟨hden, hdep⟩ := denotes_envelope code msg d data members hmembers hcode hdata
  have htype : sink.typeOf
      = (GoValue.struct [("code", .int code), ("msg", .string msg), ("data", data)]).typeOf := by
    rw [hsink]; rfl
  have hU := Unmarshal_render jlib (.object members) _ sink trailing hden
    (by rw [hdep]; omega) hspace htype
  refine ⟨?_, ?_, ?_⟩
  · rw [DoRequest_dispatched lib (jsonCodec marshal jlib) vars env c method path body
      (some sink) reqBody hacq hbody hnew, hresp]
    simp only [jsonCodec, hU]
  · rw [DoRequest_dispatched lib (jsonCodec marshal jlib) vars env c method path body
      (some sink) reqBody hacq hbody hnew, hresp]
    simp only [jsonCodec, hU]
  · intro text htext
    simp only [Unmarshal, htext, decodeInto_denotes jlib _ _ sink [] hden htype]

/-- Witness of C15: the exchange of `TestDoRequest`. The mock endpoint encodes a
map, so the members come in the order `code`, `data`, `msg` and a line feed
follows; the sink is the zero result struct of the test, and after the call it
holds the code 0, the message `ok` and the key `value`. -/
theorem DoRequest_envelope_round_trip_witness :
    (JSON.object [("code", .number (renderInt 0)),
        ("data", .object [("key", .string "value")]), ("msg", .string "ok")]).render ++ [10]
      = ascii ("\x7b\"code\":0,\"data\":\x7b\"key\":\"value\"\x7d," ++
          "\"msg\":\"ok\"\x7d\n") ∧
    (DoRequest (scenarioLib ⟨0, "ok", "other", 7200⟩ ⟨0, "", ""⟩)
        (jsonCodec (fun b : Bytes => Except.ok b) scenarioJSONLib) Vars.initial
        (scenarioEnv 5 6 (ascii ("\x7b\"code\":0,\"data\":\x7b\"key\":\"value\"\x7d," ++
          "\"msg\":\"ok\"\x7d\n")))
        (scenarioClient "test-token" 7200) "GET" "/test/api" none
        (some testSinkType.zero)).err = none ∧
    (DoRequest (scenarioLib ⟨0, "ok", "other", 7200⟩ ⟨0, "", ""⟩)
        (jsonCodec (fun b : Bytes => Except.ok b) scenarioJSONLib) Vars.initial
        (scenarioEnv 5 6 (ascii ("\x7b\"code\":0,\"data\":\x7b\"key\":\"value\"\x7d," ++
          "\"msg\":\"ok\"\x7d\n")))
        (scenarioClient "test-token" 7200) "GET" "/test/api" none
        (some testSinkType.zero)).result
      = some (.struct [("code", .int 0), ("msg", .string "ok"),
          ("data", .struct [("key", .string "value")])]) :=
  ⟨by decide,
    (DoRequest_envelope_round_trip (scenarioLib ⟨0, "ok", "other", 7200⟩ ⟨0, "", ""⟩)
      scenarioJSONLib (fun b : Bytes => Except.ok b) Vars.initial
      (scenarioEnv 5 6 (ascii ("\x7b\"code\":0,\"data\":\x7b\"key\":\"value\"\x7d," ++
          "\"msg\":\"ok\"\x7d\n")))
      (scenarioClient "test-token" 7200) "GET" "/test/api" none none 200 0 "ok"
      (.object [("key", .string "value")]) (.struct [("key", .string "value")])
      [("code", .number (renderInt 0)), ("data", .object [("key", .string "value")]),
        ("msg", .string "ok")]
      [10] testSinkType.zero (by decide) rfl (by decide)
      (List.Perm.cons _ (List.Perm.swap _ _ _))
      (fun b hb => by simp only [List.mem_singleton] at hb; subst hb; decide)
      rfl (by decide) (denotes_singleton "key" _ _ (denotes_string "value")) (by decide) rfl).1,
    (DoRequest_envelope_round_trip (scenarioLib ⟨0, "ok", "other", 7200⟩ ⟨0, "", ""⟩)
      scenarioJSONLib (fun b : Bytes => Except.ok b) Vars.initial
      (scenarioEnv 5 6 (ascii ("\x7b\"code\":0,\"data\":\x7b\"key\":\"value\"\x7d," ++
          "\"msg\":\"ok\"\x7d\n")))
      (scenarioClient "test-token" 7200) "GET" "/test/api" none none 200 0 "ok"
      (.object [("key", .string "value")]) (.struct [("key", .string "value")])
      [("code", .number (renderInt 0)), ("data", .object [("key", .string "value")]),
        ("msg", .string "ok")]
      [10] testSinkType.zero (by decide) rfl (by decide)
      (List.Perm.cons _ (List.Perm.swap _ _ _))
      (fun b hb => by simp only [List.mem_singleton] at hb; subst hb; decide)
      rfl (by decide) (denotes_singleton "key" _ _ (denotes_string "value")) (by decide) rfl).2.1⟩

end Easylark
